import Mathlib

/-!
# FaunaFrontierGBA: a shallow embedding of `src/main.c`

Conventions of the embedding.

* C `int` is `Int`. The counters of the game (steps, resources, hit points) change by small
  steps and are not reduced modulo 2^32. The capture chance multiplies by 100, so there every
  result is reduced to the 32-bit two's complement range with `wrap32` (signed overflow is
  undefined in C; the ARM code of the cartridge wraps).
  `/` and `%` of C are `Int.tdiv` and `Int.tmod` (truncation toward zero).
* C `char` is `Char`; `const char*` is `CStr`, with `none` for the null pointer.
* A C array is a total function of its `Int` index; only the indices inside the declared
  bounds stand for C objects (an access outside them is undefined in C).
* The globals of the program are the fields of `Game`. The hidden state of `rand()` is the
  field `rand_seq`, the sequence of values the next calls will return.
* The keypad is an explicit trace: the list of the values the successive `key_down()` and
  `key_held()` calls return. A function that polls the keypad ends as `pending` when the
  trace ends before it returns.
* Console output (`iprintf`, `putchar`) is not part of the state; `msg_timer` is.
-/

namespace FaunaFrontier

/-! ## Constants and types -/

def MAP_W : Int := 80
def MAP_H : Int := 64

def TILE_EMPTY : Char := '.'
def TILE_GRASS : Char := 'G'
def TILE_TREE : Char := 'Y'
def TILE_WALL : Char := '#'
def TILE_WATER : Char := 'W'
def TILE_SAND : Char := 'S'
def TILE_BASE : Char := '='
def TILE_TOWER : Char := 'T'
def TILE_FARM : Char := 'F'
def TILE_FIRE : Char := 'H'
def TILE_POST : Char := 'P'
def TILE_NPC : Char := '@'

def MAX_COMPANIONS : Int := 3
def MAX_MISSIONS : Int := 5
def MAX_NPC : Int := 6

/-- The C character with code 0. -/
def NUL : Char := Char.ofNat 0

/-- A `const char*`: `none` is the null pointer. -/
abbrev CStr := Option String

inductive GameState where
  | GS_WORLD | GS_BATTLE | GS_MSG | GS_MENU | GS_BOSS
  deriving DecidableEq, Repr

inductive ElemType where
  | TYPE_NEUTRAL | TYPE_FIRE | TYPE_WATER | TYPE_GRASS | TYPE_ELEC
  deriving DecidableEq, Repr

open GameState ElemType

structure Creature where
  name : CStr
  type : ElemType
  max_hp : Int
  hp : Int
  atk : Int
  speed : Int
  ability : CStr
  caught : Int
  deriving DecidableEq, Repr

structure Player where
  x : Int
  y : Int
  steps : Int
  orbs : Int
  wood : Int
  stone : Int
  deriving DecidableEq, Repr

structure Mission where
  title : CStr
  desc : CStr
  completed : Int
  deriving DecidableEq, Repr

structure NPC where
  x : Int
  y : Int
  name : CStr
  lines : Int → CStr
  line_count : Int
  gave_gift : Int
  gift_wood : Int
  gift_stone : Int
  gift_orb : Int

structure BuildDefLocal where
  name : CStr
  required_wood : Int
  required_stone : Int
  tile_char : Char
  deriving DecidableEq, Repr

/-- The record `SaveData` that `save_game` writes to SRAM and `load_game` reads back. -/
structure SaveData where
  sig : Int → Char
  px : Int
  py : Int
  steps : Int
  orbs : Int
  wood : Int
  stone : Int
  comp_count : Int
  comps : Int → Creature
  missions : Int → Int

/-- The global variables of the program, and the sequence `rand()` will return. -/
structure Game where
  map_data : Int → Int → Char
  player : Player
  gstate : GameState
  wild : Creature
  boss : Creature
  companions : Int → Creature
  companion_count : Int
  sel_build : Int
  msg_timer : Int
  seed0 : Int
  npcs : Int → NPC
  npc_count : Int
  sel_build_idx : Int
  MISSIONS : Int → Mission
  rand_seq : Nat → Nat

/-- The buttons set in one value returned by `key_down()`: `kd & KEY_A` is `kd.a`, and so on. -/
structure Keys where
  a : Bool
  b : Bool
  select : Bool
  start : Bool
  right : Bool
  left : Bool
  up : Bool
  down : Bool
  r : Bool
  l : Bool
  deriving DecidableEq, Repr

/-! ## Zero-initialised objects -/

/-- A `Creature` whose bytes are all zero. -/
def zero_creature : Creature :=
  { name := none, type := TYPE_NEUTRAL, max_hp := 0, hp := 0, atk := 0, speed := 0,
    ability := none, caught := 0 }

/-- An `NPC` whose bytes are all zero. -/
def zero_npc : NPC :=
  { x := 0, y := 0, name := none, lines := fun _ => none, line_count := 0, gave_gift := 0,
    gift_wood := 0, gift_stone := 0, gift_orb := 0 }

/-- The initialiser of the static array `MISSIONS`. -/
def MISSIONS_init : Int → Mission := fun i =>
  if i = 0 then ⟨some "Raccoglitore", some "Raccogli 10 Legno e 6 Pietra.", 0⟩
  else if i = 1 then ⟨some "Banco lavoro", some "Costruisci un Posto di lavoro.", 0⟩
  else if i = 2 then ⟨some "Difesa & Cibo", some "Costruisci 1 Torretta e 1 Farm.", 0⟩
  else if i = 3 then ⟨some "Cacciatore", some "Cattura 2 creature diverse.", 0⟩
  else if i = 4 then ⟨some "Miniboss", some "Sconfiggi il boss notturno nel Bosco.", 0⟩
  else ⟨none, none, 0⟩

/-- The globals as the C runtime initialises them before `main` runs. -/
def initial_globals (rand_seq : Nat → Nat) : Game :=
  { map_data := fun _ _ => NUL
    player := ⟨0, 0, 0, 0, 0, 0⟩
    gstate := GS_WORLD
    wild := zero_creature
    boss := zero_creature
    companions := fun _ => zero_creature
    companion_count := 0
    sel_build := 0
    msg_timer := 0
    seed0 := 1
    npcs := fun _ => zero_npc
    npc_count := 0
    sel_build_idx := 0
    MISSIONS := MISSIONS_init
    rand_seq := rand_seq }

/-! ## RNG and utilities -/

/-- One call of `rand()`: the head of the sequence, which then advances. -/
def rand (g : Game) : Nat × Game :=
  (g.rand_seq 0, { g with rand_seq := fun n => g.rand_seq (n + 1) })

/-- The arithmetic of `rand_range` on the value `v` that `rand()` returned. -/
def rand_range_of (a b : Int) (v : Nat) : Int :=
  a + Int.tmod ((v &&& 0x7fffffff : Nat) : Int) (b - a + 1)

def rand_range (a b : Int) (g : Game) : Int × Game :=
  (rand_range_of a b (rand g).1, (rand g).2)

def is_night (g : Game) : Bool := decide (Int.tmod g.player.steps 40 ≥ 30)

/-! ## Creatures -/

def make_creature (name : CStr) (type : ElemType) (hp atk spd : Int) (ability : CStr) :
    Creature :=
  { name := name, type := type, max_hp := hp, hp := hp, atk := atk, speed := spd,
    ability := ability, caught := 0 }

/-- The function `random_wild`. Every case of its `switch` makes the same second call
`rand_range(0,6)`, written once here as `h`. -/
def random_wild (g : Game) : Creature × Game :=
  let r := rand_range 0 3 g
  let h := rand_range 0 6 r.2
  if r.1 = 0 then (make_creature (some "Flarepup") TYPE_FIRE (24 + h.1) 6 6 (some "Rapido"), h.2)
  else if r.1 = 1 then
    (make_creature (some "Aquadine") TYPE_WATER (28 + h.1) 5 5 (some "Cura"), h.2)
  else if r.1 = 2 then
    (make_creature (some "Sproutle") TYPE_GRASS (26 + h.1) 5 5 (some "Tenace"), h.2)
  else (make_creature (some "Voltbit") TYPE_ELEC (22 + h.1) 7 7 (some "Rapido"), h.2)

def type_multiplier (a b : ElemType) : Int :=
  if a = TYPE_FIRE ∧ b = TYPE_GRASS then 2
  else if a = TYPE_WATER ∧ b = TYPE_FIRE then 2
  else if a = TYPE_GRASS ∧ b = TYPE_WATER then 2
  else if a = TYPE_ELEC ∧ b = TYPE_WATER then 2
  else 1

/-! ## Building -/

/-- The static table `BUILDINGS_LOCAL`. -/
def BUILDINGS_LOCAL : Int → BuildDefLocal := fun i =>
  if i = 0 then ⟨some "PostoLavoro", 10, 6, TILE_POST⟩
  else if i = 1 then ⟨some "Torretta", 14, 10, TILE_TOWER⟩
  else if i = 2 then ⟨some "Farm", 8, 8, TILE_FARM⟩
  else if i = 3 then ⟨some "Falo", 6, 4, TILE_FIRE⟩
  else ⟨none, 0, 0, NUL⟩

def current_build_name (g : Game) : CStr := (BUILDINGS_LOCAL g.sel_build_idx).name
def current_build_tile (g : Game) : Char := (BUILDINGS_LOCAL g.sel_build_idx).tile_char
def current_build_w (g : Game) : Int := (BUILDINGS_LOCAL g.sel_build_idx).required_wood
def current_build_s (g : Game) : Int := (BUILDINGS_LOCAL g.sel_build_idx).required_stone

def can_build_here (tile : Char) : Int :=
  if tile = TILE_EMPTY ∨ tile = TILE_BASE then 1
  else if tile = TILE_GRASS ∨ tile = TILE_SAND then 1
  else 0

/-- The assignment `map_data[y][x] = ch`. -/
def set_cell (m : Int → Int → Char) (y x : Int) (ch : Char) : Int → Int → Char :=
  fun y1 x1 => if y1 = y ∧ x1 = x then ch else m y1 x1

def try_build (g : Game) : Game :=
  let cell := g.map_data g.player.y g.player.x
  if can_build_here cell = 0 then { g with msg_timer := 40 }
  else if g.player.wood < current_build_w g ∨ g.player.stone < current_build_s g then
    { g with msg_timer := 40 }
  else
    { g with
      player := { g.player with
        wood := g.player.wood - current_build_w g
        stone := g.player.stone - current_build_s g }
      map_data := set_cell g.map_data g.player.y g.player.x (current_build_tile g)
      msg_timer := 60 }

/-! ## Loops and arrays -/

/-- The assignment `arr[i] = v`. -/
def set_at {α : Type} (arr : Int → α) (i : Int) (v : α) : Int → α :=
  fun j => if j = i then v else arr j

/-- The loop `for (...; cond(i); i++) body(i)` entered with the counter at `i`, for a body that
does not assign the counter. `fuel` bounds the number of iterations; every use passes the
number of iterations its condition allows. -/
def for_loop {σ : Type} : Nat → (Int → Bool) → (Int → σ → σ) → Int → σ → σ
  | 0, _, _, _, s => s
  | fuel + 1, cond, body, i, s =>
    if cond i then for_loop fuel cond body (i + 1) (body i s) else s

/-- The loop `for (i = lo; i < hi; i++) body(i)`. -/
def for_lt {σ : Type} (lo hi : Int) (body : Int → σ → σ) (s : σ) : σ :=
  for_loop (hi - lo).toNat (fun i => decide (i < hi)) body lo s

/-! ## Map -/

def put_rect (x0 y0 x1 y1 : Int) (ch : Char) (m : Int → Int → Char) : Int → Int → Char :=
  for_lt y0 (y1 + 1) (fun y m => for_lt x0 (x1 + 1) (fun x m => set_cell m y x ch) m) m

/-- The first loop nest of `build_map`: grass inside, wall on the border, a terminator after
each row. -/
def fill_base (m : Int → Int → Char) : Int → Int → Char :=
  for_lt 0 MAP_H (fun y m =>
    let m1 := for_lt 0 MAP_W (fun x m =>
      let t := if y = 0 ∨ y = MAP_H - 1 ∨ x = 0 ∨ x = MAP_W - 1 then TILE_WALL else TILE_GRASS
      set_cell m y x t) m
    set_cell m1 y MAP_W NUL) m

/-- One iteration of the tree loop of `build_map`. -/
def scatter_tree (g : Game) : Game :=
  let x := rand_range 2 (MAP_W - 3) g
  let y := rand_range 2 (MAP_H - 3) x.2
  let r := rand_range 0 100 y.2
  if r.1 < 60 then { r.2 with map_data := set_cell r.2.map_data y.1 x.1 TILE_TREE } else r.2

def npc_lines (l0 l1 l2 : String) : Int → CStr := fun i =>
  if i = 0 then some l0 else if i = 1 then some l1 else if i = 2 then some l2 else none

/-- The tree loop of `build_map`: `for(int i=0;i<300;i++){...}`. -/
def scatter_trees (g : Game) : Game := for_lt 0 300 (fun _ g => scatter_tree g) g

/-- The function `build_map`: the map in `m3` to `m7` after each of its later loops, then the
three NPCs and the player. -/
def build_map (g : Game) : Game :=
  let g1 := { g with map_data := fill_base g.map_data }
  let g2 := scatter_trees g1
  let m3 := put_rect 50 6 72 16 TILE_WATER g2.map_data
  let m4 := put_rect 8 36 30 56 TILE_SAND m3
  let m5 := for_lt 18 54 (fun y m => set_cell m y 44 TILE_WALL) m4
  let m6 := for_lt 20 40 (fun x m => set_cell m 28 x TILE_WALL) m5
  let m7 := for_lt 2 8 (fun y m => for_lt 2 10 (fun x m => set_cell m y x TILE_BASE) m) m6
  let n0 : NPC := ⟨6, 6, some "Saggio",
    npc_lines "Benvenuto, costruttore." "Raccogli legno e pietra." "Apri SELECT per craft.",
    3, 1, 3, 2, 0⟩
  let n1 : NPC := ⟨22, 26, some "Cacciatrice",
    npc_lines "Di notte emergono nemici." "Una Torretta aiuta molto." "Occhio all'energia.",
    3, 1, 0, 2, 1⟩
  let n2 : NPC := ⟨60, 12, some "Guardiano",
    npc_lines "Nel bosco a nord-est" "si cela un Boss notturno." "Preparati bene.",
    3, 1, 0, 0, 2⟩
  { g2 with
    map_data := m7
    npc_count := 3
    npcs := set_at (set_at (set_at g2.npcs 0 n0) 1 n1) 2 n2
    player := { x := 4, y := 4, steps := 0, orbs := 1, wood := 8, stone := 5 } }

/-! ## NPCs -/

def adjacent (x1 y1 x2 y2 : Int) : Int :=
  let dx := x1 - x2
  let dx := if dx < 0 then -dx else dx
  let dy := y1 - y2
  let dy := if dy < 0 then -dy else dy
  if dx + dy = 1 then 1 else 0

def gift_from_npc (n : NPC) (player : Player) : NPC × Player :=
  if n.gave_gift ≠ 0 then (n, player)
  else
    ({ n with gave_gift := 1 },
     { player with
       wood := player.wood + n.gift_wood
       stone := player.stone + n.gift_stone
       orbs := player.orbs + n.gift_orb })

/-- The loop `while(1){ if (key_down() & KEY_A) break; wait_vblank(); }`: the trace left
after the first value with A set, or `none` when no value of the trace has it. -/
def wait_A : List Keys → Option (List Keys)
  | [] => none
  | k :: ks => if k.a then some ks else wait_A ks

/-- A run of a function that polls the keypad: `done` when it returns, with its value, the
globals and the unread trace; `pending` when the trace ends first, with the globals at that
moment. -/
inductive Run (α : Type) where
  | done (val : α) (g : Game) (keys : List Keys)
  | pending (g : Game)

/-- The globals at the end of a run. -/
def Run.game {α : Type} : Run α → Game
  | Run.done _ g _ => g
  | Run.pending g => g

/-- The function returned before the trace ended. -/
def Run.returned {α : Type} : Run α → Bool
  | Run.done _ _ _ => true
  | Run.pending _ => false

/-- The value the function returned, when it did return. -/
def Run.value {α : Type} : Run α → Option α
  | Run.done v _ _ => some v
  | Run.pending _ => none

/-- The loop of `talk_to_nearby_npc` entered with the counter at `i`, and the code after it.
`fuel` bounds the iterations. -/
def talk_scan (g : Game) (keys : List Keys) : Nat → Int → Run Unit
  | 0, _ => Run.done () { g with msg_timer := 30 } keys
  | fuel + 1, i =>
    if i < g.npc_count then
      if adjacent g.player.x g.player.y (g.npcs i).x (g.npcs i).y ≠ 0 then
        let r := gift_from_npc (g.npcs i) g.player
        let g1 := { g with npcs := set_at g.npcs i r.1, player := r.2 }
        match wait_A keys with
        | none => Run.pending g1
        | some ks => Run.done () g1 ks
      else talk_scan g keys fuel (i + 1)
    else Run.done () { g with msg_timer := 30 } keys

def talk_to_nearby_npc (g : Game) (keys : List Keys) : Run Unit :=
  talk_scan g keys g.npc_count.toNat 0

/-! ## Battles -/

def type_mul (a b : ElemType) : Int := type_multiplier a b

/-- How one pass through the body of the `while(1)` of `do_battle` ends: at the
`wait_vblank()` that closes the body, at a `return`, or inside a wait for A when the trace
ends. -/
inductive Flow where
  | next (sel : Int) (g : Game)
  | ret (code : Int) (g : Game) (keys : List Keys)
  | pending (g : Game)

/-- The globals at the end of a pass. -/
def Flow.game : Flow → Game
  | Flow.next _ g => g
  | Flow.ret _ g _ => g
  | Flow.pending g => g

/-- The menu cursor after `if (kd & KEY_UP){ if(--sel<0) sel=3; }` and
`if (kd & KEY_DOWN){ if(++sel>3) sel=0; }`. -/
def move_sel (sel : Int) (kd : Keys) : Int :=
  let sel1 := if kd.up then (if sel - 1 < 0 then 3 else sel - 1) else sel
  if kd.down then (if sel1 + 1 > 3 then 0 else sel1 + 1) else sel1

/-- The block `if (sel==0){...}` of `do_battle`. -/
def quick_attack (g : Game) : Game :=
  let mult := type_mul TYPE_NEUTRAL g.wild.type
  let dmg := 4 * mult + (if is_night g then 1 else 0)
  let hp := g.wild.hp - dmg
  { g with wild := { g.wild with hp := if hp < 0 then 0 else hp } }

/-- The block `if (sel==1){...}` of `do_battle`. -/
def special_move (g : Game) : Game :=
  let et := if g.companion_count > 0 then (g.companions 0).type else TYPE_GRASS
  let mult := type_mul et g.wild.type
  let dmg := 6 * mult
  let hp := g.wild.hp - dmg
  { g with wild := { g.wild with hp := if hp < 0 then 0 else hp } }

/-- The 32-bit `int` that holds the integer `n`: the value congruent to `n` modulo 2^32 in
the range from -2^31 to 2^31 - 1. -/
def wrap32 (n : Int) : Int := (n + 2147483648) % 4294967296 - 2147483648

/-- The value of `chance` in the capture block of `do_battle`:
`int chance=(wild.max_hp-wild.hp)*100/(wild.max_hp+1)+10;`, every intermediate result held in
a 32-bit `int`. A zero divisor (`max_hp = -1`, undefined in C) gives the quotient 0 here. -/
def capture_chance (wild : Creature) : Int :=
  wrap32 (wrap32 (Int.tdiv (wrap32 (wrap32 (wild.max_hp - wild.hp) * 100))
    (wrap32 (wild.max_hp + 1))) + 10)

/-- The statements of the capture block that follow the wait for A:
`if (companion_count<MAX_COMPANIONS){ companions[companion_count++]=wild;
companions[companion_count-1].caught=1; }`. -/
def add_companion (g : Game) : Game :=
  if g.companion_count < MAX_COMPANIONS then
    let g1 := { g with
      companions := set_at g.companions g.companion_count g.wild
      companion_count := g.companion_count + 1 }
    { g1 with
      companions := set_at g1.companions (g1.companion_count - 1)
        { g1.companions (g1.companion_count - 1) with caught := 1 } }
  else g

/-- The globals after `int roll=rand_range(0,99); player.orbs--;`. -/
def spend_orb (g : Game) : Game :=
  let roll := rand_range 0 99 g
  { roll.2 with player := { roll.2.player with orbs := roll.2.player.orbs - 1 } }

/-- The block `if (sel==2){...}` of `do_battle`, entered with `keys` still to be read.
`Flow.next` means that control leaves the block at its end. -/
def capture_attempt (sel : Int) (g : Game) (keys : List Keys) : Flow :=
  if g.player.orbs ≤ 0 then Flow.next sel g
  else
    let chance := capture_chance g.wild
    let roll := rand_range 0 99 g
    let g1 := spend_orb g
    if roll.1 ≤ chance then
      match wait_A keys with
      | none => Flow.pending g1
      | some ks => Flow.ret 3 (add_companion g1) ks
    else Flow.next sel g1

/-- The code of the loop body that follows the capture block: the end of the block
`if (kd & KEY_A){...}`. -/
def after_action (sel : Int) (g : Game) (keys : List Keys) : Flow :=
  if sel = 3 then Flow.ret 0 g keys
  else if g.wild.hp = 0 then
    match wait_A keys with
    | none => Flow.pending g
    | some ks => Flow.ret 2 g ks
  else Flow.next sel g

/-- The blocks `if (sel==0){...}` and `if (sel==1){...}` of `do_battle`, in sequence. -/
def attacks (sel : Int) (g : Game) : Game :=
  let g1 := if sel = 0 then quick_attack g else g
  if sel = 1 then special_move g1 else g1

/-- The block `if (kd & KEY_A){...}` of `do_battle`. -/
def action_A (sel : Int) (g : Game) (keys : List Keys) : Flow :=
  let g2 := attacks sel g
  if sel = 2 then
    match capture_attempt sel g2 keys with
    | Flow.next _ g3 => after_action sel g3 keys
    | r => r
  else after_action sel g2 keys

/-- One pass through the body of the `while(1)` of `do_battle`: `kd` is the value
`key_down()` returned at its top and `keys` the rest of the trace. -/
def battle_body (sel : Int) (kd : Keys) (g : Game) (keys : List Keys) : Flow :=
  let sel1 := move_sel sel kd
  let r := if kd.a then action_A sel1 g keys else Flow.next sel1 g
  match r with
  | Flow.next _ g1 => if kd.b then Flow.ret 0 g1 keys else Flow.next sel1 g1
  | r => r

/-- The `while(1)` of `do_battle` on the trace of the values `key_down()` returns. -/
def battle_loop : List Keys → Int → Game → Run Int
  | [], _, g => Run.pending g
  | kd :: ks, sel, g =>
    match battle_body sel kd g ks with
    | Flow.next sel1 g1 => battle_loop ks sel1 g1
    | Flow.ret code g1 ks1 => Run.done code g1 ks1
    | Flow.pending g1 => Run.pending g1

def do_battle (g : Game) (keys : List Keys) : Run Int :=
  battle_loop keys 0 g

/-! ## SRAM save -/

/-- A string literal as the array of its characters, terminator included. -/
def cstring (s : String) : Int → Char := fun i =>
  if 0 ≤ i then s.data.getD i.toNat NUL else NUL

def SAVE_SIGNATURE : Int → Char := cstring "FFGE1"

/-- The library routine `strncpy(dst, src, n)`, entered at index `i` with `n` characters left
to write; `ended` tells that the terminator of `src` has been copied, after which it pads
with terminators. -/
def strncpy_from (src : Int → Char) : Nat → Int → Bool → (Int → Char) → (Int → Char)
  | 0, _, _, dst => dst
  | n + 1, i, ended, dst =>
    let c := if ended then NUL else src i
    strncpy_from src n (i + 1) (ended || c == NUL) (set_at dst i c)

def strncpy (dst src : Int → Char) (n : Nat) : Int → Char := strncpy_from src n 0 false dst

/-- The library routine `strncmp(s1, s2, n)`, entered at index `i` with `n` characters left to
compare. -/
def strncmp_from (s1 s2 : Int → Char) : Nat → Int → Int
  | 0, _ => 0
  | n + 1, i =>
    if s1 i ≠ s2 i then ((s1 i).toNat : Int) - ((s2 i).toNat : Int)
    else if s1 i = NUL then 0
    else strncmp_from s1 s2 n (i + 1)

def strncmp (s1 s2 : Int → Char) (n : Nat) : Int := strncmp_from s1 s2 n 0

/-- The local `sv` after `memset(&sv, 0, sizeof(sv))`. -/
def zero_save : SaveData :=
  { sig := fun _ => NUL, px := 0, py := 0, steps := 0, orbs := 0, wood := 0, stone := 0,
    comp_count := 0, comps := fun _ => zero_creature, missions := fun _ => 0 }

/-- The function `save_game`: its return value and the record that `sram_write` copies to
SRAM. -/
def save_game (pl : Player) (comps : Int → Creature) (comp_count : Int)
    (ms : Int → Mission) : Int × SaveData :=
  let sv := zero_save
  let sv := { sv with sig := strncpy sv.sig SAVE_SIGNATURE 6 }
  let sv := { sv with px := pl.x, py := pl.y, steps := pl.steps }
  let sv := { sv with orbs := pl.orbs, wood := pl.wood, stone := pl.stone }
  let sv := { sv with comp_count := comp_count }
  let sv := { sv with
    comps := for_loop MAX_COMPANIONS.toNat
      (fun i => decide (i < comp_count) && decide (i < MAX_COMPANIONS))
      (fun i c => set_at c i (comps i)) 0 sv.comps }
  let sv := { sv with
    missions := for_lt 0 MAX_MISSIONS (fun i m => set_at m i (ms i).completed) sv.missions }
  (1, sv)

/-- What `load_game` reaches through its four pointer arguments. -/
structure Loaded where
  pl : Player
  comps : Int → Creature
  comp_count : Int
  ms : Int → Mission

/-- The function `load_game` on the record `sram` that `sram_read` copies from SRAM: its
return value and the objects behind its arguments afterwards. -/
def load_game (sram : SaveData) (a : Loaded) : Int × Loaded :=
  let sv := sram
  if strncmp sv.sig SAVE_SIGNATURE 5 ≠ 0 then (0, a)
  else
    let pl : Player :=
      { a.pl with x := sv.px, y := sv.py, steps := sv.steps,
                  orbs := sv.orbs, wood := sv.wood, stone := sv.stone }
    let comp_count := if sv.comp_count > MAX_COMPANIONS then MAX_COMPANIONS else sv.comp_count
    let comps := for_lt 0 comp_count (fun i c => set_at c i (sv.comps i)) a.comps
    let ms := for_lt 0 MAX_MISSIONS
      (fun i m => set_at m i { m i with completed := sv.missions i }) a.ms
    (1, { pl := pl, comps := comps, comp_count := comp_count, ms := ms })

/-! ## Gathering, crafting, orbs -/

/-- The function `ability_tick` on the creature behind its argument. `strcmp` returns 0 iff
the ability is the string "Cura"; `rand_range` is called only then. -/
def ability_tick (c : Creature) (g : Game) : Creature × Game :=
  if c.ability = some "Cura" then
    let r := rand_range 0 99 g
    if r.1 < 30 then
      let hp := c.hp + 2
      ({ c with hp := if hp > c.max_hp then c.max_hp else hp }, r.2)
    else (c, r.2)
  else (c, g)

/-- The body of the loop of the Fire tile on one companion:
`companions[i].hp += 4; if (companions[i].hp>companions[i].max_hp) ...=max_hp;`. -/
def heal_companion (c : Creature) : Creature :=
  let hp := c.hp + 4
  { c with hp := if hp > c.max_hp then c.max_hp else hp }

/-- The roster after the loop of the Fire tile. -/
def fire_heal (g : Game) : Int → Creature :=
  for_lt 0 g.companion_count (fun i c => set_at c i (heal_companion (c i))) g.companions

def try_gather_or_action (g : Game) (keys : List Keys) : Run Unit :=
  let cell := g.map_data g.player.y g.player.x
  if cell = TILE_WALL then Run.done () { g with msg_timer := 40 } keys
  else if cell = TILE_WATER then Run.done () { g with msg_timer := 40 } keys
  else if cell = TILE_TREE then
    let r := rand_range 0 99 g
    if r.1 < 70 then
      Run.done () { r.2 with
        player := { r.2.player with wood := r.2.player.wood + 1 }
        msg_timer := 30 } keys
    else Run.done () { r.2 with msg_timer := 30 } keys
  else if cell = TILE_GRASS ∨ cell = TILE_SAND then
    let r := rand_range 0 99 g
    if r.1 < 18 then
      let w := random_wild r.2
      Run.done () { w.2 with wild := w.1, gstate := GS_BATTLE } keys
    else Run.done () { r.2 with msg_timer := 20 } keys
  else if cell = TILE_POST then
    let bonus : Int := if g.companion_count > 0 then 1 else 0
    let roll := rand_range 0 1 g
    if roll.1 = 0 then
      Run.done () { roll.2 with
        player := { roll.2.player with wood := roll.2.player.wood + (1 + bonus) }
        msg_timer := 30 } keys
    else
      Run.done () { roll.2 with
        player := { roll.2.player with stone := roll.2.player.stone + (1 + bonus) }
        msg_timer := 30 } keys
  else if cell = TILE_FARM then
    Run.done () { g with
      player := { g.player with wood := g.player.wood + 1 }
      msg_timer := 20 } keys
  else if cell = TILE_FIRE then
    Run.done () { g with companions := fire_heal g, msg_timer := 30 } keys
  else talk_to_nearby_npc g keys

def try_craft_quick (g : Game) : Game :=
  if g.player.wood ≥ 5 ∧ g.player.stone ≥ 3 then
    { g with
      player := { g.player with
        wood := g.player.wood - 5
        stone := g.player.stone - 3
        orbs := g.player.orbs + 1 }
      msg_timer := 30 }
  else if g.player.wood ≥ 10 ∧ g.player.stone ≥ 6 ∧
      can_build_here (g.map_data g.player.y g.player.x) ≠ 0 then
    { g with
      player := { g.player with
        wood := g.player.wood - 10
        stone := g.player.stone - 6 }
      map_data := set_cell g.map_data g.player.y g.player.x TILE_POST
      msg_timer := 30 }
  else { g with msg_timer := 30 }

def try_throw_orb (g : Game) : Game :=
  if g.player.orbs ≤ 0 then { g with msg_timer := 40 }
  else
    let r := rand_range 0 99 g
    if r.1 < 12 then
      let w := random_wild r.2
      { w.2 with wild := w.1, gstate := GS_BATTLE, msg_timer := 30 }
    else
      { r.2 with
        player := { r.2.player with orbs := r.2.player.orbs - 1 }
        msg_timer := 30 }

/-! ## Game loop -/

def near_boss_area (g : Game) : Bool :=
  decide (g.player.x > 55 ∧ g.player.x < 75 ∧ g.player.y > 6 ∧ g.player.y < 20)

/-- The night trigger in the world block of `main`; `rand_range` is called only at night
inside the boss area. -/
def boss_bonus (g : Game) : Game :=
  if is_night g && near_boss_area g then
    let r := rand_range 0 99 g
    if r.1 < 5 then
      { r.2 with player := { r.2.player with orbs := r.2.player.orbs + 2 }, msg_timer := 40 }
    else r.2
  else g

/-- The value of `dx` after the chain of tests of the held directions. -/
def held_dx (held : Keys) : Int :=
  if held.up then 0 else if held.down then 0 else if held.left then -1
  else if held.right then 1 else 0

/-- The value of `dy` after the chain of tests of the held directions. -/
def held_dy (held : Keys) : Int :=
  if held.up then -1 else if held.down then 1 else 0

/-- The block `if (dx||dy){...}` of `main`. -/
def try_move (dx dy : Int) (g : Game) : Game :=
  if dx ≠ 0 ∨ dy ≠ 0 then
    let nx := g.player.x + dx
    let ny := g.player.y + dy
    if nx ≥ 1 ∧ nx < MAP_W - 1 ∧ ny ≥ 1 ∧ ny < MAP_H - 1 then
      if g.map_data ny nx ≠ TILE_WALL ∧ g.map_data ny nx ≠ TILE_WATER then
        { g with player := { g.player with x := nx, y := ny, steps := g.player.steps + 1 } }
      else g
    else g
  else g

/-- The movement of the world block of `main`, from `if (move_cd>0) move_cd--;` to the end
of `if (move_cd==0){...}`: the new value of the local `move_cd` and the globals. -/
def move_block (held : Keys) (move_cd : Int) (g : Game) : Int × Game :=
  let cd := if move_cd > 0 then move_cd - 1 else move_cd
  if cd = 0 then
    let cd1 := if held.up || held.down || held.left || held.right then 3 else cd
    (cd1, try_move (held_dx held) (held_dy held) g)
  else (cd, g)

/-- The globals, the save record in SRAM and the local `move_cd` of `main`. -/
structure World where
  g : Game
  sram : SaveData
  move_cd : Int

/-- A run of a part of `main` that polls the keypad: `done` with the state and the unread
trace, or `pending` with the state reached when the trace ends first. -/
inductive FrameRun where
  | done (w : World) (keys : List Keys)
  | pending (w : World)

/-- The state at the end of a run. -/
def FrameRun.world : FrameRun → World
  | FrameRun.done w _ => w
  | FrameRun.pending w => w

/-- The objects `show_menu` passes to `load_game`. -/
def loaded_of (g : Game) : Loaded :=
  { pl := g.player, comps := g.companions, comp_count := g.companion_count, ms := g.MISSIONS }

/-- The loops of `show_menu` on the trace of the values `key_down()` returns. The flag tells
that control is in the innermost loop, which shows the missions and waits for B or START;
leaving it restarts the outer loop. -/
def show_menu_loop : Bool → List Keys → World → FrameRun
  | _, [], w => FrameRun.pending w
  | true, k2 :: ks, w =>
    if k2.b || k2.start then show_menu_loop false ks w else show_menu_loop true ks w
  | false, kd :: ks, w =>
    if kd.b || kd.start then FrameRun.done w ks
    else if kd.a then show_menu_loop true ks w
    else
      let w1 := if kd.select then
          { w with sram := (save_game w.g.player w.g.companions w.g.companion_count
              w.g.MISSIONS).2 }
        else w
      let w2 := if kd.r then
          let l := (load_game w1.sram (loaded_of w1.g)).2
          { w1 with g := { w1.g with
              player := l.pl, companions := l.comps, companion_count := l.comp_count,
              MISSIONS := l.ms } }
        else w1
      show_menu_loop false ks w2

def show_menu (w : World) (keys : List Keys) : FrameRun := show_menu_loop false keys w

/-- The statements of `main` from `if (kd & KEY_SELECT)` to `if ((held & KEY_L) && ...)`. -/
def key_actions (kd held : Keys) (g : Game) : Game :=
  let g1 := if kd.select then try_craft_quick g else g
  let g2 := if kd.l then
      { g1 with sel_build_idx := Int.tmod (g1.sel_build_idx - 1 + 4) 4 } else g1
  let g3 := if kd.r then { g2 with sel_build_idx := Int.tmod (g2.sel_build_idx + 1) 4 } else g2
  let g4 := if held.r && kd.a then try_throw_orb g3 else g3
  if held.l && kd.a then try_build g4 else g4

/-- The end of the world block of `main`, after the action on A: the night trigger, then
`if (msg_timer>0) msg_timer--;`. -/
def world_tail (g : Game) : Game :=
  let g1 := boss_bonus g
  if g1.msg_timer > 0 then { g1 with msg_timer := g1.msg_timer - 1 } else g1

/-- The block `if (gstate==GS_WORLD){...}` of `main`. -/
def world_update (kd held : Keys) (w : World) (g : Game) (keys : List Keys) : FrameRun :=
  let m := move_block held w.move_cd g
  match (if kd.a then try_gather_or_action m.2 keys else Run.done () m.2 keys) with
  | Run.pending g1 => FrameRun.pending { w with g := g1, move_cd := m.1 }
  | Run.done _ g1 ks => FrameRun.done { w with g := world_tail g1, move_cd := m.1 } ks

/-- One pass through the body of the `while(1)` of `main`, on the trace of the keypad. -/
def frame (w : World) : List Keys → FrameRun
  | kd :: held :: keys =>
    match (if kd.start then show_menu w keys else FrameRun.done w keys) with
    | FrameRun.pending w1 => FrameRun.pending w1
    | FrameRun.done w1 ks =>
      let g := key_actions kd held w1.g
      if g.gstate = GS_WORLD then world_update kd held w1 g ks
      else if g.gstate = GS_BATTLE then
        match do_battle g ks with
        | Run.pending g1 => FrameRun.pending { w1 with g := g1 }
        | Run.done _ g1 ks1 => FrameRun.done { w1 with g := { g1 with gstate := GS_WORLD } } ks1
      else FrameRun.done { w1 with g := g } ks
  | _ => FrameRun.pending w

/-- The states of the game: those `build_map` produces, and those reached from them by the
movement of a frame, the change of the selected building, `try_build`, `try_craft_quick`,
`try_gather_or_action`, `try_throw_orb`, a pass of the battle loop and the return from the
battle, the night trigger and the timer of the messages; with any values of `rand()` and of
the keypad. -/
inductive Reachable : Game → Prop where
  | start (g0 : Game) : Reachable (build_map g0)
  | move (held : Keys) (move_cd : Int) (g : Game) :
      Reachable g → Reachable (move_block held move_cd g).2
  | keys (kd held : Keys) (g : Game) : Reachable g → Reachable (key_actions kd held g)
  | build (g : Game) : Reachable g → Reachable (try_build g)
  | craft (g : Game) : Reachable g → Reachable (try_craft_quick g)
  | gather (keys : List Keys) (g : Game) :
      Reachable g → Reachable (try_gather_or_action g keys).game
  | throw_orb (g : Game) : Reachable g → Reachable (try_throw_orb g)
  | battle (sel : Int) (kd : Keys) (keys : List Keys) (g : Game) :
      Reachable g → Reachable (battle_body sel kd g keys).game
  | battle_end (g : Game) : Reachable g → Reachable { g with gstate := GS_WORLD }
  | tail (g : Game) : Reachable g → Reachable (world_tail g)

/-! ## Vocabulary of the statements -/

/-- The four ordered pairs of types with a doubled multiplier. -/
def strong_pairs : List (ElemType × ElemType) :=
  [(TYPE_FIRE, TYPE_GRASS), (TYPE_WATER, TYPE_FIRE), (TYPE_GRASS, TYPE_WATER),
   (TYPE_ELEC, TYPE_WATER)]

/-- The five elemental types. -/
def all_types : List ElemType := [TYPE_NEUTRAL, TYPE_FIRE, TYPE_WATER, TYPE_GRASS, TYPE_ELEC]

/-- The state of the build scenario: wood 4, stone 2, the first catalog entry selected
(cost 10 and 6), the player on a grass tile. -/
def poor_builder : Game :=
  { initial_globals (fun _ => 0) with
    map_data := fun _ _ => TILE_GRASS
    player := { x := 4, y := 4, steps := 0, orbs := 1, wood := 4, stone := 2 }
    sel_build_idx := 0 }

/-- A creature of the kind `random_wild` makes (a Flarepup of 24 hit points) brought to
the hit points `hp`. -/
def flarepup_at (hp : Int) : Creature :=
  { make_creature (some "Flarepup") TYPE_FIRE 24 6 6 (some "Rapido") with hp := hp }

/-- The value of `key_down()` with A alone pressed. -/
def press_A : Keys :=
  { a := true, b := false, select := false, start := false, right := false, left := false,
    up := false, down := false, r := false, l := false }

/-- The value of `key_down()` with no button pressed. -/
def no_key : Keys := { press_A with a := false }

/-- The value of `key_down()` with Down alone pressed. -/
def press_down : Keys := { no_key with down := true }

/-- A battle against a Flarepup brought to 0 hit points, with `orbs` orbs in hand. -/
def cornered (orbs : Int) : Game :=
  { initial_globals (fun _ => 0) with
    wild := flarepup_at 0
    player := { x := 4, y := 4, steps := 0, orbs := orbs, wood := 8, stone := 5 } }

/-- The first five bytes of a stored signature are those of "FFGE1". -/
def has_signature (sig : Int → Char) : Prop :=
  sig 0 = 'F' ∧ sig 1 = 'F' ∧ sig 2 = 'G' ∧ sig 3 = 'E' ∧ sig 4 = '1'

instance (sig : Int → Char) : Decidable (has_signature sig) := by
  unfold has_signature; infer_instance

/-- A roster of five captured creatures, more than the save record holds. -/
def five_creatures : Int → Creature := fun i =>
  { flarepup_at (20 + i) with caught := 1, atk := i }

/-- The mission table with the second mission completed. -/
def one_mission_done : Int → Mission :=
  set_at MISSIONS_init 1 { MISSIONS_init 1 with completed := 1 }

/-- The objects a load overwrites, as the C runtime initialises them. -/
def blank_loaded : Loaded :=
  { pl := ⟨0, 0, 0, 0, 0, 0⟩, comps := fun _ => zero_creature, comp_count := 0,
    ms := MISSIONS_init }

/-- The world of a new game, for the sequence of `rand()` that is constantly 0. -/
def fresh_world : Game := build_map (initial_globals (fun _ => 0))

/-- The new game with the player moved from (4,4) to (6,5), the cell above the NPC "Saggio"
at (6,6). -/
def beside_saggio : Game :=
  { fresh_world with player := { fresh_world.player with x := 6, y := 5 } }

/-- The start of a battle against an untouched Flarepup, with one orb in hand. -/
def fresh_battle : Game :=
  { initial_globals (fun _ => 0) with
    gstate := GS_BATTLE
    wild := flarepup_at 24
    player := { x := 4, y := 4, steps := 0, orbs := 1, wood := 8, stone := 5 } }

/-- An NPC that has not yet given its gift of 3 wood and 2 stone. -/
def generous_npc : NPC := { zero_npc with x := 6, y := 6, gift_wood := 3, gift_stone := 2 }

/-- A battle by day (steps 0) against a Sproutle, a Grass creature of 30 hit points, brought
to 10 hit points; the roster is empty. -/
def sproutle_battle : Game :=
  { initial_globals (fun _ => 0) with
    gstate := GS_BATTLE
    wild := { make_creature (some "Sproutle") TYPE_GRASS 30 5 5 (some "Tenace") with hp := 10 }
    player := { x := 4, y := 4, steps := 0, orbs := 1, wood := 8, stone := 5 } }

/-- The same battle with a Fire companion first in the roster. -/
def sproutle_battle_with_fire : Game :=
  { sproutle_battle with
    companions := set_at sproutle_battle.companions 0 { flarepup_at 24 with caught := 1 }
    companion_count := 1 }

/-- The state of the quick-craft scenario: wood 12, stone 8, one orb, on a grass tile. -/
def rich_crafter : Game :=
  { poor_builder with player := { x := 4, y := 4, steps := 0, orbs := 1, wood := 12, stone := 8 } }

/-- The value of `key_held()` with Right alone held. -/
def hold_right : Keys := { no_key with right := true }

/-- A player at the east end of the interior, on grass: the cell to the right is column 79. -/
def edge_walker : Game :=
  { poor_builder with player := { x := 78, y := 4, steps := 7, orbs := 1, wood := 4, stone := 2 } }

/-- The hit points of a creature are within `0 .. max_hp`. -/
def hp_ok (c : Creature) : Prop := 0 ≤ c.hp ∧ c.hp ≤ c.max_hp

instance (c : Creature) : Decidable (hp_ok c) := by
  unfold hp_ok; infer_instance

/-- A healer of the kind `random_wild` makes (an Aquadine of 30 hit points, ability "Cura")
brought to the hit points `hp`. -/
def aquadine_at (hp : Int) : Creature :=
  { make_creature (some "Aquadine") TYPE_WATER 30 5 5 (some "Cura") with hp := hp }

/-- The player on a Fire tile with two hurt companions: a Flarepup at 10 of 24 and an
Aquadine at 28 of 30. -/
def by_the_fire : Game :=
  { initial_globals (fun _ => 0) with
    map_data := fun _ _ => TILE_FIRE
    player := { x := 4, y := 4, steps := 0, orbs := 1, wood := 8, stone := 5 }
    companions := set_at (set_at (fun _ => zero_creature) 0 { flarepup_at 10 with caught := 1 })
      1 { aquadine_at 28 with caught := 1 }
    companion_count := 2 }

/-- The cell `(y, x)` lies on the border ring of the map. -/
def on_border (y x : Int) : Prop :=
  0 ≤ y ∧ y < MAP_H ∧ 0 ≤ x ∧ x < MAP_W ∧ (y = 0 ∨ y = MAP_H - 1 ∨ x = 0 ∨ x = MAP_W - 1)

/-- Every cell of the border ring is Wall. -/
def border_is_wall (g : Game) : Prop := ∀ y x, on_border y x → g.map_data y x = TILE_WALL

/-- The player stands inside the border ring, on a tile that is neither Wall nor Water. -/
def position_ok (g : Game) : Prop :=
  1 ≤ g.player.x ∧ g.player.x ≤ MAP_W - 2 ∧ 1 ≤ g.player.y ∧ g.player.y ≤ MAP_H - 2 ∧
  g.map_data g.player.y g.player.x ≠ TILE_WALL ∧ g.map_data g.player.y g.player.x ≠ TILE_WATER

/-- Wood, stone and orbs are not negative. -/
def resources_ok (g : Game) : Prop :=
  0 ≤ g.player.wood ∧ 0 ≤ g.player.stone ∧ 0 ≤ g.player.orbs

/-- No placed NPC has a negative gift. -/
def gifts_ok (g : Game) : Prop :=
  ∀ i, 0 ≤ i → i < g.npc_count →
    0 ≤ (g.npcs i).gift_wood ∧ 0 ≤ (g.npcs i).gift_stone ∧ 0 ≤ (g.npcs i).gift_orb

/-- The four invariants of the game together. -/
def game_inv (g : Game) : Prop :=
  border_is_wall g ∧ position_ok g ∧ resources_ok g ∧ gifts_ok g

/-- What an operation that neither builds nor moves may do: it keeps the map, the position,
the placed NPCs, their gifts and their places, and it keeps the resources non-negative. -/
def mild (g g1 : Game) : Prop :=
  g1.map_data = g.map_data ∧ g1.player.x = g.player.x ∧ g1.player.y = g.player.y ∧
  g1.npc_count = g.npc_count ∧
  (∀ i, (g1.npcs i).gift_wood = (g.npcs i).gift_wood ∧
    (g1.npcs i).gift_stone = (g.npcs i).gift_stone ∧
    (g1.npcs i).gift_orb = (g.npcs i).gift_orb ∧
    (g1.npcs i).x = (g.npcs i).x ∧ (g1.npcs i).y = (g.npcs i).y) ∧
  (resources_ok g → gifts_ok g → resources_ok g1)

/-- A state reached in a new game: one step to the right, the selection moved to the Falo,
a build attempt and a quick craft. -/
def after_some_play : Game :=
  try_craft_quick (try_build (key_actions { no_key with r := true } no_key
    (key_actions { no_key with r := true } no_key
      (key_actions { no_key with r := true } no_key
        (move_block hold_right 0 fresh_world).2))))

/-- The value of `key_held()` with L and A held. -/
def hold_L_A : Keys := { no_key with l := true, a := true }

/-- The state of a frame of `main`: the globals `g`, an all-zero save record, and the
cooldown of the movement at 0. -/
def world_of (g : Game) : World := { g := g, sram := zero_save, move_cd := 0 }

/-- A builder by day on a grass tile with wood 8 and stone 8, who has selected the Farm
(cost 8 and 8). -/
def farm_builder : Game :=
  { poor_builder with
    player := { x := 4, y := 4, steps := 0, orbs := 1, wood := 8, stone := 8 }
    sel_build_idx := 2 }

/-- The same builder standing on a Farm tile, where nothing can be built. -/
def on_a_farm : Game := { farm_builder with map_data := fun _ _ => TILE_FARM }

/-- The four cells next to (60,12) hold Water, and the third NPC of the table stands at
(60,12). -/
def guardian_walled (g : Game) : Prop :=
  g.map_data 12 59 = TILE_WATER ∧ g.map_data 12 61 = TILE_WATER ∧
  g.map_data 11 60 = TILE_WATER ∧ g.map_data 13 60 = TILE_WATER ∧
  (g.npcs 2).x = 60 ∧ (g.npcs 2).y = 12

/-- What holds of the wild creature at the top of every pass of the battle loop: it is
alive, and its hit points and their maximum are in the range `random_wild` starts from. -/
def battle_wild (c : Creature) : Prop :=
  1 ≤ c.hp ∧ c.hp ≤ c.max_hp ∧ 22 ≤ c.max_hp ∧ c.max_hp ≤ 34

/-- The Flarepup of 25 hit points: what `random_wild` makes when `rand()` returns 0 and
then 1. -/
def flarepup25 : Creature := make_creature (some "Flarepup") TYPE_FIRE 25 6 6 (some "Rapido")

/-- The values of `rand()` that make `random_wild` return `flarepup25`. -/
def rand_0_1 : Nat → Nat := fun n => if n = 1 then 1 else 0

/-- The start of a battle against `flarepup25`, with one orb in hand and an empty roster. -/
def flarepup25_battle : Game := { fresh_battle with wild := flarepup25 }

/-- That battle after four special moves of 6 damage: the Flarepup is at 1 hit point. -/
def flarepup25_worn : Game := { fresh_battle with wild := { flarepup25 with hp := 1 } }

/-- The trace of that battle up to the fourth special move: Down, then A four times. -/
def four_specials : List Keys := [press_down, press_A, press_A, press_A, press_A]

/-! ## Theorems -/

/-! ### Auxiliary facts -/

theorem rand_range_of_bounds (a b : Int) (h : a ≤ b) (v : Nat) :
    a ≤ rand_range_of a b v ∧ rand_range_of a b v ≤ b := by
  unfold rand_range_of
  have h1 : 0 ≤ Int.tmod ((v &&& 0x7fffffff : Nat) : Int) (b - a + 1) :=
    Int.tmod_nonneg _ (Int.natCast_nonneg _)
  have h2 : Int.tmod ((v &&& 0x7fffffff : Nat) : Int) (b - a + 1) < b - a + 1 :=
    Int.tmod_lt_of_pos _ (by omega)
  constructor <;> omega

theorem random_wild_max_hp (g : Game) :
    22 ≤ (random_wild g).1.max_hp ∧ (random_wild g).1.max_hp ≤ 34 ∧
    (random_wild g).1.hp = (random_wild g).1.max_hp ∧ (random_wild g).1.caught = 0 := by
  have hb := rand_range_of_bounds 0 6 (by norm_num) (rand (rand_range 0 3 g).2).1
  unfold random_wild
  simp only [rand_range] at hb ⊢
  split_ifs <;> simp only [make_creature] <;> refine ⟨?_, ?_, ?_, ?_⟩ <;> first | omega | trivial

theorem capture_quotient (m h : Int) (h0 : 0 ≤ h) (h1 : h ≤ m) :
    Int.tdiv ((m - h) * 100) (m + 1) = (m - h) * 100 / (m + 1) ∧
    0 ≤ (m - h) * 100 / (m + 1) ∧ (m - h) * 100 / (m + 1) ≤ 99 := by
  have hpos : 0 < m + 1 := by omega
  refine ⟨Int.tdiv_eq_ediv (by nlinarith) (by omega), ?_, ?_⟩
  · exact Int.ediv_nonneg (by nlinarith) (by omega)
  · have : (m - h) * 100 / (m + 1) < 100 := by
      apply Int.ediv_lt_of_lt_mul hpos; nlinarith
    omega

theorem wrap32_of_fits (n : Int) (h0 : -2147483648 ≤ n) (h1 : n ≤ 2147483647) :
    wrap32 n = n := by
  unfold wrap32; omega

/-- The chance expression stays inside the 32-bit `int` for every creature with
`0 <= hp <= max_hp`, `max_hp - hp <= 21474836` and `max_hp < 2^31 - 1` (the game makes
`max_hp <= 34`): no result wraps, and the chance is the quotient of the integers plus 10. -/
theorem capture_chance_fits_int (w : Creature) (h0 : 0 ≤ w.hp) (h1 : w.hp ≤ w.max_hp)
    (h2 : w.max_hp - w.hp ≤ 21474836) (h3 : w.max_hp ≤ 2147483646) :
    0 ≤ w.max_hp - w.hp ∧ (w.max_hp - w.hp) * 100 ≤ 2147483647 ∧
    0 < w.max_hp + 1 ∧ w.max_hp + 1 ≤ 2147483647 ∧
    capture_chance w = (w.max_hp - w.hp) * 100 / (w.max_hp + 1) + 10 := by
  obtain ⟨hq, hlo, hhi⟩ := capture_quotient w.max_hp w.hp h0 h1
  refine ⟨by omega, by omega, by omega, by omega, ?_⟩
  unfold capture_chance
  rw [wrap32_of_fits (w.max_hp - w.hp) (by omega) (by omega),
    wrap32_of_fits ((w.max_hp - w.hp) * 100) (by omega) (by omega),
    wrap32_of_fits (w.max_hp + 1) (by omega) (by omega), hq,
    wrap32_of_fits ((w.max_hp - w.hp) * 100 / (w.max_hp + 1)) (by omega) (by omega),
    wrap32_of_fits ((w.max_hp - w.hp) * 100 / (w.max_hp + 1) + 10) (by omega) (by omega)]

/-- The product of the chance expression does wrap on large values: for `max_hp = 30000000`
and `hp = 0` it is 3000000000, held as -1294967296, and the chance is `-43 + 10`. -/
theorem capture_chance_wraps :
    capture_chance { zero_creature with max_hp := 30000000, hp := 0 } = -33 := by
  decide

theorem for_loop_pointwise {α : Type} (hi : Int) (v : Int → α → α) :
    ∀ (fuel : Nat) (lo : Int) (c : Int → α), (hi - lo).toNat ≤ fuel →
      for_loop fuel (fun i => decide (i < hi)) (fun i c => set_at c i (v i (c i))) lo c =
        fun j => if lo ≤ j ∧ j < hi then v j (c j) else c j := by
  intro fuel
  induction fuel with
  | zero =>
    intro lo c hf
    funext j
    have : ¬ (lo ≤ j ∧ j < hi) := by omega
    simp [for_loop, this]
  | succ k ih =>
    intro lo c hf
    funext j
    by_cases hlt : lo < hi
    · have hk : (hi - (lo + 1)).toNat ≤ k := by omega
      simp only [for_loop, hlt, decide_True, if_true]
      rw [ih (lo + 1) _ hk]
      by_cases hj : j = lo
      · subst hj
        have h1 : ¬ (j + 1 ≤ j ∧ j < hi) := by omega
        simp [h1, set_at, hlt]
      · have h2 : (lo + 1 ≤ j ∧ j < hi) ↔ (lo ≤ j ∧ j < hi) := by omega
        simp [h2, set_at, hj]
    · have : ¬ (lo ≤ j ∧ j < hi) := by omega
      simp [for_loop, hlt, this]

theorem for_lt_pointwise {α : Type} (lo hi : Int) (v : Int → α → α) (c : Int → α) :
    for_lt lo hi (fun i c => set_at c i (v i (c i))) c =
      fun j => if lo ≤ j ∧ j < hi then v j (c j) else c j :=
  for_loop_pointwise hi v _ lo c (le_refl _)

theorem char_diff_ne_zero (a b : Char) (h : a ≠ b) : (a.toNat : Int) - (b.toNat : Int) ≠ 0 := by
  intro h0
  apply h
  apply Char.ext
  apply UInt32.ext
  have : a.toNat = b.toNat := by omega
  exact this

theorem strncmp_from_succ (s1 s2 : Int → Char) (n : Nat) (i : Int) :
    strncmp_from s1 s2 (n + 1) i = 0 ↔
      s1 i = s2 i ∧ (s1 i = NUL ∨ strncmp_from s1 s2 n (i + 1) = 0) := by
  simp only [strncmp_from]
  by_cases h : s1 i = s2 i
  · by_cases h0 : s1 i = NUL
    · have h0a : s2 i = NUL := by rw [← h]; exact h0
      simp [h, h0a]
    · have h0b : ¬ s2 i = NUL := by rw [← h]; exact h0
      simp [h, h0b]
  · simp [h, char_diff_ne_zero _ _ h]

theorem strncmp_signature (sig : Int → Char) :
    strncmp sig SAVE_SIGNATURE 5 = 0 ↔ has_signature sig := by
  have e0 : SAVE_SIGNATURE 0 = 'F' := by decide
  have e1 : SAVE_SIGNATURE 1 = 'F' := by decide
  have e2 : SAVE_SIGNATURE 2 = 'G' := by decide
  have e3 : SAVE_SIGNATURE 3 = 'E' := by decide
  have e4 : SAVE_SIGNATURE 4 = '1' := by decide
  have n0 : ¬ ('F' = NUL) := by decide
  have n2 : ¬ ('G' = NUL) := by decide
  have n3 : ¬ ('E' = NUL) := by decide
  have n4 : ¬ ('1' = NUL) := by decide
  unfold strncmp has_signature
  rw [strncmp_from_succ, strncmp_from_succ, strncmp_from_succ, strncmp_from_succ,
    strncmp_from_succ]
  norm_num
  rw [e0, e1, e2, e3, e4]
  constructor
  · rintro ⟨h0, h⟩
    rw [h0] at h
    rcases h with h | ⟨h1, h⟩
    · exact absurd h n0
    rw [h1] at h
    rcases h with h | ⟨h2, h⟩
    · exact absurd h n0
    rw [h2] at h
    rcases h with h | ⟨h3, h⟩
    · exact absurd h n2
    rw [h3] at h
    rcases h with h | ⟨h4, _⟩
    · exact absurd h n3
    exact ⟨h0, h1, h2, h3, h4⟩
  · rintro ⟨h0, h1, h2, h3, h4⟩
    refine ⟨h0, Or.inr ⟨h1, Or.inr ⟨h2, Or.inr ⟨h3, Or.inr ⟨h4, ?_⟩⟩⟩⟩⟩
    simp [strncmp_from]

theorem saved_signature (pl : Player) (comps : Int → Creature) (n : Int) (ms : Int → Mission) :
    has_signature (save_game pl comps n ms).2.sig := by
  simp only [save_game]
  decide

theorem wait_A_of_mem : ∀ (ks : List Keys), (∃ k ∈ ks, k.a = true) →
    ∃ rest, wait_A ks = some rest := by
  intro ks
  induction ks with
  | nil => rintro ⟨k, hk, _⟩; cases hk
  | cons k ks ih =>
    rintro ⟨k1, hk1, ha⟩
    by_cases hk : k.a = true
    · exact ⟨ks, by simp [wait_A, hk]⟩
    · have hmem : k1 ∈ ks := by
        rcases List.mem_cons.mp hk1 with h | h
        · subst h; exact absurd ha hk
        · exact h
      obtain ⟨rest, hr⟩ := ih ⟨k1, hmem, ha⟩
      exact ⟨rest, by simp [wait_A, hk, hr]⟩

theorem after_action_next (s : Int) (g : Game) (keys : List Keys) (s1 : Int) (g1 : Game)
    (h : after_action s g keys = Flow.next s1 g1) : g1 = g ∧ g.wild.hp ≠ 0 := by
  unfold after_action at h
  by_cases h3 : s = 3
  · rw [if_pos h3] at h; cases h
  rw [if_neg h3] at h
  by_cases h4 : g.wild.hp = 0
  · rw [if_pos h4] at h
    cases hw : wait_A keys <;> rw [hw] at h <;> cases h
  · rw [if_neg h4] at h
    cases h
    exact ⟨rfl, h4⟩

theorem capture_attempt_next (s : Int) (g : Game) (keys : List Keys) (s1 : Int) (g1 : Game)
    (h : capture_attempt s g keys = Flow.next s1 g1) : g1.wild = g.wild := by
  unfold capture_attempt at h
  by_cases ho : g.player.orbs ≤ 0
  · rw [if_pos ho] at h; cases h; rfl
  rw [if_neg ho] at h
  simp only at h
  by_cases hr : (rand_range 0 99 g).1 ≤ capture_chance g.wild
  · rw [if_pos hr] at h
    cases hw : wait_A keys <;> rw [hw] at h <;> cases h
  · rw [if_neg hr] at h; cases h; rfl

theorem attacks_capture (g : Game) : attacks 2 g = g := by
  simp [attacks]

theorem attacks_hp_nonneg (s : Int) (g : Game) (hp : 0 ≤ g.wild.hp) :
    0 ≤ (attacks s g).wild.hp := by
  unfold attacks
  by_cases h1 : s = 1
  · simp only [h1, if_true, special_move]; split_ifs <;> omega
  · by_cases h0 : s = 0
    · simp only [h0, if_true, quick_attack]
      split_ifs <;> first | omega | (dsimp only; omega)
    · simp only [h0, h1, if_false]; exact hp

theorem action_A_next (s : Int) (g : Game) (keys : List Keys) (s1 : Int) (g1 : Game)
    (h : action_A s g keys = Flow.next s1 g1) (hp : 0 < g.wild.hp) : 0 < g1.wild.hp := by
  have hnn := attacks_hp_nonneg s g (le_of_lt hp)
  unfold action_A at h
  simp only at h
  by_cases h2 : s = 2
  · rw [if_pos h2] at h
    cases hc : capture_attempt s (attacks s g) keys with
    | next s2 g2 =>
      rw [hc] at h
      simp only at h
      obtain ⟨e, hne⟩ := after_action_next _ _ _ _ _ h
      have hw := capture_attempt_next _ _ _ _ _ hc
      rw [e, hw]
      rw [hw] at hne
      omega
    | ret c g2 k2 => rw [hc] at h; cases h
    | pending g2 => rw [hc] at h; cases h
  · rw [if_neg h2] at h
    obtain ⟨e, hne⟩ := after_action_next _ _ _ _ _ h
    rw [e]; omega

/-- The wild creature is alive at the top of every pass of the battle loop: a pass entered
with `hp > 0` that goes on to the next pass leaves `hp > 0`. -/
theorem battle_body_keeps_alive (sel : Int) (kd : Keys) (g : Game) (keys : List Keys)
    (sel1 : Int) (g1 : Game) (h : battle_body sel kd g keys = Flow.next sel1 g1)
    (hp : 0 < g.wild.hp) : 0 < g1.wild.hp := by
  unfold battle_body at h
  simp only at h
  by_cases ha : kd.a = true
  · rw [if_pos ha] at h
    cases hc : action_A (move_sel sel kd) g keys with
    | next s2 g2 =>
      rw [hc] at h
      simp only at h
      by_cases hb : kd.b = true
      · rw [if_pos hb] at h; cases h
      · rw [if_neg hb] at h; cases h
        exact action_A_next _ _ _ _ _ hc hp
    | ret c g2 k2 => rw [hc] at h; cases h
    | pending g2 => rw [hc] at h; cases h
  · rw [if_neg ha] at h
    simp only at h
    by_cases hb : kd.b = true
    · rw [if_pos hb] at h; cases h
    · rw [if_neg hb] at h; cases h
      exact hp

theorem add_companion_player (g : Game) : (add_companion g).player = g.player := by
  unfold add_companion; split_ifs <;> rfl

theorem after_action_game (s : Int) (g : Game) (keys : List Keys) :
    (after_action s g keys).game = g := by
  unfold after_action
  split_ifs
  · rfl
  · cases wait_A keys <;> rfl
  · rfl

/-- The capture block as entered from the loop body: A pressed with the cursor on "Cattura". -/
theorem battle_body_capture (sel : Int) (kd : Keys) (g : Game) (keys : List Keys)
    (hA : kd.a = true) (hsel : move_sel sel kd = 2) :
    battle_body sel kd g keys =
      match capture_attempt 2 g keys with
      | Flow.next _ g3 =>
        (match after_action 2 g3 keys with
          | Flow.next _ g4 => if kd.b then Flow.ret 0 g4 keys else Flow.next 2 g4
          | r => r)
      | r => r := by
  unfold battle_body
  simp only [hA, hsel, if_true, action_A, attacks_capture]
  cases capture_attempt 2 g keys <;> rfl

theorem wait_A_none : ∀ (ks : List Keys), (¬ ∃ k ∈ ks, k.a = true) → wait_A ks = none := by
  intro ks
  induction ks with
  | nil => intro _; rfl
  | cons k ks ih =>
    intro h
    have hk : ¬ k.a = true := fun hk => h ⟨k, List.mem_cons_self _ _, hk⟩
    have hrest : ¬ ∃ k1 ∈ ks, k1.a = true := by
      rintro ⟨k1, hk1, ha⟩
      exact h ⟨k1, List.mem_cons_of_mem _ hk1, ha⟩
    simp [wait_A, hk, ih hrest]

/-- Whatever `rand()` returns, `build_map` places three NPCs and creates each of them with
`gave_gift = 1`. -/
theorem build_map_npcs (g : Game) :
    (build_map g).npc_count = 3 ∧
    ∀ i, 0 ≤ i → i < 3 → ((build_map g).npcs i).gave_gift = 1 := by
  refine ⟨rfl, ?_⟩
  intro i h0 h3
  have hi : i = 0 ∨ i = 1 ∨ i = 2 := by omega
  rcases hi with h | h | h <;> subst h <;> rfl

/-- While every placed NPC has `gave_gift` nonzero, a dialogue leaves the player as it was. -/
theorem talk_scan_no_gift (g : Game) (keys : List Keys)
    (h : ∀ i, 0 ≤ i → i < g.npc_count → (g.npcs i).gave_gift ≠ 0) :
    ∀ (fuel : Nat) (i : Int), 0 ≤ i → (talk_scan g keys fuel i).game.player = g.player := by
  intro fuel
  induction fuel with
  | zero => intro i _; rfl
  | succ k ih =>
    intro i hi
    unfold talk_scan
    by_cases hlt : i < g.npc_count
    · rw [if_pos hlt]
      by_cases hadj : adjacent g.player.x g.player.y (g.npcs i).x (g.npcs i).y ≠ 0
      · rw [if_pos hadj]
        have e : gift_from_npc (g.npcs i) g.player = (g.npcs i, g.player) := by
          simp [gift_from_npc, h i hi hlt]
        simp only [e]
        cases wait_A keys <;> rfl
      · rw [if_neg hadj]
        exact ih (i + 1) (by omega)
    · rw [if_neg hlt]; rfl

/-- In a new game, whatever `rand()` returned and wherever the player stands, a dialogue
gives the player nothing. -/
theorem talk_after_build_map_no_gift (g0 : Game) (pl : Player) (keys : List Keys) :
    (talk_to_nearby_npc { build_map g0 with player := pl } keys).game.player = pl := by
  have h := talk_scan_no_gift { build_map g0 with player := pl } keys
    (by
      intro i h0 h3
      have := (build_map_npcs g0).2 i h0 h3
      show ((build_map g0).npcs i).gave_gift ≠ 0
      rw [this]; decide)
  exact h _ 0 (le_refl _)

theorem flow_game_after_b (kd : Keys) (s : Int) (keys : List Keys) (r : Flow) :
    (match r with
      | Flow.next _ g1 => if kd.b = true then Flow.ret 0 g1 keys else Flow.next s g1
      | r => r).game = r.game := by
  cases r with
  | next s1 g1 => simp only; split_ifs <;> rfl
  | ret c g1 k1 => rfl
  | pending g1 => rfl

/-- A pass of the battle loop with A pressed on an entry other than "Cattura" leaves the
globals that the two attack blocks leave. -/
theorem battle_body_game_attack (sel : Int) (kd : Keys) (g : Game) (keys : List Keys)
    (hA : kd.a = true) (hsel : move_sel sel kd ≠ 2) :
    (battle_body sel kd g keys).game = attacks (move_sel sel kd) g := by
  unfold battle_body
  simp only [hA, if_true]
  rw [flow_game_after_b]
  unfold action_A
  simp only [hsel, if_false]
  exact after_action_game _ _ _

theorem tmod_eq_emod_of_nonneg (a : Int) (h : 0 ≤ a) : Int.tmod a 40 = a % 40 := by
  rw [Int.tmod_eq_emod h (by norm_num)]

theorem quick_attack_hp_ok (g : Game) (h : hp_ok g.wild) : hp_ok (quick_attack g).wild := by
  have hm : type_mul TYPE_NEUTRAL g.wild.type = 1 := by
    unfold type_mul; cases g.wild.type <;> decide
  unfold hp_ok at h ⊢
  unfold quick_attack
  simp only [hm]
  split_ifs <;> constructor <;> omega

theorem special_move_hp_ok (g : Game) (h : hp_ok g.wild) : hp_ok (special_move g).wild := by
  have hm : ∀ t, 1 ≤ type_mul t g.wild.type := by
    intro t; unfold type_mul; cases t <;> cases g.wild.type <;> decide
  unfold hp_ok at h ⊢
  unfold special_move
  simp only
  generalize (if g.companion_count > 0 then (g.companions 0).type else TYPE_GRASS) = t
  have h1 := hm t
  split_ifs <;> constructor <;> omega

theorem add_companion_wild (g : Game) : (add_companion g).wild = g.wild := by
  unfold add_companion; split_ifs <;> rfl

theorem capture_attempt_wild (sel : Int) (g : Game) (keys : List Keys) :
    (capture_attempt sel g keys).game.wild = g.wild := by
  unfold capture_attempt
  by_cases ho : g.player.orbs ≤ 0
  · rw [if_pos ho]; rfl
  rw [if_neg ho]
  simp only
  by_cases hr : (rand_range 0 99 g).1 ≤ capture_chance g.wild
  · rw [if_pos hr]
    cases wait_A keys
    · rfl
    · exact add_companion_wild _
  · rw [if_neg hr]; rfl

theorem ability_tick_fst (c : Creature) (g : Game) :
    (ability_tick c g).1 = c ∨
    (ability_tick c g).1 =
      { c with hp := if c.hp + 2 > c.max_hp then c.max_hp else c.hp + 2 } := by
  unfold ability_tick
  by_cases h1 : c.ability = some "Cura"
  · rw [if_pos h1]
    simp only
    by_cases h2 : (rand_range 0 99 g).1 < 30
    · rw [if_pos h2]; right; rfl
    · rw [if_neg h2]; left; rfl
  · rw [if_neg h1]; left; rfl

theorem ability_tick_hp_ok (c : Creature) (g : Game) (h : hp_ok c) :
    hp_ok (ability_tick c g).1 := by
  rcases ability_tick_fst c g with e | e
  · rw [e]; exact h
  · rw [e]
    unfold hp_ok at h ⊢
    simp only
    split_ifs <;> constructor <;> omega

theorem heal_companion_eq (c : Creature) :
    heal_companion c = { c with hp := min c.max_hp (c.hp + 4) } := by
  unfold heal_companion
  simp only
  congr 1
  rw [min_def]; split_ifs <;> omega

theorem heal_companion_hp_ok (c : Creature) (h : hp_ok c) : hp_ok (heal_companion c) := by
  unfold hp_ok at h ⊢
  unfold heal_companion
  simp only
  split_ifs <;> constructor <;> omega

theorem fire_heal_apply (g : Game) (i : Int) :
    fire_heal g i =
      if 0 ≤ i ∧ i < g.companion_count then heal_companion (g.companions i)
      else g.companions i := by
  unfold fire_heal
  rw [for_lt_pointwise 0 g.companion_count (fun _ c => heal_companion c)]

theorem add_companion_roster (g : Game) (i : Int) :
    (add_companion g).companions i =
      if g.companion_count < MAX_COMPANIONS ∧ i = g.companion_count then
        { g.wild with caught := 1 }
      else g.companions i := by
  unfold add_companion
  by_cases h : g.companion_count < MAX_COMPANIONS
  · rw [if_pos h]
    by_cases hi : i = g.companion_count
    · subst hi; simp [set_at, h]
    · simp [set_at, hi]
  · rw [if_neg h]; simp [h]

theorem add_companion_count (g : Game) :
    (add_companion g).companion_count =
      if g.companion_count < MAX_COMPANIONS then g.companion_count + 1
      else g.companion_count := by
  unfold add_companion
  split_ifs <;> rfl

theorem gather_on_fire (g : Game) (keys : List Keys)
    (h : g.map_data g.player.y g.player.x = TILE_FIRE) :
    try_gather_or_action g keys =
      Run.done () { g with companions := fire_heal g, msg_timer := 30 } keys := by
  unfold try_gather_or_action
  simp only [h]
  have n1 : ¬ TILE_FIRE = TILE_WALL := by decide
  have n2 : ¬ TILE_FIRE = TILE_WATER := by decide
  have n3 : ¬ TILE_FIRE = TILE_TREE := by decide
  have n4 : ¬ (TILE_FIRE = TILE_GRASS ∨ TILE_FIRE = TILE_SAND) := by decide
  have n5 : ¬ TILE_FIRE = TILE_POST := by decide
  have n6 : ¬ TILE_FIRE = TILE_FARM := by decide
  rw [if_neg n1, if_neg n2, if_neg n3, if_neg n4, if_neg n5, if_neg n6]
  simp

theorem gather_on_farm (g : Game) (keys : List Keys)
    (h : g.map_data g.player.y g.player.x = TILE_FARM) :
    try_gather_or_action g keys =
      Run.done () { g with
        player := { g.player with wood := g.player.wood + 1 }
        msg_timer := 20 } keys := by
  unfold try_gather_or_action
  simp only [h]
  have n1 : ¬ TILE_FARM = TILE_WALL := by decide
  have n2 : ¬ TILE_FARM = TILE_WATER := by decide
  have n3 : ¬ TILE_FARM = TILE_TREE := by decide
  have n4 : ¬ (TILE_FARM = TILE_GRASS ∨ TILE_FARM = TILE_SAND) := by decide
  have n5 : ¬ TILE_FARM = TILE_POST := by decide
  rw [if_neg n1, if_neg n2, if_neg n3, if_neg n4, if_neg n5]
  simp

theorem gather_on_post (g : Game) (keys : List Keys)
    (h : g.map_data g.player.y g.player.x = TILE_POST) :
    try_gather_or_action g keys =
      if (rand_range 0 1 g).1 = 0 then
        Run.done () { (rand_range 0 1 g).2 with
          player := { g.player with
            wood := g.player.wood + (1 + (if g.companion_count > 0 then 1 else 0)) }
          msg_timer := 30 } keys
      else
        Run.done () { (rand_range 0 1 g).2 with
          player := { g.player with
            stone := g.player.stone + (1 + (if g.companion_count > 0 then 1 else 0)) }
          msg_timer := 30 } keys := by
  unfold try_gather_or_action
  simp only [h]
  have n1 : ¬ TILE_POST = TILE_WALL := by decide
  have n2 : ¬ TILE_POST = TILE_WATER := by decide
  have n3 : ¬ TILE_POST = TILE_TREE := by decide
  have n4 : ¬ (TILE_POST = TILE_GRASS ∨ TILE_POST = TILE_SAND) := by decide
  rw [if_neg n1, if_neg n2, if_neg n3, if_neg n4]
  simp only [if_true]
  rfl

theorem gather_on_tower (g : Game) (keys : List Keys)
    (h : g.map_data g.player.y g.player.x = TILE_TOWER) :
    try_gather_or_action g keys = talk_to_nearby_npc g keys := by
  unfold try_gather_or_action
  simp only [h]
  have n1 : ¬ TILE_TOWER = TILE_WALL := by decide
  have n2 : ¬ TILE_TOWER = TILE_WATER := by decide
  have n3 : ¬ TILE_TOWER = TILE_TREE := by decide
  have n4 : ¬ (TILE_TOWER = TILE_GRASS ∨ TILE_TOWER = TILE_SAND) := by decide
  have n5 : ¬ TILE_TOWER = TILE_POST := by decide
  have n6 : ¬ TILE_TOWER = TILE_FARM := by decide
  have n7 : ¬ TILE_TOWER = TILE_FIRE := by decide
  rw [if_neg n1, if_neg n2, if_neg n3, if_neg n4, if_neg n5, if_neg n6, if_neg n7]

/-! ### The map of `build_map` -/

theorem for_loop_keeps {σ : Type} (I : σ → Prop) (cond : Int → Bool) (body : Int → σ → σ)
    (hb : ∀ i s, I s → I (body i s)) :
    ∀ (fuel : Nat) (i : Int) (s : σ), I s → I (for_loop fuel cond body i s) := by
  intro fuel
  induction fuel with
  | zero => intro i s h; exact h
  | succ k ih =>
    intro i s h
    unfold for_loop
    split_ifs
    · exact ih (i + 1) _ (hb i s h)
    · exact h

theorem for_lt_keeps {σ : Type} (I : σ → Prop) (lo hi : Int) (body : Int → σ → σ)
    (hb : ∀ i s, I s → I (body i s)) (s : σ) (h : I s) : I (for_lt lo hi body s) :=
  for_loop_keeps I _ body hb _ lo s h

theorem set_cell_eq_set_at (m : Int → Int → Char) (y x : Int) (ch : Char) :
    set_cell m y x ch = set_at m y (set_at (m y) x ch) := by
  funext y1 x1
  unfold set_cell set_at
  by_cases hy : y1 = y
  · subst hy; by_cases hx : x1 = x <;> simp [hx]
  · simp [hy]

/-- A loop that writes cells of the row `y` is a loop on that row. -/
theorem for_loop_in_row (y : Int) (c : Int → Char) (cond : Int → Bool) :
    ∀ (fuel : Nat) (lo : Int) (m : Int → Int → Char),
      for_loop fuel cond (fun x m => set_cell m y x (c x)) lo m =
        set_at m y (for_loop fuel cond (fun x row => set_at row x (c x)) lo (m y)) := by
  intro fuel
  induction fuel with
  | zero =>
    intro lo m
    funext y1
    simp only [for_loop, set_at]
    split_ifs with h
    · rw [h]
    · rfl
  | succ k ih =>
    intro lo m
    simp only [for_loop]
    split_ifs with h
    · rw [ih, set_cell_eq_set_at]
      funext y1
      simp only [set_at]
      split_ifs with h1
      · simp
      · rfl
    · funext y1
      simp only [set_at]
      split_ifs with h1
      · rw [h1]
      · rfl

theorem row_fill (y x0 x1 : Int) (c : Int → Char) (m : Int → Int → Char) :
    for_lt x0 x1 (fun x m => set_cell m y x (c x)) m =
      set_at m y (fun x => if x0 ≤ x ∧ x < x1 then c x else m y x) := by
  unfold for_lt
  rw [for_loop_in_row, for_loop_pointwise x1 (fun i _ => c i) _ x0 (m y) (le_refl _)]

theorem rect_fill (y0 y1 x0 x1 : Int) (c : Int → Int → Char) (m : Int → Int → Char) :
    for_lt y0 y1 (fun y m => for_lt x0 x1 (fun x m => set_cell m y x (c y x)) m) m =
      fun y x => if y0 ≤ y ∧ y < y1 ∧ x0 ≤ x ∧ x < x1 then c y x else m y x := by
  have hbody : (fun (y : Int) (m : Int → Int → Char) =>
      for_lt x0 x1 (fun x m => set_cell m y x (c y x)) m) =
      fun y m => set_at m y
        ((fun (y : Int) (row : Int → Char) (x : Int) =>
          if x0 ≤ x ∧ x < x1 then c y x else row x) y (m y)) := by
    funext y m
    rw [row_fill]
  rw [hbody,
    for_lt_pointwise y0 y1
      (fun (y : Int) (row : Int → Char) (x : Int) => if x0 ≤ x ∧ x < x1 then c y x else row x) m]
  funext y x
  by_cases hy : y0 ≤ y ∧ y < y1
  · by_cases hx : x0 ≤ x ∧ x < x1
    · rw [if_pos hy, if_pos hx, if_pos ⟨hy.1, hy.2, hx.1, hx.2⟩]
    · have hn : ¬ (y0 ≤ y ∧ y < y1 ∧ x0 ≤ x ∧ x < x1) := fun h => hx ⟨h.2.2.1, h.2.2.2⟩
      rw [if_pos hy, if_neg hx, if_neg hn]
  · have hn : ¬ (y0 ≤ y ∧ y < y1 ∧ x0 ≤ x ∧ x < x1) := fun h => hy ⟨h.1, h.2.1⟩
    rw [if_neg hy, if_neg hn]

theorem put_rect_apply (x0 y0 x1 y1 : Int) (ch : Char) (m : Int → Int → Char) (y x : Int) :
    put_rect x0 y0 x1 y1 ch m y x =
      if y0 ≤ y ∧ y ≤ y1 ∧ x0 ≤ x ∧ x ≤ x1 then ch else m y x := by
  unfold put_rect
  rw [rect_fill y0 (y1 + 1) x0 (x1 + 1) (fun _ _ => ch) m]
  simp only [Int.lt_add_one_iff]

/-- The map after the first loop nest of `build_map`. -/
theorem fill_base_apply (m : Int → Int → Char) (y x : Int) :
    fill_base m y x =
      if 0 ≤ y ∧ y < MAP_H then
        (if x = MAP_W then NUL
         else if 0 ≤ x ∧ x < MAP_W then
           (if y = 0 ∨ y = MAP_H - 1 ∨ x = 0 ∨ x = MAP_W - 1 then TILE_WALL else TILE_GRASS)
         else m y x)
      else m y x := by
  have hbody : (fun (y : Int) (m : Int → Int → Char) =>
      let m1 := for_lt 0 MAP_W (fun x m =>
        let t := if y = 0 ∨ y = MAP_H - 1 ∨ x = 0 ∨ x = MAP_W - 1 then TILE_WALL
          else TILE_GRASS
        set_cell m y x t) m
      set_cell m1 y MAP_W NUL) =
      fun y m => set_at m y
        ((fun (y : Int) (row : Int → Char) (x : Int) =>
          if x = MAP_W then NUL
          else if 0 ≤ x ∧ x < MAP_W then
            (if y = 0 ∨ y = MAP_H - 1 ∨ x = 0 ∨ x = MAP_W - 1 then TILE_WALL else TILE_GRASS)
          else row x) y (m y)) := by
    funext y m
    simp only
    rw [row_fill y 0 MAP_W
      (fun x => if y = 0 ∨ y = MAP_H - 1 ∨ x = 0 ∨ x = MAP_W - 1 then TILE_WALL
        else TILE_GRASS) m, set_cell_eq_set_at]
    funext y1 x1
    simp only [set_at]
    by_cases hy : y1 = y
    · simp only [hy, if_true]
      by_cases hx : x1 = MAP_W <;> simp [set_at, hx]
    · simp only [hy, if_false]
  unfold fill_base
  rw [hbody, for_lt_pointwise 0 MAP_H
    (fun (y : Int) (row : Int → Char) (x : Int) =>
      if x = MAP_W then NUL
      else if 0 ≤ x ∧ x < MAP_W then
        (if y = 0 ∨ y = MAP_H - 1 ∨ x = 0 ∨ x = MAP_W - 1 then TILE_WALL else TILE_GRASS)
      else row x) m]
  by_cases hy : 0 ≤ y ∧ y < MAP_H
  · simp only [hy, and_self, if_true]
  · simp only [hy, if_false]

theorem rand_range_snd_map (a b : Int) (g : Game) :
    (rand_range a b g).2.map_data = g.map_data := rfl

/-- One iteration of the tree loop writes at most one cell, inside columns 2..77 and rows
2..61. -/
theorem scatter_tree_outside (g : Game) (y x : Int)
    (h : ¬ (2 ≤ y ∧ y ≤ MAP_H - 3 ∧ 2 ≤ x ∧ x ≤ MAP_W - 3)) :
    (scatter_tree g).map_data y x = g.map_data y x := by
  have hx := rand_range_of_bounds 2 (MAP_W - 3) (by decide) (rand g).1
  have hy := rand_range_of_bounds 2 (MAP_H - 3) (by decide)
    (rand (rand_range 2 (MAP_W - 3) g).2).1
  unfold scatter_tree
  simp only
  split_ifs with hr
  · simp only [set_cell, rand_range_snd_map]
    have hne : ¬ (y = (rand_range 2 (MAP_H - 3) (rand_range 2 (MAP_W - 3) g).2).1 ∧
        x = (rand_range 2 (MAP_W - 3) g).1) := by
      intro he
      apply h
      simp only [rand_range] at he
      rw [he.1, he.2]
      exact ⟨hy.1, hy.2, hx.1, hx.2⟩
    rw [if_neg hne]
  · rfl

theorem scatter_trees_eq (g : Game) :
    scatter_trees g = for_lt 0 300 (fun (_ : Int) (g : Game) => scatter_tree g) g := rfl

theorem scatter_trees_outside (g : Game) (y x : Int)
    (h : ¬ (2 ≤ y ∧ y ≤ MAP_H - 3 ∧ 2 ≤ x ∧ x ≤ MAP_W - 3)) :
    (scatter_trees g).map_data y x = g.map_data y x := by
  have hstep : ∀ (i : Int) (s : Game), s.map_data y x = g.map_data y x →
      (scatter_tree s).map_data y x = g.map_data y x := by
    intro i s hs
    rw [scatter_tree_outside s y x h]; exact hs
  rw [scatter_trees_eq]
  exact for_lt_keeps (fun (s : Game) => s.map_data y x = g.map_data y x) 0 300
    (fun (_ : Int) (g : Game) => scatter_tree g) hstep g rfl

/-- The map of a new game, layer by layer from the last loop of `build_map` to the first. -/
theorem build_map_apply (g : Game) (y x : Int) :
    (build_map g).map_data y x =
      if 2 ≤ y ∧ y < 8 ∧ 2 ≤ x ∧ x < 10 then TILE_BASE
      else if y = 28 ∧ 20 ≤ x ∧ x < 40 then TILE_WALL
      else if 18 ≤ y ∧ y < 54 ∧ x = 44 then TILE_WALL
      else if 36 ≤ y ∧ y ≤ 56 ∧ 8 ≤ x ∧ x ≤ 30 then TILE_SAND
      else if 6 ≤ y ∧ y ≤ 16 ∧ 50 ≤ x ∧ x ≤ 72 then TILE_WATER
      else (scatter_trees { g with map_data := fill_base g.map_data }).map_data y x := by
  have hcol : ∀ m : Int → Int → Char,
      for_lt 18 54 (fun y m => set_cell m y 44 TILE_WALL) m =
        fun y x => if 18 ≤ y ∧ y < 54 ∧ x = 44 then TILE_WALL else m y x := by
    intro m
    have hb : (fun (y : Int) (m : Int → Int → Char) => set_cell m y 44 TILE_WALL) =
        fun y m => set_at m y
          ((fun (_ : Int) (row : Int → Char) => set_at row 44 TILE_WALL) y (m y)) := by
      funext y m; rw [set_cell_eq_set_at]
    rw [hb, for_lt_pointwise 18 54 (fun (_ : Int) (row : Int → Char) => set_at row 44 TILE_WALL)]
    funext y x
    by_cases hy : 18 ≤ y ∧ y < 54
    · rw [if_pos hy]
      by_cases hx : x = 44
      · rw [if_pos ⟨hy.1, hy.2, hx⟩]; simp [set_at, hx]
      · have hn : ¬ (18 ≤ y ∧ y < 54 ∧ x = 44) := fun h => hx h.2.2
        rw [if_neg hn]; simp [set_at, hx]
    · have hn : ¬ (18 ≤ y ∧ y < 54 ∧ x = 44) := fun h => hy ⟨h.1, h.2.1⟩
      rw [if_neg hy, if_neg hn]
  show for_lt 2 8 (fun y m => for_lt 2 10 (fun x m => set_cell m y x TILE_BASE) m)
      (for_lt 20 40 (fun x m => set_cell m 28 x TILE_WALL)
        (for_lt 18 54 (fun y m => set_cell m y 44 TILE_WALL)
          (put_rect 8 36 30 56 TILE_SAND
            (put_rect 50 6 72 16 TILE_WATER
              (scatter_trees { g with map_data := fill_base g.map_data }).map_data)))) y x = _
  rw [rect_fill 2 8 2 10 (fun _ _ => TILE_BASE), row_fill 28 20 40 (fun _ => TILE_WALL), hcol]
  simp only [set_at, put_rect_apply]
  by_cases h1 : 2 ≤ y ∧ y < 8 ∧ 2 ≤ x ∧ x < 10
  · rw [if_pos h1, if_pos h1]
  rw [if_neg h1, if_neg h1]
  by_cases h2 : y = 28
  · rw [if_pos h2]
    by_cases h3 : 20 ≤ x ∧ x < 40
    · rw [if_pos h3, if_pos ⟨h2, h3.1, h3.2⟩]
    · have hn : ¬ (y = 28 ∧ 20 ≤ x ∧ x < 40) := fun h => h3 h.2
      rw [if_neg h3, if_neg hn, h2]
  · have hn : ¬ (y = 28 ∧ 20 ≤ x ∧ x < 40) := fun h => h2 h.1
    rw [if_neg h2, if_neg hn]

/-! ### Invariants of the reachable states -/

theorem mild_refl (g : Game) : mild g g :=
  ⟨rfl, rfl, rfl, rfl, fun _ => ⟨rfl, rfl, rfl, rfl, rfl⟩, fun h _ => h⟩

theorem gifts_ok_of_mild (g g1 : Game) (h : mild g g1) (hg : gifts_ok g) : gifts_ok g1 := by
  obtain ⟨_, _, _, hn, hgift, _⟩ := h
  intro i h0 hi
  rw [hn] at hi
  obtain ⟨e1, e2, e3, _, _⟩ := hgift i
  rw [e1, e2, e3]
  exact hg i h0 hi

theorem mild_trans (g g1 g2 : Game) (h1 : mild g g1) (h2 : mild g1 g2) : mild g g2 := by
  have hg := gifts_ok_of_mild g g1 h1
  obtain ⟨a1, b1, c1, d1, e1, f1⟩ := h1
  obtain ⟨a2, b2, c2, d2, e2, f2⟩ := h2
  refine ⟨a2.trans a1, b2.trans b1, c2.trans c1, d2.trans d1, ?_, ?_⟩
  · intro i
    obtain ⟨x1, x2, x3, x4, x5⟩ := e1 i
    obtain ⟨y1, y2, y3, y4, y5⟩ := e2 i
    exact ⟨y1.trans x1, y2.trans x2, y3.trans x3, y4.trans x4, y5.trans x5⟩
  · intro hr hgi
    exact f2 (f1 hr hgi) (hg hgi)

theorem game_inv_of_mild (g g1 : Game) (h : mild g g1) (hi : game_inv g) : game_inv g1 := by
  have hg := gifts_ok_of_mild g g1 h hi.2.2.2
  obtain ⟨hmap, hx, hy, _, _, hres⟩ := h
  obtain ⟨hb, hp, hr, hgi⟩ := hi
  refine ⟨?_, ?_, hres hr hgi, hg⟩
  · intro y x hyx; rw [hmap]; exact hb y x hyx
  · unfold position_ok at hp ⊢
    rw [hmap, hx, hy]; exact hp

/-- An operation that changes nothing but fields outside the invariants, and resources only
upward, is mild. -/
theorem mild_of_fields (g g1 : Game) (hmap : g1.map_data = g.map_data)
    (hx : g1.player.x = g.player.x) (hy : g1.player.y = g.player.y)
    (hn : g1.npc_count = g.npc_count) (hnpcs : g1.npcs = g.npcs)
    (hres : resources_ok g → resources_ok g1) : mild g g1 :=
  ⟨hmap, hx, hy, hn, fun i => by rw [hnpcs]; exact ⟨rfl, rfl, rfl, rfl, rfl⟩,
    fun h _ => hres h⟩

theorem random_wild_snd (g : Game) :
    (random_wild g).2 = { g with rand_seq := fun n => g.rand_seq (n + 1 + 1) } := by
  unfold random_wild
  simp only
  split_ifs <;> rfl

/-- The second rule of quick craft is never reached. -/
theorem try_craft_quick_eq (g : Game) :
    try_craft_quick g =
      if g.player.wood ≥ 5 ∧ g.player.stone ≥ 3 then
        { g with
          player := { g.player with
            wood := g.player.wood - 5
            stone := g.player.stone - 3
            orbs := g.player.orbs + 1 }
          msg_timer := 30 }
      else { g with msg_timer := 30 } := by
  unfold try_craft_quick
  by_cases h : g.player.wood ≥ 5 ∧ g.player.stone ≥ 3
  · rw [if_pos h, if_pos h]
  · have h2 : ¬ (g.player.wood ≥ 10 ∧ g.player.stone ≥ 6 ∧
        can_build_here (g.map_data g.player.y g.player.x) ≠ 0) := by
      intro h2; apply h; omega
    rw [if_neg h, if_neg h2, if_neg h]

theorem mild_try_craft_quick (g : Game) : mild g (try_craft_quick g) := by
  rw [try_craft_quick_eq]
  split_ifs with h
  · refine mild_of_fields _ _ rfl rfl rfl rfl rfl ?_
    intro hr; unfold resources_ok at hr ⊢; simp only; omega
  · exact mild_of_fields _ _ rfl rfl rfl rfl rfl (fun hr => hr)

theorem mild_try_throw_orb (g : Game) : mild g (try_throw_orb g) := by
  unfold try_throw_orb
  by_cases ho : g.player.orbs ≤ 0
  · rw [if_pos ho]; exact mild_of_fields _ _ rfl rfl rfl rfl rfl (fun hr => hr)
  rw [if_neg ho]
  simp only
  by_cases hr : (rand_range 0 99 g).1 < 12
  · rw [if_pos hr, random_wild_snd]
    exact mild_of_fields _ _ rfl rfl rfl rfl rfl (fun hr => hr)
  · rw [if_neg hr]
    refine mild_of_fields _ _ rfl rfl rfl rfl rfl ?_
    intro h
    unfold resources_ok at h ⊢
    simp only [rand_range, rand]
    omega

theorem mild_boss_bonus (g : Game) : mild g (boss_bonus g) := by
  unfold boss_bonus
  by_cases hn : (is_night g && near_boss_area g) = true
  · rw [if_pos hn]
    simp only
    by_cases hr : (rand_range 0 99 g).1 < 5
    · rw [if_pos hr]
      refine mild_of_fields _ _ rfl rfl rfl rfl rfl ?_
      intro h
      unfold resources_ok at h ⊢
      simp only [rand_range, rand]
      omega
    · rw [if_neg hr]
      exact mild_of_fields _ _ rfl rfl rfl rfl rfl (fun hr => hr)
  · rw [if_neg hn]; exact mild_refl g

theorem mild_world_tail (g : Game) : mild g (world_tail g) := by
  unfold world_tail
  simp only
  split_ifs
  · exact mild_trans _ _ _ (mild_boss_bonus g)
      (mild_of_fields _ _ rfl rfl rfl rfl rfl (fun hr => hr))
  · exact mild_boss_bonus g

theorem mild_talk_scan (g : Game) (keys : List Keys) :
    ∀ (fuel : Nat) (i : Int), 0 ≤ i → mild g (talk_scan g keys fuel i).game := by
  intro fuel
  induction fuel with
  | zero =>
    intro i _
    exact mild_of_fields _ _ rfl rfl rfl rfl rfl (fun hr => hr)
  | succ k ih =>
    intro i hi
    unfold talk_scan
    by_cases hlt : i < g.npc_count
    · rw [if_pos hlt]
      by_cases hadj : adjacent g.player.x g.player.y (g.npcs i).x (g.npcs i).y ≠ 0
      · rw [if_pos hadj]
        have hm : mild g { g with
            npcs := set_at g.npcs i (gift_from_npc (g.npcs i) g.player).1
            player := (gift_from_npc (g.npcs i) g.player).2 } := by
          by_cases hgave : (g.npcs i).gave_gift ≠ 0
          · have e : gift_from_npc (g.npcs i) g.player = (g.npcs i, g.player) := by
              simp [gift_from_npc, hgave]
            rw [e]
            refine ⟨rfl, rfl, rfl, rfl, ?_, fun hr _ => hr⟩
            intro j
            by_cases hj : j = i
            · subst hj; simp [set_at]
            · simp [set_at, hj]
          · have e : gift_from_npc (g.npcs i) g.player =
                ({ g.npcs i with gave_gift := 1 },
                 { g.player with
                   wood := g.player.wood + (g.npcs i).gift_wood
                   stone := g.player.stone + (g.npcs i).gift_stone
                   orbs := g.player.orbs + (g.npcs i).gift_orb }) := by
              simp [gift_from_npc, hgave]
            rw [e]
            refine ⟨rfl, rfl, rfl, rfl, ?_, ?_⟩
            · intro j
              by_cases hj : j = i
              · subst hj; simp [set_at]
              · simp [set_at, hj]
            · intro hr hg
              obtain ⟨g1, g2, g3⟩ := hg i hi hlt
              unfold resources_ok at hr ⊢
              simp only
              omega
        cases wait_A keys <;> exact hm
      · rw [if_neg hadj]
        exact ih (i + 1) (by omega)
    · rw [if_neg hlt]
      exact mild_of_fields _ _ rfl rfl rfl rfl rfl (fun hr => hr)

theorem mild_try_gather (g : Game) (keys : List Keys) :
    mild g (try_gather_or_action g keys).game := by
  unfold try_gather_or_action
  simp only
  by_cases h1 : g.map_data g.player.y g.player.x = TILE_WALL
  · rw [if_pos h1]; exact mild_of_fields _ _ rfl rfl rfl rfl rfl (fun hr => hr)
  rw [if_neg h1]
  by_cases h2 : g.map_data g.player.y g.player.x = TILE_WATER
  · rw [if_pos h2]; exact mild_of_fields _ _ rfl rfl rfl rfl rfl (fun hr => hr)
  rw [if_neg h2]
  by_cases h3 : g.map_data g.player.y g.player.x = TILE_TREE
  · rw [if_pos h3]
    by_cases hr : (rand_range 0 99 g).1 < 70
    · rw [if_pos hr]
      refine mild_of_fields _ _ rfl rfl rfl rfl rfl ?_
      intro h
      unfold resources_ok at h ⊢
      simp only [Run.game, rand_range, rand]
      omega
    · rw [if_neg hr]; exact mild_of_fields _ _ rfl rfl rfl rfl rfl (fun hr => hr)
  rw [if_neg h3]
  by_cases h4 : g.map_data g.player.y g.player.x = TILE_GRASS ∨
      g.map_data g.player.y g.player.x = TILE_SAND
  · rw [if_pos h4]
    by_cases hr : (rand_range 0 99 g).1 < 18
    · rw [if_pos hr, random_wild_snd]
      exact mild_of_fields _ _ rfl rfl rfl rfl rfl (fun hr => hr)
    · rw [if_neg hr]; exact mild_of_fields _ _ rfl rfl rfl rfl rfl (fun hr => hr)
  rw [if_neg h4]
  by_cases h5 : g.map_data g.player.y g.player.x = TILE_POST
  · rw [if_pos h5]
    have hb : (0 : Int) ≤ (if g.companion_count > 0 then (1 : Int) else 0) := by
      split_ifs <;> decide
    by_cases hr : (rand_range 0 1 g).1 = 0
    · rw [if_pos hr]
      refine mild_of_fields _ _ rfl rfl rfl rfl rfl ?_
      intro h
      unfold resources_ok at h ⊢
      simp only [Run.game, rand_range, rand]
      omega
    · rw [if_neg hr]
      refine mild_of_fields _ _ rfl rfl rfl rfl rfl ?_
      intro h
      unfold resources_ok at h ⊢
      simp only [Run.game, rand_range, rand]
      omega
  rw [if_neg h5]
  by_cases h6 : g.map_data g.player.y g.player.x = TILE_FARM
  · rw [if_pos h6]
    refine mild_of_fields _ _ rfl rfl rfl rfl rfl ?_
    intro h
    unfold resources_ok at h ⊢
    simp only [Run.game]
    omega
  rw [if_neg h6]
  by_cases h7 : g.map_data g.player.y g.player.x = TILE_FIRE
  · rw [if_pos h7]; exact mild_of_fields _ _ rfl rfl rfl rfl rfl (fun hr => hr)
  rw [if_neg h7]
  exact mild_talk_scan g keys _ 0 (le_refl _)

theorem mild_attacks (sel : Int) (g : Game) : mild g (attacks sel g) := by
  unfold attacks
  simp only
  by_cases h1 : sel = 1
  · rw [if_pos h1]
    by_cases h0 : sel = 0
    · rw [if_pos h0]; exact mild_of_fields _ _ rfl rfl rfl rfl rfl (fun hr => hr)
    · rw [if_neg h0]; exact mild_of_fields _ _ rfl rfl rfl rfl rfl (fun hr => hr)
  · rw [if_neg h1]
    by_cases h0 : sel = 0
    · rw [if_pos h0]; exact mild_of_fields _ _ rfl rfl rfl rfl rfl (fun hr => hr)
    · rw [if_neg h0]; exact mild_refl g

theorem mild_add_companion (g : Game) : mild g (add_companion g) := by
  unfold add_companion
  split_ifs
  · exact mild_of_fields _ _ rfl rfl rfl rfl rfl (fun hr => hr)
  · exact mild_refl g

theorem mild_capture_attempt (sel : Int) (g : Game) (keys : List Keys) :
    mild g (capture_attempt sel g keys).game := by
  unfold capture_attempt
  by_cases ho : g.player.orbs ≤ 0
  · rw [if_pos ho]; exact mild_refl g
  rw [if_neg ho]
  simp only
  have hs : mild g (spend_orb g) := by
    refine mild_of_fields _ _ rfl rfl rfl rfl rfl ?_
    intro h
    unfold resources_ok at h ⊢
    simp only [spend_orb, rand_range, rand]
    omega
  by_cases hr : (rand_range 0 99 g).1 ≤ capture_chance g.wild
  · rw [if_pos hr]
    cases wait_A keys
    · exact hs
    · exact mild_trans _ _ _ hs (mild_add_companion _)
  · rw [if_neg hr]; exact hs

theorem action_A_game (sel : Int) (g : Game) (keys : List Keys) :
    (action_A sel g keys).game =
      if sel = 2 then (capture_attempt sel (attacks sel g) keys).game else attacks sel g := by
  unfold action_A
  simp only
  by_cases h2 : sel = 2
  · rw [if_pos h2, if_pos h2]
    cases hc : capture_attempt sel (attacks sel g) keys with
    | next s3 g3 => simp only; rw [after_action_game]; rfl
    | ret c g3 k3 => rfl
    | pending g3 => rfl
  · rw [if_neg h2, if_neg h2]
    exact after_action_game _ _ _

theorem mild_battle_body (sel : Int) (kd : Keys) (g : Game) (keys : List Keys) :
    mild g (battle_body sel kd g keys).game := by
  unfold battle_body
  simp only
  rw [flow_game_after_b]
  by_cases ha : kd.a = true
  · rw [if_pos ha, action_A_game]
    split_ifs
    · exact mild_trans _ _ _ (mild_attacks _ g) (mild_capture_attempt _ _ _)
    · exact mild_attacks _ g
  · rw [if_neg ha]; exact mild_refl g

theorem can_build_here_tile (t : Char) (h : can_build_here t ≠ 0) :
    t ≠ TILE_WALL ∧ t ≠ TILE_WATER := by
  unfold can_build_here at h
  split_ifs at h with h1 h2
  · rcases h1 with e | e <;> rw [e] <;> decide
  · rcases h2 with e | e <;> rw [e] <;> decide
  · exact absurd rfl h

theorem build_tile_not_blocking (i : Int) :
    (BUILDINGS_LOCAL i).tile_char ≠ TILE_WALL ∧ (BUILDINGS_LOCAL i).tile_char ≠ TILE_WATER := by
  unfold BUILDINGS_LOCAL
  split_ifs <;> decide

theorem game_inv_try_build (g : Game) (hi : game_inv g) : game_inv (try_build g) := by
  unfold try_build
  simp only
  by_cases hc : can_build_here (g.map_data g.player.y g.player.x) = 0
  · rw [if_pos hc]
    exact game_inv_of_mild _ _ (mild_of_fields _ _ rfl rfl rfl rfl rfl (fun hr => hr)) hi
  rw [if_neg hc]
  by_cases hp : g.player.wood < current_build_w g ∨ g.player.stone < current_build_s g
  · rw [if_pos hp]
    exact game_inv_of_mild _ _ (mild_of_fields _ _ rfl rfl rfl rfl rfl (fun hr => hr)) hi
  rw [if_neg hp]
  obtain ⟨hb, hpos, hr, hg⟩ := hi
  have htile := can_build_here_tile _ hc
  refine ⟨?_, ?_, ?_, hg⟩
  · intro y x hyx
    show set_cell g.map_data g.player.y g.player.x (current_build_tile g) y x = TILE_WALL
    unfold set_cell
    by_cases he : y = g.player.y ∧ x = g.player.x
    · exfalso
      apply htile.1
      rw [← he.1, ← he.2]
      exact hb y x hyx
    · rw [if_neg he]; exact hb y x hyx
  · unfold position_ok at hpos ⊢
    refine ⟨hpos.1, hpos.2.1, hpos.2.2.1, hpos.2.2.2.1, ?_⟩
    show set_cell g.map_data g.player.y g.player.x (current_build_tile g)
        g.player.y g.player.x ≠ TILE_WALL ∧
      set_cell g.map_data g.player.y g.player.x (current_build_tile g)
        g.player.y g.player.x ≠ TILE_WATER
    simp only [set_cell, and_self, if_true]
    exact build_tile_not_blocking _
  · unfold resources_ok at hr ⊢
    simp only
    omega

theorem try_move_cases (dx dy : Int) (g : Game) :
    try_move dx dy g = g ∨
    (try_move dx dy g =
        { g with player := { g.player with
            x := g.player.x + dx, y := g.player.y + dy, steps := g.player.steps + 1 } } ∧
      1 ≤ g.player.x + dx ∧ g.player.x + dx ≤ MAP_W - 2 ∧
      1 ≤ g.player.y + dy ∧ g.player.y + dy ≤ MAP_H - 2 ∧
      g.map_data (g.player.y + dy) (g.player.x + dx) ≠ TILE_WALL ∧
      g.map_data (g.player.y + dy) (g.player.x + dx) ≠ TILE_WATER) := by
  unfold try_move
  simp only
  by_cases h0 : dx ≠ 0 ∨ dy ≠ 0
  · rw [if_pos h0]
    by_cases h1 : g.player.x + dx ≥ 1 ∧ g.player.x + dx < MAP_W - 1 ∧
        g.player.y + dy ≥ 1 ∧ g.player.y + dy < MAP_H - 1
    · rw [if_pos h1]
      by_cases h2 : g.map_data (g.player.y + dy) (g.player.x + dx) ≠ TILE_WALL ∧
          g.map_data (g.player.y + dy) (g.player.x + dx) ≠ TILE_WATER
      · rw [if_pos h2]
        right
        refine ⟨rfl, ?_, ?_, ?_, ?_, h2.1, h2.2⟩
        · exact h1.1
        · have := h1.2.1; omega
        · exact h1.2.2.1
        · have := h1.2.2.2; omega
      · rw [if_neg h2]; left; rfl
    · rw [if_neg h1]; left; rfl
  · rw [if_neg h0]; left; rfl

theorem game_inv_try_move (dx dy : Int) (g : Game) (hi : game_inv g) :
    game_inv (try_move dx dy g) := by
  rcases try_move_cases dx dy g with e | ⟨e, h1, h2, h3, h4, h5, h6⟩
  · rw [e]; exact hi
  · rw [e]
    obtain ⟨hb, _, hr, hg⟩ := hi
    exact ⟨hb, ⟨h1, h2, h3, h4, h5, h6⟩, hr, hg⟩

theorem game_inv_move_block (held : Keys) (cd : Int) (g : Game) (hi : game_inv g) :
    game_inv (move_block held cd g).2 := by
  have h : (move_block held cd g).2 = g ∨
      (move_block held cd g).2 = try_move (held_dx held) (held_dy held) g := by
    unfold move_block
    simp only
    by_cases h0 : (if cd > 0 then cd - 1 else cd) = 0
    · rw [if_pos h0]; right; rfl
    · rw [if_neg h0]; left; rfl
  rcases h with e | e
  · rw [e]; exact hi
  · rw [e]; exact game_inv_try_move _ _ g hi

theorem game_inv_key_actions (kd held : Keys) (g : Game) (hi : game_inv g) :
    game_inv (key_actions kd held g) := by
  have h1 : game_inv (if kd.select = true then try_craft_quick g else g) := by
    split_ifs
    · exact game_inv_of_mild _ _ (mild_try_craft_quick g) hi
    · exact hi
  have hsel : ∀ (g1 : Game) (v : Int), game_inv g1 → game_inv { g1 with sel_build_idx := v } :=
    fun g1 v h =>
      game_inv_of_mild _ _ (mild_of_fields _ _ rfl rfl rfl rfl rfl (fun hr => hr)) h
  unfold key_actions
  simp only
  generalize (if kd.select = true then try_craft_quick g else g) = g1 at h1
  have h2 : game_inv (if kd.l = true then
      { g1 with sel_build_idx := Int.tmod (g1.sel_build_idx - 1 + 4) 4 } else g1) := by
    split_ifs
    · exact hsel _ _ h1
    · exact h1
  generalize (if kd.l = true then
      { g1 with sel_build_idx := Int.tmod (g1.sel_build_idx - 1 + 4) 4 } else g1) = g2 at h2
  have h3 : game_inv (if kd.r = true then
      { g2 with sel_build_idx := Int.tmod (g2.sel_build_idx + 1) 4 } else g2) := by
    split_ifs
    · exact hsel _ _ h2
    · exact h2
  generalize (if kd.r = true then
      { g2 with sel_build_idx := Int.tmod (g2.sel_build_idx + 1) 4 } else g2) = g3 at h3
  have h4 : game_inv (if (held.r && kd.a) = true then try_throw_orb g3 else g3) := by
    split_ifs
    · exact game_inv_of_mild _ _ (mild_try_throw_orb g3) h3
    · exact h3
  generalize (if (held.r && kd.a) = true then try_throw_orb g3 else g3) = g4 at h4
  split_ifs
  · exact game_inv_try_build g4 h4
  · exact h4

theorem on_border_cases (y x : Int) (h : on_border y x) :
    ¬ (2 ≤ y ∧ y ≤ MAP_H - 3 ∧ 2 ≤ x ∧ x ≤ MAP_W - 3) ∧
    (0 ≤ y ∧ y < MAP_H) ∧ ¬ x = MAP_W ∧ (0 ≤ x ∧ x < MAP_W) ∧
    (y = 0 ∨ y = MAP_H - 1 ∨ x = 0 ∨ x = MAP_W - 1) ∧
    (y = 0 ∨ y = 63 ∨ x = 0 ∨ x = 79) := by
  unfold on_border MAP_H MAP_W at h
  unfold MAP_H MAP_W
  omega

/-- The gifts of the three NPCs of a new game. -/
theorem build_map_gifts (g0 : Game) :
    (((build_map g0).npcs 0).gift_wood = 3 ∧ ((build_map g0).npcs 0).gift_stone = 2 ∧
      ((build_map g0).npcs 0).gift_orb = 0) ∧
    (((build_map g0).npcs 1).gift_wood = 0 ∧ ((build_map g0).npcs 1).gift_stone = 2 ∧
      ((build_map g0).npcs 1).gift_orb = 1) ∧
    (((build_map g0).npcs 2).gift_wood = 0 ∧ ((build_map g0).npcs 2).gift_stone = 0 ∧
      ((build_map g0).npcs 2).gift_orb = 2) :=
  ⟨⟨rfl, rfl, rfl⟩, ⟨rfl, rfl, rfl⟩, ⟨rfl, rfl, rfl⟩⟩

theorem game_inv_build_map (g0 : Game) : game_inv (build_map g0) := by
  refine ⟨?_, ?_, ?_, ?_⟩
  · intro y x hyx
    obtain ⟨h1, h2, h3, h4, h5, h6⟩ := on_border_cases y x hyx
    rw [build_map_apply]
    have n1 : ¬ (2 ≤ y ∧ y < 8 ∧ 2 ≤ x ∧ x < 10) := by omega
    have n4 : ¬ (36 ≤ y ∧ y ≤ 56 ∧ 8 ≤ x ∧ x ≤ 30) := by omega
    have n5 : ¬ (6 ≤ y ∧ y ≤ 16 ∧ 50 ≤ x ∧ x ≤ 72) := by omega
    rw [if_neg n1]
    split_ifs
    · rfl
    · rfl
    · rw [scatter_trees_outside _ y x h1]
      show fill_base g0.map_data y x = TILE_WALL
      rw [fill_base_apply, if_pos h2, if_neg h3, if_pos h4, if_pos h5]
  · have hp : (build_map g0).player = ⟨4, 4, 0, 1, 8, 5⟩ := rfl
    unfold position_ok
    rw [hp]
    simp only
    rw [build_map_apply]
    refine ⟨by decide, by decide, by decide, by decide, ?_⟩
    rw [if_pos (by decide)]
    decide
  · have hp : (build_map g0).player = ⟨4, 4, 0, 1, 8, 5⟩ := rfl
    unfold resources_ok
    rw [hp]
    decide
  · intro i h0 h3
    have h3b : i < 3 := h3
    have hi : i = 0 ∨ i = 1 ∨ i = 2 := by omega
    obtain ⟨⟨a1, a2, a3⟩, ⟨b1, b2, b3⟩, ⟨c1, c2, c3⟩⟩ := build_map_gifts g0
    rcases hi with h | h | h <;> subst h
    · rw [a1, a2, a3]; decide
    · rw [b1, b2, b3]; decide
    · rw [c1, c2, c3]; decide

/-- Every reachable state satisfies the four invariants. -/
theorem reachable_game_inv (g : Game) (h : Reachable g) : game_inv g := by
  induction h with
  | start g0 => exact game_inv_build_map g0
  | move held cd g _ ih => exact game_inv_move_block held cd g ih
  | keys kd held g _ ih => exact game_inv_key_actions kd held g ih
  | build g _ ih => exact game_inv_try_build g ih
  | craft g _ ih => exact game_inv_of_mild _ _ (mild_try_craft_quick g) ih
  | gather keys g _ ih => exact game_inv_of_mild _ _ (mild_try_gather g keys) ih
  | throw_orb g _ ih => exact game_inv_of_mild _ _ (mild_try_throw_orb g) ih
  | battle sel kd keys g _ ih => exact game_inv_of_mild _ _ (mild_battle_body sel kd g keys) ih
  | battle_end g _ ih =>
    exact game_inv_of_mild _ _ (mild_of_fields _ _ rfl rfl rfl rfl rfl (fun hr => hr)) ih
  | tail g _ ih => exact game_inv_of_mild _ _ (mild_world_tail g) ih

theorem after_some_play_reachable : Reachable after_some_play :=
  Reachable.craft _ (Reachable.build _ (Reachable.keys _ _ _ (Reachable.keys _ _ _
    (Reachable.keys _ _ _ (Reachable.move hold_right 0 _
      (Reachable.start (initial_globals (fun _ => 0))))))))

theorem reachable_battle_loop : ∀ (keys : List Keys) (sel : Int) (g : Game),
    Reachable g → Reachable (battle_loop keys sel g).game := by
  intro keys
  induction keys with
  | nil => intro sel g h; exact h
  | cons kd ks ih =>
    intro sel g h
    have hb := Reachable.battle sel kd ks g h
    unfold battle_loop
    cases hc : battle_body sel kd g ks with
    | next s1 g1 => rw [hc] at hb; exact ih s1 g1 hb
    | ret c g1 k1 => rw [hc] at hb; exact hb
    | pending g1 => rw [hc] at hb; exact hb

/-- A frame of the main loop in which START is not pressed leads from a reachable state to
a reachable state, whether it ends or is left waiting for a key. -/
theorem reachable_frame (w : World) (kd held : Keys) (keys : List Keys)
    (hs : kd.start = false) (h : Reachable w.g) :
    Reachable (frame w (kd :: held :: keys)).world.g := by
  have hk := Reachable.keys kd held w.g h
  unfold frame
  simp only [hs, Bool.false_eq_true, if_false]
  by_cases hw : (key_actions kd held w.g).gstate = GS_WORLD
  · rw [if_pos hw]
    unfold world_update
    simp only
    have hm := Reachable.move held w.move_cd _ hk
    by_cases ha : kd.a = true
    · rw [if_pos ha]
      have hg := Reachable.gather keys _ hm
      cases hc : try_gather_or_action (move_block held w.move_cd (key_actions kd held w.g)).2
          keys with
      | done v g1 k1 => rw [hc] at hg; exact Reachable.tail _ hg
      | pending g1 => rw [hc] at hg; exact hg
    · rw [if_neg ha]
      exact Reachable.tail _ hm
  · rw [if_neg hw]
    by_cases hb : (key_actions kd held w.g).gstate = GS_BATTLE
    · rw [if_pos hb]
      have hl := reachable_battle_loop keys 0 _ hk
      unfold do_battle
      cases hc : battle_loop keys 0 (key_actions kd held w.g) with
      | done v g1 k1 => rw [hc] at hl; exact Reachable.battle_end _ hl
      | pending g1 => rw [hc] at hl; exact hl
    · rw [if_neg hb]; exact hk

/-! ### The frame of a build -/

theorem key_actions_build (held : Keys) (g : Game) (hl : held.l = true)
    (hr : held.r = false) : key_actions press_A held g = try_build g := by
  simp [key_actions, press_A, hl, hr]

theorem key_actions_plain (held : Keys) (g : Game) (hl : held.l = false)
    (hr : held.r = false) : key_actions press_A held g = g := by
  simp [key_actions, press_A, hl, hr]

theorem try_build_gstate (g : Game) : (try_build g).gstate = g.gstate := by
  unfold try_build
  simp only
  split_ifs <;> rfl

theorem try_move_still (g : Game) : try_move 0 0 g = g := by
  simp [try_move]

theorem move_block_still (held : Keys) (cd : Int) (g : Game)
    (hup : held.up = false) (hdown : held.down = false) (hleft : held.left = false)
    (hright : held.right = false) : (move_block held cd g).2 = g := by
  have hx : held_dx held = 0 := by simp [held_dx, hup, hdown, hleft, hright]
  have hy : held_dy held = 0 := by simp [held_dy, hup, hdown]
  unfold move_block
  simp only [hx, hy, try_move_still]
  split_ifs <;> rfl

theorem boss_bonus_keeps (g : Game) :
    (boss_bonus g).map_data = g.map_data ∧ (boss_bonus g).player.wood = g.player.wood ∧
    (boss_bonus g).player.stone = g.player.stone ∧ (boss_bonus g).player.x = g.player.x ∧
    (boss_bonus g).player.y = g.player.y ∧ (boss_bonus g).gstate = g.gstate := by
  unfold boss_bonus
  by_cases hn : (is_night g && near_boss_area g) = true
  · rw [if_pos hn]
    simp only
    by_cases hr : (rand_range 0 99 g).1 < 5
    · rw [if_pos hr]; exact ⟨rfl, rfl, rfl, rfl, rfl, rfl⟩
    · rw [if_neg hr]; exact ⟨rfl, rfl, rfl, rfl, rfl, rfl⟩
  · rw [if_neg hn]; exact ⟨rfl, rfl, rfl, rfl, rfl, rfl⟩

theorem world_tail_keeps (g : Game) :
    (world_tail g).map_data = g.map_data ∧ (world_tail g).player.wood = g.player.wood ∧
    (world_tail g).player.stone = g.player.stone ∧ (world_tail g).player.x = g.player.x ∧
    (world_tail g).player.y = g.player.y ∧ (world_tail g).gstate = g.gstate := by
  have h := boss_bonus_keeps g
  unfold world_tail
  simp only
  split_ifs
  · exact h
  · exact h

/-- What a frame in world mode with A newly pressed and no direction held leaves: the map,
wood, stone and the position that `try_gather_or_action` leaves. -/
theorem world_update_A_keeps (held : Keys) (w : World) (g : Game) (ks : List Keys)
    (hup : held.up = false) (hdown : held.down = false) (hleft : held.left = false)
    (hright : held.right = false) :
    (world_update press_A held w g ks).world.g.map_data =
      (try_gather_or_action g ks).game.map_data ∧
    (world_update press_A held w g ks).world.g.player.wood =
      (try_gather_or_action g ks).game.player.wood ∧
    (world_update press_A held w g ks).world.g.player.stone =
      (try_gather_or_action g ks).game.player.stone ∧
    (world_update press_A held w g ks).world.g.player.x =
      (try_gather_or_action g ks).game.player.x ∧
    (world_update press_A held w g ks).world.g.player.y =
      (try_gather_or_action g ks).game.player.y ∧
    (world_update press_A held w g ks).world.g.gstate =
      (try_gather_or_action g ks).game.gstate := by
  unfold world_update
  simp only [move_block_still held w.move_cd g hup hdown hleft hright]
  have ha : press_A.a = true := rfl
  rw [if_pos ha]
  cases try_gather_or_action g ks with
  | done v g1 k1 => exact world_tail_keeps g1
  | pending g1 => exact ⟨rfl, rfl, rfl, rfl, rfl, rfl⟩

theorem frame_build_eq (w : World) (held : Keys) (ks : List Keys)
    (hworld : w.g.gstate = GS_WORLD) (hl : held.l = true) (hr : held.r = false) :
    frame w (press_A :: held :: ks) = world_update press_A held w (try_build w.g) ks := by
  have hs : press_A.start = false := rfl
  unfold frame
  simp only [hs, Bool.false_eq_true, if_false, key_actions_build held w.g hl hr]
  rw [if_pos (by rw [try_build_gstate]; exact hworld)]

theorem frame_plain_eq (w : World) (held : Keys) (ks : List Keys)
    (hworld : w.g.gstate = GS_WORLD) (hl : held.l = false) (hr : held.r = false) :
    frame w (press_A :: held :: ks) = world_update press_A held w w.g ks := by
  have hs : press_A.start = false := rfl
  unfold frame
  simp only [hs, Bool.false_eq_true, if_false, key_actions_plain held w.g hl hr]
  rw [if_pos hworld]

theorem try_build_cases (g : Game) :
    (g.player.wood ≥ current_build_w g ∧ g.player.stone ≥ current_build_s g ∧
        can_build_here (g.map_data g.player.y g.player.x) = 1 ∧
      try_build g =
        { g with
          player := { g.player with
            wood := g.player.wood - current_build_w g
            stone := g.player.stone - current_build_s g }
          map_data := set_cell g.map_data g.player.y g.player.x (current_build_tile g)
          msg_timer := 60 }) ∨
    (¬ (g.player.wood ≥ current_build_w g ∧ g.player.stone ≥ current_build_s g ∧
        can_build_here (g.map_data g.player.y g.player.x) = 1) ∧
      try_build g = { g with msg_timer := 40 }) := by
  have hcb : can_build_here (g.map_data g.player.y g.player.x) = 1 ∨
      can_build_here (g.map_data g.player.y g.player.x) = 0 := by
    unfold can_build_here; split_ifs <;> simp
  unfold try_build
  simp only
  by_cases hc : can_build_here (g.map_data g.player.y g.player.x) = 0
  · rw [if_pos hc]
    right
    refine ⟨?_, rfl⟩
    intro h; rw [hc] at h; exact absurd h.2.2 (by decide)
  rw [if_neg hc]
  by_cases hp : g.player.wood < current_build_w g ∨ g.player.stone < current_build_s g
  · rw [if_pos hp]
    right
    refine ⟨?_, rfl⟩
    intro h; omega
  · rw [if_neg hp]
    left
    refine ⟨by omega, by omega, ?_, rfl⟩
    rcases hcb with h | h
    · exact h
    · exact absurd h hc

/-! ### The NPC in the lake -/

theorem guardian_of_mild (g g1 : Game) (h : mild g g1) (hi : guardian_walled g) :
    guardian_walled g1 := by
  obtain ⟨hmap, _, _, _, hnpc, _⟩ := h
  obtain ⟨_, _, _, hx, hy⟩ := hnpc 2
  unfold guardian_walled at hi ⊢
  rw [hmap, hx, hy]
  exact hi

/-- A Water cell stays Water under `try_build`, which writes only a buildable tile. -/
theorem water_stays_try_build (g : Game) (y x : Int) (h : g.map_data y x = TILE_WATER) :
    (try_build g).map_data y x = TILE_WATER := by
  rcases try_build_cases g with ⟨_, _, hc, e⟩ | ⟨_, e⟩
  · rw [e]
    show set_cell g.map_data g.player.y g.player.x (current_build_tile g) y x = TILE_WATER
    unfold set_cell
    by_cases he : y = g.player.y ∧ x = g.player.x
    · exfalso
      have hne : can_build_here (g.map_data g.player.y g.player.x) ≠ 0 := by
        rw [hc]; decide
      apply (can_build_here_tile _ hne).2
      rw [← he.1, ← he.2]
      exact h
    · rw [if_neg he]; exact h
  · rw [e]; exact h

theorem try_build_npcs (g : Game) : (try_build g).npcs = g.npcs := by
  rcases try_build_cases g with ⟨_, _, _, e⟩ | ⟨_, e⟩ <;> rw [e]

theorem guardian_try_build (g : Game) (hi : guardian_walled g) :
    guardian_walled (try_build g) := by
  obtain ⟨h1, h2, h3, h4, h5, h6⟩ := hi
  refine ⟨water_stays_try_build g _ _ h1, water_stays_try_build g _ _ h2,
    water_stays_try_build g _ _ h3, water_stays_try_build g _ _ h4, ?_, ?_⟩
  · rw [try_build_npcs]; exact h5
  · rw [try_build_npcs]; exact h6

theorem guardian_move_block (held : Keys) (cd : Int) (g : Game) (hi : guardian_walled g) :
    guardian_walled (move_block held cd g).2 := by
  have h : (move_block held cd g).2 = g ∨
      (move_block held cd g).2 = try_move (held_dx held) (held_dy held) g := by
    unfold move_block
    simp only
    by_cases h0 : (if cd > 0 then cd - 1 else cd) = 0
    · rw [if_pos h0]; right; rfl
    · rw [if_neg h0]; left; rfl
  rcases h with e | e
  · rw [e]; exact hi
  · rw [e]
    rcases try_move_cases (held_dx held) (held_dy held) g with e1 | ⟨e1, _⟩
    · rw [e1]; exact hi
    · rw [e1]; exact hi

/-- A property kept by the mild operations and by `try_build` is kept by the key tests of a
frame. -/
theorem key_actions_keeps (I : Game → Prop)
    (hmild : ∀ g g1, mild g g1 → I g → I g1) (hbuild : ∀ g, I g → I (try_build g))
    (kd held : Keys) (g : Game) (hi : I g) : I (key_actions kd held g) := by
  have h1 : I (if kd.select = true then try_craft_quick g else g) := by
    split_ifs
    · exact hmild _ _ (mild_try_craft_quick g) hi
    · exact hi
  have hsel : ∀ (g1 : Game) (v : Int), I g1 → I { g1 with sel_build_idx := v } :=
    fun g1 v h => hmild g1 { g1 with sel_build_idx := v }
      (mild_of_fields _ _ rfl rfl rfl rfl rfl (fun hr => hr)) h
  unfold key_actions
  simp only
  generalize (if kd.select = true then try_craft_quick g else g) = g1 at h1
  have h2 : I (if kd.l = true then
      { g1 with sel_build_idx := Int.tmod (g1.sel_build_idx - 1 + 4) 4 } else g1) := by
    split_ifs
    · exact hsel _ _ h1
    · exact h1
  generalize (if kd.l = true then
      { g1 with sel_build_idx := Int.tmod (g1.sel_build_idx - 1 + 4) 4 } else g1) = g2 at h2
  have h3 : I (if kd.r = true then
      { g2 with sel_build_idx := Int.tmod (g2.sel_build_idx + 1) 4 } else g2) := by
    split_ifs
    · exact hsel _ _ h2
    · exact h2
  generalize (if kd.r = true then
      { g2 with sel_build_idx := Int.tmod (g2.sel_build_idx + 1) 4 } else g2) = g3 at h3
  have h4 : I (if (held.r && kd.a) = true then try_throw_orb g3 else g3) := by
    split_ifs
    · exact hmild _ _ (mild_try_throw_orb g3) h3
    · exact h3
  generalize (if (held.r && kd.a) = true then try_throw_orb g3 else g3) = g4 at h4
  split_ifs
  · exact hbuild g4 h4
  · exact h4

theorem guardian_build_map (g0 : Game) : guardian_walled (build_map g0) := by
  refine ⟨?_, ?_, ?_, ?_, rfl, rfl⟩ <;>
  · rw [build_map_apply, if_neg (by decide), if_neg (by decide), if_neg (by decide),
      if_neg (by decide), if_pos (by decide)]

/-- In every reachable state the four cells next to (60,12) hold Water and the third NPC
stands at (60,12). -/
theorem reachable_guardian (g : Game) (h : Reachable g) : guardian_walled g := by
  induction h with
  | start g0 => exact guardian_build_map g0
  | move held cd g _ ih => exact guardian_move_block held cd g ih
  | keys kd held g _ ih =>
    exact key_actions_keeps guardian_walled guardian_of_mild guardian_try_build kd held g ih
  | build g _ ih => exact guardian_try_build g ih
  | craft g _ ih => exact guardian_of_mild _ _ (mild_try_craft_quick g) ih
  | gather keys g _ ih => exact guardian_of_mild _ _ (mild_try_gather g keys) ih
  | throw_orb g _ ih => exact guardian_of_mild _ _ (mild_try_throw_orb g) ih
  | battle sel kd keys g _ ih => exact guardian_of_mild _ _ (mild_battle_body sel kd g keys) ih
  | battle_end g _ ih =>
    exact guardian_of_mild _ _ (mild_of_fields _ _ rfl rfl rfl rfl rfl (fun hr => hr)) ih
  | tail g _ ih => exact guardian_of_mild _ _ (mild_world_tail g) ih

/-- The cells at Manhattan distance 1 from (60,12) are the four cells of `guardian_walled`. -/
theorem next_to_guardian (y x : Int) (h : |x - 60| + |y - 12| = 1) :
    (y = 12 ∧ x = 59) ∨ (y = 12 ∧ x = 61) ∨ (y = 11 ∧ x = 60) ∨ (y = 13 ∧ x = 60) := by
  rcases abs_cases (x - 60) with ⟨h1, _⟩ | ⟨h1, _⟩ <;>
  rcases abs_cases (y - 12) with ⟨h2, _⟩ | ⟨h2, _⟩ <;>
  rw [h1, h2] at h <;> omega

theorem guardian_cells (g : Game) (hi : guardian_walled g) (y x : Int)
    (h : |x - 60| + |y - 12| = 1) : g.map_data y x = TILE_WATER := by
  obtain ⟨h1, h2, h3, h4, _, _⟩ := hi
  rcases next_to_guardian y x h with ⟨ey, ex⟩ | ⟨ey, ex⟩ | ⟨ey, ex⟩ | ⟨ey, ex⟩ <;>
  rw [ey, ex] <;> assumption

theorem adjacent_eq (x1 y1 x2 y2 : Int) :
    adjacent x1 y1 x2 y2 = if |x1 - x2| + |y1 - y2| = 1 then 1 else 0 := by
  have habs : ∀ d : Int, (if d < 0 then -d else d) = |d| := by
    intro d
    split_ifs with h
    · rw [abs_of_neg h]
    · rw [abs_of_nonneg (by omega)]
  unfold adjacent
  simp only [habs]

theorem not_adjacent_guardian (g : Game) (hi : guardian_walled g) (hp : position_ok g) :
    adjacent g.player.x g.player.y 60 12 = 0 := by
  rw [adjacent_eq]
  by_cases h : |g.player.x - 60| + |g.player.y - 12| = 1
  · exfalso
    exact hp.2.2.2.2.2 (guardian_cells g hi _ _ h)
  · rw [if_neg h]

/-! ### The wild creature during a battle -/

theorem attacks_wild (s : Int) (g : Game) (h : hp_ok g.wild) :
    hp_ok (attacks s g).wild ∧ (attacks s g).wild.max_hp = g.wild.max_hp := by
  unfold attacks
  by_cases h0 : s = 0
  · have h1 : ¬ s = 1 := by omega
    simp only [h0, if_true]
    rw [if_neg (by omega)]
    exact ⟨quick_attack_hp_ok g h, rfl⟩
  · simp only [h0, if_false]
    by_cases h1 : s = 1
    · rw [if_pos h1]
      exact ⟨special_move_hp_ok g h, rfl⟩
    · rw [if_neg h1]
      exact ⟨h, rfl⟩

/-- The wild creature a pass of the battle loop leaves is the one the attack blocks leave. -/
theorem battle_body_game_wild (sel : Int) (kd : Keys) (g : Game) (keys : List Keys) :
    (battle_body sel kd g keys).game.wild =
      (if kd.a = true then attacks (move_sel sel kd) g else g).wild := by
  unfold battle_body
  simp only
  rw [flow_game_after_b]
  by_cases ha : kd.a = true
  · rw [if_pos ha, if_pos ha, action_A_game]
    by_cases h2 : move_sel sel kd = 2
    · rw [if_pos h2, capture_attempt_wild]
    · rw [if_neg h2]
  · rw [if_neg ha, if_neg ha]
    rfl

theorem battle_body_next_wild (sel : Int) (kd : Keys) (g : Game) (keys : List Keys)
    (sel1 : Int) (g1 : Game) (hw : battle_wild g.wild)
    (h : battle_body sel kd g keys = Flow.next sel1 g1) : battle_wild g1.wild := by
  have halive := battle_body_keeps_alive sel kd g keys sel1 g1 h (by unfold battle_wild at hw; omega)
  have hgw := battle_body_game_wild sel kd g keys
  rw [h] at hgw
  simp only [Flow.game] at hgw
  have hok : hp_ok g.wild := by unfold battle_wild at hw; unfold hp_ok; omega
  unfold battle_wild at hw ⊢
  by_cases ha : kd.a = true
  · rw [if_pos ha] at hgw
    obtain ⟨h1, h2⟩ := attacks_wild (move_sel sel kd) g hok
    rw [← hgw] at h1 h2
    unfold hp_ok at h1
    omega
  · rw [if_neg ha] at hgw
    rw [hgw]
    omega

theorem after_action_ret (s : Int) (g : Game) (keys : List Keys) (c : Int) (g1 : Game)
    (ks : List Keys) (h : after_action s g keys = Flow.ret c g1 ks) :
    c = 0 ∨ (c = 2 ∧ g1.wild.hp = 0) := by
  unfold after_action at h
  by_cases h3 : s = 3
  · rw [if_pos h3] at h; cases h; exact Or.inl rfl
  rw [if_neg h3] at h
  by_cases h4 : g.wild.hp = 0
  · rw [if_pos h4] at h
    cases hw : wait_A keys with
    | none => rw [hw] at h; cases h
    | some k => rw [hw] at h; cases h; exact Or.inr ⟨rfl, h4⟩
  · rw [if_neg h4] at h; cases h

theorem capture_attempt_ret (s : Int) (g : Game) (keys : List Keys) (c : Int) (g1 : Game)
    (ks : List Keys) (h : capture_attempt s g keys = Flow.ret c g1 ks) :
    c = 3 ∧ g1.wild = g.wild := by
  have hw := capture_attempt_wild s g keys
  rw [h] at hw
  refine ⟨?_, hw⟩
  unfold capture_attempt at h
  by_cases ho : g.player.orbs ≤ 0
  · rw [if_pos ho] at h; cases h
  rw [if_neg ho] at h
  simp only at h
  by_cases hr : (rand_range 0 99 g).1 ≤ capture_chance g.wild
  · rw [if_pos hr] at h
    cases hk : wait_A keys with
    | none => rw [hk] at h; cases h
    | some k => rw [hk] at h; cases h; rfl
  · rw [if_neg hr] at h; cases h

theorem action_A_ret (s : Int) (g : Game) (keys : List Keys) (c : Int) (g1 : Game)
    (ks : List Keys) (h : action_A s g keys = Flow.ret c g1 ks) :
    c = 0 ∨ (c = 2 ∧ g1.wild.hp = 0) ∨ (c = 3 ∧ g1.wild = g.wild) := by
  unfold action_A at h
  simp only at h
  by_cases h2 : s = 2
  · rw [if_pos h2] at h
    cases hc : capture_attempt s (attacks s g) keys with
    | next s2 g2 =>
      rw [hc] at h
      simp only at h
      rcases after_action_ret _ _ _ _ _ _ h with e | e
      · exact Or.inl e
      · exact Or.inr (Or.inl e)
    | ret c2 g2 k2 =>
      rw [hc] at h
      cases h
      obtain ⟨e1, e2⟩ := capture_attempt_ret _ _ _ _ _ _ hc
      rw [h2, attacks_capture] at e2
      exact Or.inr (Or.inr ⟨e1, e2⟩)
    | pending g2 => rw [hc] at h; cases h
  · rw [if_neg h2] at h
    rcases after_action_ret _ _ _ _ _ _ h with e | e
    · exact Or.inl e
    · exact Or.inr (Or.inl e)

/-- A pass of the battle loop that returns does so with 0 (flight), with 2 and the wild
creature at 0 hit points, or with 3 and the wild creature as the pass found it. -/
theorem battle_body_ret (sel : Int) (kd : Keys) (g : Game) (keys : List Keys) (c : Int)
    (g1 : Game) (ks : List Keys) (h : battle_body sel kd g keys = Flow.ret c g1 ks) :
    c = 0 ∨ (c = 2 ∧ g1.wild.hp = 0) ∨ (c = 3 ∧ g1.wild = g.wild) := by
  unfold battle_body at h
  simp only at h
  by_cases ha : kd.a = true
  · rw [if_pos ha] at h
    cases hc : action_A (move_sel sel kd) g keys with
    | next s2 g2 =>
      rw [hc] at h
      simp only at h
      by_cases hb : kd.b = true
      · rw [if_pos hb] at h; cases h; exact Or.inl rfl
      · rw [if_neg hb] at h; cases h
    | ret c2 g2 k2 =>
      rw [hc] at h
      cases h
      exact action_A_ret _ _ _ _ _ _ hc
    | pending g2 => rw [hc] at h; cases h
  · rw [if_neg ha] at h
    simp only at h
    by_cases hb : kd.b = true
    · rw [if_pos hb] at h; cases h; exact Or.inl rfl
    · rw [if_neg hb] at h; cases h

/-- A battle entered with a live wild creature ends with 0, 2 or 3; with 3 (capture) only
while the creature is alive, and with 2 (victory) only at 0 hit points. -/
theorem battle_loop_outcome : ∀ (keys : List Keys) (sel : Int) (g : Game),
    battle_wild g.wild → ∀ (c : Int) (g1 : Game) (ks : List Keys),
      battle_loop keys sel g = Run.done c g1 ks →
        (c = 0 ∨ c = 2 ∨ c = 3) ∧ (c = 3 → battle_wild g1.wild) ∧ (c = 2 → g1.wild.hp = 0) := by
  intro keys
  induction keys with
  | nil => intro sel g _ c g1 ks h; unfold battle_loop at h; cases h
  | cons kd rest ih =>
    intro sel g hw c g1 ks h
    unfold battle_loop at h
    cases hc : battle_body sel kd g rest with
    | next s1 g2 =>
      rw [hc] at h
      exact ih s1 g2 (battle_body_next_wild _ _ _ _ _ _ hw hc) c g1 ks h
    | ret c2 g2 k2 =>
      rw [hc] at h
      cases h
      rcases battle_body_ret _ _ _ _ _ _ _ hc with e | ⟨e, e0⟩ | ⟨e, ew⟩
      · exact ⟨Or.inl e, fun h3 => by omega, fun h2 => by omega⟩
      · exact ⟨Or.inr (Or.inl e), fun h3 => by omega, fun _ => e0⟩
      · exact ⟨Or.inr (Or.inr e), fun _ => by rw [ew]; exact hw, fun h2 => by omega⟩
    | pending g2 => rw [hc] at h; cases h

theorem random_wild_battle_wild (g : Game) : battle_wild (random_wild g).1 := by
  obtain ⟨h22, h34, hfull, _⟩ := random_wild_max_hp g
  unfold battle_wild
  omega

/-! ### The claims -/

/-- C1: `type_multiplier a b` is 2 exactly on the four ordered pairs (Fire,Grass), (Water,Fire),
(Grass,Water), (Electric,Water) and 1 on each of the other 21 of the 25 ordered pairs; it is 1
whenever the attacker is Neutral and whenever both types are equal. -/
theorem type_multiplier_table :
    (∀ a b, type_multiplier a b = 2 ↔ (a, b) ∈ strong_pairs) ∧
    (∀ a b, type_multiplier a b = 1 ↔ (a, b) ∉ strong_pairs) ∧
    (∀ a, a ∈ all_types) ∧
    ((all_types.product all_types).filter (fun p => type_multiplier p.1 p.2 = 2)).length = 4 ∧
    ((all_types.product all_types).filter (fun p => type_multiplier p.1 p.2 = 1)).length = 21 ∧
    (∀ b, type_multiplier TYPE_NEUTRAL b = 1) ∧
    (∀ a, type_multiplier a a = 1) := by
  refine ⟨?_, ?_, ?_, ?_, ?_, ?_, ?_⟩
  · intro a b; cases a <;> cases b <;> decide
  · intro a b; cases a <;> cases b <;> decide
  · intro a; cases a <;> decide
  · decide
  · decide
  · intro b; cases b <;> decide
  · intro a; cases a <;> decide

/-- C2: `try_build` succeeds (it ends with `msg_timer = 60`) iff wood and stone cover the costs
of the selected entry and the tile under the player is buildable, which holds exactly for
Empty, Base, Grass and Sand. On success the costs are deducted, the tile under the player
becomes the entry's tile and every other cell, the position, steps and orbs are unchanged;
on failure the player and the whole map are unchanged. -/
theorem try_build_spec (g : Game) :
    (∀ t, can_build_here t = 1 ↔
      (t = TILE_EMPTY ∨ t = TILE_BASE ∨ t = TILE_GRASS ∨ t = TILE_SAND)) ∧
    (∀ t, can_build_here t = 1 ∨ can_build_here t = 0) ∧
    ((try_build g).msg_timer = 60 ↔
      (g.player.wood ≥ current_build_w g ∧ g.player.stone ≥ current_build_s g ∧
        can_build_here (g.map_data g.player.y g.player.x) = 1)) ∧
    ((try_build g).msg_timer = 60 →
      (try_build g).player.wood = g.player.wood - current_build_w g ∧
      (try_build g).player.stone = g.player.stone - current_build_s g ∧
      (try_build g).map_data g.player.y g.player.x = current_build_tile g ∧
      (∀ y x, ¬ (y = g.player.y ∧ x = g.player.x) →
        (try_build g).map_data y x = g.map_data y x) ∧
      (try_build g).player.x = g.player.x ∧ (try_build g).player.y = g.player.y ∧
      (try_build g).player.steps = g.player.steps ∧
      (try_build g).player.orbs = g.player.orbs) ∧
    ((try_build g).msg_timer ≠ 60 → try_build g = { g with msg_timer := 40 }) := by
  have hcb : ∀ t, can_build_here t = 1 ∨ can_build_here t = 0 := by
    intro t; unfold can_build_here; split_ifs <;> simp
  refine ⟨?_, hcb, ?_⟩
  · intro t; unfold can_build_here; split_ifs with h1 h2
    · rcases h1 with h | h <;> simp [h]
    · rcases h2 with h | h <;> simp [h]
    · push_neg at h1 h2; simp [h1.1, h1.2, h2.1, h2.2]
  by_cases hc : can_build_here (g.map_data g.player.y g.player.x) = 0
  · have e : try_build g = { g with msg_timer := 40 } := by simp [try_build, hc]
    rw [e]; simp [hc]
  by_cases hp : g.player.wood < current_build_w g ∨ g.player.stone < current_build_s g
  · have e : try_build g = { g with msg_timer := 40 } := by simp [try_build, hc, hp]
    rw [e]; simp; intro h1 h2; omega
  · have e : try_build g =
        { g with
          player := { g.player with
            wood := g.player.wood - current_build_w g
            stone := g.player.stone - current_build_s g }
          map_data := set_cell g.map_data g.player.y g.player.x (current_build_tile g)
          msg_timer := 60 } := by simp [try_build, hc, hp]
    have h1 : can_build_here (g.map_data g.player.y g.player.x) = 1 := by
      rcases hcb (g.map_data g.player.y g.player.x) with h | h
      · exact h
      · exact absurd h hc
    rw [e]
    refine ⟨?_, ?_, ?_⟩
    · simp only [true_iff]; refine ⟨?_, ?_, h1⟩ <;> omega
    · intro _
      refine ⟨rfl, rfl, ?_, ?_, rfl, rfl, rfl, rfl⟩
      · simp [set_cell]
      · intro y x hyx; simp [set_cell, hyx]
    · intro h; exact absurd rfl h

/-- C2, the scenario: with wood 4 and stone 2 a build costing 10 and 6 on a grass tile is
rejected, and nothing but the message timer changes. -/
theorem try_build_poor_scenario :
    poor_builder.player.wood = 4 ∧ poor_builder.player.stone = 2 ∧
    current_build_w poor_builder = 10 ∧ current_build_s poor_builder = 6 ∧
    poor_builder.map_data poor_builder.player.y poor_builder.player.x = TILE_GRASS ∧
    try_build poor_builder = { poor_builder with msg_timer := 40 } :=
  ⟨by decide, by decide, by decide, by decide, by decide,
   (try_build_spec poor_builder).2.2.2.2 (by decide)⟩

/-- C4 fails as stated: in the battle against the Flarepup of 24 hit points that `random_wild`
makes, six quick attacks bring the creature to `hp = 0`, and with the wild creature at
`hp = 0` `do_battle` returns 2 (victory) once A is pressed: no orb is spent and nothing is
captured. On that creature the chance expression has the value `2400 / 25 + 10 = 106`,
not 110. -/
theorem zero_hp_is_victory_not_capture :
    (random_wild (initial_globals (fun _ => 0))).1 = fresh_battle.wild ∧
    fresh_battle.wild.hp = 24 ∧ fresh_battle.player.orbs = 1 ∧
    (do_battle fresh_battle (List.replicate 6 press_A)).returned = false ∧
    (do_battle fresh_battle (List.replicate 6 press_A)).game.wild.hp = 0 ∧
    (do_battle fresh_battle (List.replicate 7 press_A)).value = some 2 ∧
    (do_battle fresh_battle (List.replicate 7 press_A)).game.wild = flarepup_at 0 ∧
    (do_battle fresh_battle (List.replicate 7 press_A)).game.player.orbs = 1 ∧
    (do_battle fresh_battle (List.replicate 7 press_A)).game.companion_count = 0 ∧
    capture_chance (do_battle fresh_battle (List.replicate 7 press_A)).game.wild = 106 ∧
    capture_chance (do_battle fresh_battle (List.replicate 7 press_A)).game.wild ≠ 110 := by
  decide

/-- C4 as amended: the capture block sees the wild creature only alive. Every battle starts
from a creature of `random_wild` (`1 <= hp <= max_hp`, `22 <= max_hp <= 34`), every pass of
the loop that goes on keeps that, and `do_battle` returns 3 (capture) only with `hp >= 1` and
2 (victory) only with `hp = 0`. On such a creature the chance is
`(max_hp - hp) * 100 / (max_hp + 1) + 10`, between 10 and 104 and so never 110; at `hp = 1` it
is at least 101; and whenever it is at least 99, every roll in `[0,99]` is at most the chance
and with an orb in hand the capture block captures whatever `rand()` returns. Evaluated on a
creature with `hp = 0` and `max_hp <= 21474836` the expression is
`max_hp * 100 / (max_hp + 1) + 10`, at most 109. -/
theorem capture_chance_below_110 (g : Game) (sel : Int) (keys ks : List Keys)
    (hw : battle_wild g.wild) (horbs : 0 < g.player.orbs) (hA : wait_A keys = some ks) :
    capture_chance g.wild = (g.wild.max_hp - g.wild.hp) * 100 / (g.wild.max_hp + 1) + 10 ∧
    10 ≤ capture_chance g.wild ∧ capture_chance g.wild ≤ 104 ∧
    (g.wild.hp = 1 → 101 ≤ capture_chance g.wild) ∧
    (99 ≤ capture_chance g.wild →
      (∀ roll : Int, 0 ≤ roll → roll ≤ 99 → roll ≤ capture_chance g.wild) ∧
      (0 ≤ (rand_range 0 99 g).1 ∧ (rand_range 0 99 g).1 ≤ 99) ∧
      capture_attempt sel g keys = Flow.ret 3 (add_companion (spend_orb g)) ks) ∧
    (∀ g0 : Game, battle_wild (random_wild g0).1) ∧
    (∀ (s : Int) (kd : Keys) (g0 : Game) (ks0 : List Keys) (s1 : Int) (g1 : Game),
      battle_wild g0.wild → battle_body s kd g0 ks0 = Flow.next s1 g1 →
        battle_wild g1.wild) ∧
    (∀ (ks0 : List Keys) (g0 : Game) (c : Int) (g1 : Game) (ks1 : List Keys),
      battle_wild g0.wild → do_battle g0 ks0 = Run.done c g1 ks1 →
        (c = 3 → 1 ≤ g1.wild.hp) ∧ (c = 2 → g1.wild.hp = 0)) ∧
    (∀ w : Creature, w.hp = 0 → 0 ≤ w.max_hp → w.max_hp ≤ 21474836 →
      capture_chance w = w.max_hp * 100 / (w.max_hp + 1) + 10 ∧ capture_chance w ≤ 109) := by
  obtain ⟨h1, h2, h22, h34⟩ := hw
  have hpos : 0 < g.wild.max_hp + 1 := by omega
  have hc := (capture_chance_fits_int g.wild (by omega) h2 (by omega) (by omega)).2.2.2.2
  have hq0 : 0 ≤ (g.wild.max_hp - g.wild.hp) * 100 / (g.wild.max_hp + 1) :=
    Int.ediv_nonneg (by omega) (by omega)
  have hq1 : (g.wild.max_hp - g.wild.hp) * 100 / (g.wild.max_hp + 1) < 95 :=
    Int.ediv_lt_of_lt_mul hpos (by omega)
  have hroll := rand_range_of_bounds 0 99 (by norm_num) (rand g).1
  refine ⟨hc, by omega, by omega, ?_, ?_, random_wild_battle_wild, ?_, ?_, ?_⟩
  · intro he
    have : 91 ≤ (g.wild.max_hp - g.wild.hp) * 100 / (g.wild.max_hp + 1) :=
      Int.le_ediv_of_mul_le hpos (by omega)
    omega
  · intro h99
    refine ⟨fun roll _ h => by omega, hroll, ?_⟩
    have hr : (rand_range 0 99 g).1 ≤ capture_chance g.wild := by
      have := hroll.2; simp only [rand_range]; omega
    simp [capture_attempt, not_le.mpr horbs, hr, hA]
  · intro s kd g0 ks0 s1 g1 hw0 hb
    exact battle_body_next_wild s kd g0 ks0 s1 g1 hw0 hb
  · intro ks0 g0 c g1 ks1 hw0 hd
    obtain ⟨_, h3, h2⟩ := battle_loop_outcome ks0 0 g0 hw0 c g1 ks1 hd
    exact ⟨fun e => (h3 e).1, h2⟩
  · intro w hz hm0 hm1
    have hcw := (capture_chance_fits_int w (by omega) (by omega) (by omega) (by omega)).2.2.2.2
    have hz2 : (w.max_hp - w.hp) * 100 = w.max_hp * 100 := by rw [hz]; ring
    rw [hz2] at hcw
    have : w.max_hp * 100 / (w.max_hp + 1) < 100 :=
      Int.ediv_lt_of_lt_mul (by omega) (by omega)
    exact ⟨hcw, by omega⟩

/-- C4 as amended, in the battle against the Flarepup of 25 hit points that `random_wild`
makes when `rand()` returns 0 and then 1: four special moves leave it at 1 hit point, where
the chance is `2400 / 26 + 10 = 102`, and the throw of the one orb captures it. -/
theorem capture_chance_below_110_witness :
    (random_wild (initial_globals rand_0_1)).1 = flarepup25_battle.wild ∧
    (do_battle flarepup25_battle four_specials).game.wild = flarepup25_worn.wild ∧
    (do_battle flarepup25_battle four_specials).game.player = flarepup25_worn.player ∧
    capture_chance flarepup25_worn.wild = 102 ∧
    capture_attempt 2 flarepup25_worn [press_A] =
      Flow.ret 3 (add_companion (spend_orb flarepup25_worn)) [] ∧
    (do_battle flarepup25_battle (four_specials ++ [press_down, press_A, press_A])).value =
      some 3 ∧
    (do_battle flarepup25_battle
      (four_specials ++ [press_down, press_A, press_A])).game.companion_count = 1 :=
  have h := capture_chance_below_110 flarepup25_worn 2 [press_A] []
    ⟨by decide, by decide, by decide, by decide⟩ (by decide) (by decide)
  ⟨by decide, by decide, by decide, by decide, (h.2.2.2.2.1 (by decide)).2.2, by decide,
   by decide⟩

/-- C5: saving a player, a roster with `n` companions (any `n`, so every `n >= 0`) and a mission
table, then loading the stored record, returns 1 and gives back the player, the count
`min n MAX_COMPANIONS`, the first `min n MAX_COMPANIONS` companions field for field, and the
completion flags of the missions; the other entries of the roster and the texts of the
missions stay as they were in the objects loaded into. -/
theorem save_load_round_trip (P : Player) (C : Int → Creature) (n : Int) (M : Int → Mission)
    (a : Loaded) :
    (save_game P C n M).1 = 1 ∧
    (load_game (save_game P C n M).2 a).1 = 1 ∧
    (load_game (save_game P C n M).2 a).2.pl = P ∧
    (load_game (save_game P C n M).2 a).2.comp_count = min n MAX_COMPANIONS ∧
    (∀ i, 0 ≤ i → i < min n MAX_COMPANIONS →
      (load_game (save_game P C n M).2 a).2.comps i = C i) ∧
    (∀ i, ¬ (0 ≤ i ∧ i < min n MAX_COMPANIONS) →
      (load_game (save_game P C n M).2 a).2.comps i = a.comps i) ∧
    (∀ i, 0 ≤ i → i < MAX_MISSIONS →
      ((load_game (save_game P C n M).2 a).2.ms i).completed = (M i).completed) ∧
    (∀ i, ((load_game (save_game P C n M).2 a).2.ms i).title = (a.ms i).title ∧
      ((load_game (save_game P C n M).2 a).2.ms i).desc = (a.ms i).desc) := by
  have hsig : strncmp (save_game P C n M).2.sig SAVE_SIGNATURE 5 = 0 :=
    (strncmp_signature _).mpr (saved_signature P C n M)
  have hcond : (fun i : Int => decide (i < n) && decide (i < MAX_COMPANIONS)) =
      fun i => decide (i < min n MAX_COMPANIONS) := by
    funext i; simp [lt_min_iff]
  have hcomps : (save_game P C n M).2.comps =
      fun j => if 0 ≤ j ∧ j < min n MAX_COMPANIONS then C j else zero_creature := by
    simp only [save_game, hcond]
    rw [for_loop_pointwise (min n MAX_COMPANIONS) (fun i _ => C i) _ 0 _
      (by simp [MAX_COMPANIONS])]
    rfl
  have hmiss : (save_game P C n M).2.missions =
      fun j => if 0 ≤ j ∧ j < MAX_MISSIONS then (M j).completed else 0 := by
    simp only [save_game]
    rw [for_lt_pointwise 0 MAX_MISSIONS (fun i _ => (M i).completed)]
    rfl
  have hcount : (save_game P C n M).2.comp_count = n := rfl
  have hload : load_game (save_game P C n M).2 a =
      (1, { pl := P
            comps := fun j => if 0 ≤ j ∧ j < min n MAX_COMPANIONS then C j else a.comps j
            comp_count := min n MAX_COMPANIONS
            ms := fun j => if 0 ≤ j ∧ j < MAX_MISSIONS then
              { a.ms j with completed := (M j).completed } else a.ms j }) := by
    have hmin : (if n > MAX_COMPANIONS then MAX_COMPANIONS else n) = min n MAX_COMPANIONS := by
      rw [min_def]; split_ifs <;> omega
    have e1 := for_lt_pointwise 0 (min n MAX_COMPANIONS)
      (fun i (_ : Creature) => (save_game P C n M).2.comps i) a.comps
    have e2 := for_lt_pointwise 0 MAX_MISSIONS
      (fun i (x : Mission) => ({ x with completed := (save_game P C n M).2.missions i } : Mission))
      a.ms
    unfold load_game
    simp only [hsig, ne_eq, not_true_eq_false, if_false, hcount, hmin]
    rw [e1, e2, hcomps, hmiss]
    refine Prod.ext rfl ?_
    simp only
    congr 1
    · funext j; by_cases h : 0 ≤ j ∧ j < min n MAX_COMPANIONS
      · rw [if_pos h, if_pos h, if_pos h]
      · rw [if_neg h, if_neg h]
    · funext j; by_cases h : 0 ≤ j ∧ j < MAX_MISSIONS
      · rw [if_pos h, if_pos h, if_pos h]
      · rw [if_neg h, if_neg h]
  rw [hload]
  refine ⟨rfl, rfl, rfl, rfl, ?_, ?_, ?_, ?_⟩
  · intro i h0 h1; exact if_pos ⟨h0, h1⟩
  · intro i h; exact if_neg h
  · intro i h0 h1
    show (if 0 ≤ i ∧ i < MAX_MISSIONS then
      ({ a.ms i with completed := (M i).completed } : Mission) else a.ms i).completed = _
    rw [if_pos ⟨h0, h1⟩]
  · intro i
    show (if 0 ≤ i ∧ i < MAX_MISSIONS then
      ({ a.ms i with completed := (M i).completed } : Mission) else a.ms i).title = _ ∧
      (if 0 ≤ i ∧ i < MAX_MISSIONS then
      ({ a.ms i with completed := (M i).completed } : Mission) else a.ms i).desc = _
    by_cases h : 0 ≤ i ∧ i < MAX_MISSIONS
    · rw [if_pos h]; exact ⟨rfl, rfl⟩
    · rw [if_neg h]; exact ⟨rfl, rfl⟩

/-- C5 on a roster of five companions: the load keeps three of them. -/
theorem save_load_round_trip_witness :
    (load_game (save_game (cornered 2).player five_creatures 5 one_mission_done).2
        blank_loaded).1 = 1 ∧
    (load_game (save_game (cornered 2).player five_creatures 5 one_mission_done).2
        blank_loaded).2.pl = (cornered 2).player ∧
    (load_game (save_game (cornered 2).player five_creatures 5 one_mission_done).2
        blank_loaded).2.comp_count = 3 ∧
    (load_game (save_game (cornered 2).player five_creatures 5 one_mission_done).2
        blank_loaded).2.comps 2 = five_creatures 2 ∧
    ((load_game (save_game (cornered 2).player five_creatures 5 one_mission_done).2
        blank_loaded).2.ms 1).completed = 1 :=
  have h := save_load_round_trip (cornered 2).player five_creatures 5 one_mission_done
    blank_loaded
  ⟨h.2.1, h.2.2.1, h.2.2.2.1, h.2.2.2.2.1 2 (by decide) (by decide),
   h.2.2.2.2.2.2.1 1 (by decide) (by decide)⟩

/-- C6: `load_game` returns 1 iff the first five bytes of the stored record are "FFGE1", and 0
otherwise. On any other record, the all-zero one included, it returns 0 and leaves the player,
the roster, the companion count and the missions as they were; on a record that passes the test
the companion count after the load is at most `MAX_COMPANIONS`. -/
theorem load_game_signature_check (sram : SaveData) (a : Loaded) :
    ((load_game sram a).1 = 1 ↔ has_signature sram.sig) ∧
    ((load_game sram a).1 = 0 ↔ ¬ has_signature sram.sig) ∧
    (¬ has_signature sram.sig → load_game sram a = (0, a)) ∧
    (¬ has_signature zero_save.sig ∧ load_game zero_save a = (0, a)) ∧
    (has_signature sram.sig → (load_game sram a).2.comp_count ≤ MAX_COMPANIONS) := by
  have hz : ¬ has_signature zero_save.sig := by decide
  have key : ∀ (s : SaveData), ¬ has_signature s.sig → load_game s a = (0, a) := by
    intro s h
    have : strncmp s.sig SAVE_SIGNATURE 5 ≠ 0 := fun h0 => h ((strncmp_signature _).mp h0)
    simp [load_game, this]
  by_cases h : has_signature sram.sig
  · have h0 : strncmp sram.sig SAVE_SIGNATURE 5 = 0 := (strncmp_signature _).mpr h
    refine ⟨?_, ?_, fun hn => absurd h hn, ⟨hz, key _ hz⟩, ?_⟩
    · simp [load_game, h0, h]
    · simp [load_game, h0, h]
    · intro _
      simp only [load_game, h0, ne_eq, not_true_eq_false, if_false]
      split_ifs with hc
      · exact le_refl _
      · omega
  · refine ⟨?_, ?_, key _, ⟨hz, key _ hz⟩, fun hs => absurd hs h⟩
    · rw [key _ h]; simp [h]
    · rw [key _ h]; simp [h]

/-- C6 on the all-zero record and on a saved one: the first is refused and changes nothing,
the second is accepted. -/
theorem load_game_signature_check_witness :
    load_game zero_save blank_loaded = (0, blank_loaded) ∧
    (load_game (save_game (cornered 2).player five_creatures 5 one_mission_done).2
      blank_loaded).2.comp_count ≤ MAX_COMPANIONS :=
  ⟨(load_game_signature_check zero_save blank_loaded).2.2.1 (by decide),
   (load_game_signature_check
      (save_game (cornered 2).player five_creatures 5 one_mission_done).2 blank_loaded).2.2.2.2
      (by decide)⟩

/-- C7 fails on the code: in a new game the NPC "Saggio" at (6,6) carries a gift of 3 wood and
2 stone, but `build_map` creates it with `gave_gift = 1`, so the first dialogue, held from the
adjacent cell (6,5), returns with wood 8, stone 5 and orbs 1 as before; a second dialogue
changes nothing either. -/
theorem first_talk_grants_nothing :
    ((beside_saggio.npcs 0).x = 6 ∧ (beside_saggio.npcs 0).y = 6 ∧
      (beside_saggio.npcs 0).gift_wood = 3 ∧ (beside_saggio.npcs 0).gift_stone = 2 ∧
      (beside_saggio.npcs 0).gift_orb = 0 ∧ (beside_saggio.npcs 0).gave_gift = 1) ∧
    (beside_saggio.player.x = 6 ∧ beside_saggio.player.y = 5 ∧
      adjacent beside_saggio.player.x beside_saggio.player.y 6 6 = 1 ∧
      beside_saggio.player.wood = 8 ∧ beside_saggio.player.stone = 5 ∧
      beside_saggio.player.orbs = 1) ∧
    ((talk_to_nearby_npc beside_saggio [press_A]).returned = true ∧
      (talk_to_nearby_npc beside_saggio [press_A]).game.player.wood = 8 ∧
      (talk_to_nearby_npc beside_saggio [press_A]).game.player.stone = 5 ∧
      (talk_to_nearby_npc beside_saggio [press_A]).game.player.orbs = 1) ∧
    ((talk_to_nearby_npc (talk_to_nearby_npc beside_saggio [press_A]).game
        [press_A]).game.player.wood = 8 ∧
      (talk_to_nearby_npc (talk_to_nearby_npc beside_saggio [press_A]).game
        [press_A]).game.player.stone = 5) := by
  decide

/-- C8: `gift_from_npc` applied twice gives the same NPC and player as applied once; after a
call `gave_gift` is nonzero; a call on an NPC whose `gave_gift` is nonzero changes neither the
NPC nor the player; and a call on an NPC whose `gave_gift` is 0 adds its three gift amounts to
the player. -/
theorem gift_from_npc_idempotent (n : NPC) (p : Player) :
    gift_from_npc (gift_from_npc n p).1 (gift_from_npc n p).2 = gift_from_npc n p ∧
    (gift_from_npc n p).1.gave_gift ≠ 0 ∧
    (n.gave_gift ≠ 0 → gift_from_npc n p = (n, p)) ∧
    (n.gave_gift = 0 →
      gift_from_npc n p =
        ({ n with gave_gift := 1 },
         { p with wood := p.wood + n.gift_wood, stone := p.stone + n.gift_stone,
                  orbs := p.orbs + n.gift_orb })) := by
  by_cases h : n.gave_gift = 0
  · have e : gift_from_npc n p =
        ({ n with gave_gift := 1 },
         { p with wood := p.wood + n.gift_wood, stone := p.stone + n.gift_stone,
                  orbs := p.orbs + n.gift_orb }) := by
      simp [gift_from_npc, h]
    refine ⟨?_, ?_, fun hn => absurd h hn, fun _ => e⟩
    · rw [e]; simp [gift_from_npc]
    · rw [e]; simp
  · have e : gift_from_npc n p = (n, p) := by simp [gift_from_npc, h]
    refine ⟨?_, ?_, fun _ => e, fun h0 => absurd h0 h⟩
    · rw [e]; exact e
    · rw [e]; exact h

/-- C8 on an NPC with a gift of 3 wood and 2 stone and a player with 8 wood and 5 stone: the
first call gives 11 wood and 7 stone, the second changes nothing. -/
theorem gift_from_npc_idempotent_witness :
    (gift_from_npc generous_npc fresh_battle.player).2.wood = 11 ∧
    (gift_from_npc generous_npc fresh_battle.player).2.stone = 7 ∧
    gift_from_npc (gift_from_npc generous_npc fresh_battle.player).1
        (gift_from_npc generous_npc fresh_battle.player).2 =
      gift_from_npc generous_npc fresh_battle.player ∧
    gift_from_npc (gift_from_npc generous_npc fresh_battle.player).1
        (gift_from_npc generous_npc fresh_battle.player).2 =
      ((gift_from_npc generous_npc fresh_battle.player).1,
       (gift_from_npc generous_npc fresh_battle.player).2) :=
  ⟨by decide, by decide,
   (gift_from_npc_idempotent generous_npc fresh_battle.player).1,
   (gift_from_npc_idempotent (gift_from_npc generous_npc fresh_battle.player).1
      (gift_from_npc generous_npc fresh_battle.player).2).2.2.1 (by decide)⟩

/-- C9: in the capture block of a battle, with `orbs <= 0` nothing changes and, the wild
creature being alive and B not pressed, the loop goes on to its next pass with the same
globals; with `orbs > 0` one orb is spent whatever `rand()` returns and however the block ends;
and a failed capture changes nothing else but the generator: the wild creature, the roster and
the companion count stay, and the loop goes on to its next pass. -/
theorem capture_attempt_orbs (sel : Int) (kd : Keys) (g : Game) (keys : List Keys) :
    (g.player.orbs ≤ 0 → capture_attempt sel g keys = Flow.next sel g) ∧
    (g.player.orbs ≤ 0 → kd.a = true → kd.b = false → move_sel sel kd = 2 → 0 < g.wild.hp →
      battle_body sel kd g keys = Flow.next 2 g) ∧
    (0 < g.player.orbs →
      (capture_attempt sel g keys).game.player.orbs = g.player.orbs - 1) ∧
    (0 < g.player.orbs → kd.a = true → move_sel sel kd = 2 →
      (battle_body sel kd g keys).game.player.orbs = g.player.orbs - 1) ∧
    (0 < g.player.orbs → capture_chance g.wild < (rand_range 0 99 g).1 →
      capture_attempt sel g keys = Flow.next sel (spend_orb g) ∧
      (spend_orb g).wild = g.wild ∧ (spend_orb g).companions = g.companions ∧
      (spend_orb g).companion_count = g.companion_count ∧
      (spend_orb g).map_data = g.map_data ∧
      (spend_orb g).player = { g.player with orbs := g.player.orbs - 1 } ∧
      (kd.a = true → kd.b = false → move_sel sel kd = 2 → 0 < g.wild.hp →
        battle_body sel kd g keys = Flow.next 2 (spend_orb g))) := by
  have key : ∀ s, 0 < g.player.orbs →
      (capture_attempt s g keys).game.player.orbs = g.player.orbs - 1 := by
    intro s ho
    unfold capture_attempt
    rw [if_neg (not_le.mpr ho)]
    simp only
    split_ifs with hr
    · cases wait_A keys
      · rfl
      · show (add_companion (spend_orb g)).player.orbs = _
        rw [add_companion_player]; rfl
    · rfl
  refine ⟨?_, ?_, key sel, ?_, ?_⟩
  · intro ho; simp [capture_attempt, ho]
  · intro ho hA hB hsel hp
    have hne : ¬ g.wild.hp = 0 := by omega
    rw [battle_body_capture sel kd g keys hA hsel]
    simp [capture_attempt, ho, after_action, hne, hB]
  · intro ho hA hsel
    rw [battle_body_capture sel kd g keys hA hsel]
    have h2 := key 2 ho
    cases hc : capture_attempt 2 g keys with
    | next s3 g3 =>
      rw [hc] at h2
      simp only
      have hg := after_action_game 2 g3 keys
      cases ha : after_action 2 g3 keys with
      | next s4 g4 =>
        rw [ha] at hg
        simp only
        have e : g4 = g3 := hg
        split_ifs <;> (rw [e]; exact h2)
      | ret c g4 k4 => rw [ha] at hg; have e : g4 = g3 := hg; rw [e]; exact h2
      | pending g4 => rw [ha] at hg; have e : g4 = g3 := hg; rw [e]; exact h2
    | ret c g3 k3 => rw [hc] at h2; exact h2
    | pending g3 => rw [hc] at h2; exact h2
  · intro ho hr
    have e : capture_attempt 2 g keys = Flow.next 2 (spend_orb g) := by
      simp [capture_attempt, not_le.mpr ho, not_le.mpr hr]
    refine ⟨?_, rfl, rfl, rfl, rfl, rfl, ?_⟩
    · simp [capture_attempt, not_le.mpr ho, not_le.mpr hr]
    · intro hA hB hsel hp
      have hne : ¬ (spend_orb g).wild.hp = 0 := by
        show ¬ g.wild.hp = 0
        omega
      rw [battle_body_capture sel kd g keys hA hsel, e]
      simp [after_action, hne, hB]

/-- C9 at the start of a battle against an untouched Flarepup: without an orb the capture
changes nothing and the battle goes on; with one orb and a roll of 99 against a chance of 10
the capture fails, the orb is spent and the battle goes on. -/
theorem capture_attempt_orbs_witness :
    battle_body 2 press_A { fresh_battle with player := ⟨4, 4, 0, 0, 8, 5⟩ } [] =
      Flow.next 2 { fresh_battle with player := ⟨4, 4, 0, 0, 8, 5⟩ } ∧
    (rand_range 0 99 { fresh_battle with rand_seq := fun _ => 99 }).1 = 99 ∧
    capture_chance fresh_battle.wild = 10 ∧
    battle_body 2 press_A { fresh_battle with rand_seq := fun _ => 99 } [] =
      Flow.next 2 (spend_orb { fresh_battle with rand_seq := fun _ => 99 }) ∧
    (spend_orb { fresh_battle with rand_seq := fun _ => 99 }).player.orbs = 0 :=
  ⟨(capture_attempt_orbs 2 press_A { fresh_battle with player := ⟨4, 4, 0, 0, 8, 5⟩ } []).2.1
      (by decide) (by decide) (by decide) (by decide) (by decide),
   by decide, by decide,
   ((capture_attempt_orbs 2 press_A { fresh_battle with rand_seq := fun _ => 99 } []).2.2.2.2
      (by decide) (by decide)).2.2.2.2.2.2 (by decide) (by decide) (by decide) (by decide),
   by decide⟩

/-- C10: when A is pressed on "Cattura" with an orb in hand and `roll <= chance`, and A is
pressed again later, `do_battle` returns 3; until A is pressed again it waits, the orb spent, and returns nothing
else. With `c = companion_count` below `MAX_COMPANIONS`
the count becomes `c + 1` and `companions[c]` is the wild creature with `caught = 1`, every
other entry of the roster unchanged; otherwise roster and count are unchanged. So
`companion_count <= MAX_COMPANIONS` is preserved. -/
theorem capture_success (sel : Int) (kd : Keys) (g : Game) (ks : List Keys)
    (hA : kd.a = true) (hsel : move_sel sel kd = 2) (horbs : 0 < g.player.orbs)
    (hroll : (rand_range 0 99 g).1 ≤ capture_chance g.wild) :
    ((∃ k ∈ ks, k.a = true) → ∃ rest, wait_A ks = some rest ∧
      battle_loop (kd :: ks) sel g = Run.done 3 (add_companion (spend_orb g)) rest) ∧
    ((¬ ∃ k ∈ ks, k.a = true) → battle_loop (kd :: ks) sel g = Run.pending (spend_orb g)) ∧
    (g.companion_count < MAX_COMPANIONS →
      (add_companion (spend_orb g)).companion_count = g.companion_count + 1 ∧
      (add_companion (spend_orb g)).companions g.companion_count =
        { g.wild with caught := 1 } ∧
      (∀ i, i ≠ g.companion_count →
        (add_companion (spend_orb g)).companions i = g.companions i)) ∧
    (¬ g.companion_count < MAX_COMPANIONS →
      (add_companion (spend_orb g)).companion_count = g.companion_count ∧
      (add_companion (spend_orb g)).companions = g.companions) ∧
    (g.companion_count ≤ MAX_COMPANIONS →
      (add_companion (spend_orb g)).companion_count ≤ MAX_COMPANIONS) := by
  have hc : (spend_orb g).companion_count = g.companion_count := rfl
  refine ⟨?_, ?_, ?_, ?_, ?_⟩
  · intro hlater
    obtain ⟨rest, hr⟩ := wait_A_of_mem ks hlater
    refine ⟨rest, hr, ?_⟩
    have e : capture_attempt 2 g ks = Flow.ret 3 (add_companion (spend_orb g)) rest := by
      simp [capture_attempt, not_le.mpr horbs, hroll, hr]
    simp only [battle_loop]
    rw [battle_body_capture sel kd g ks hA hsel, e]
  · intro hnever
    have hr := wait_A_none ks hnever
    have e : capture_attempt 2 g ks = Flow.pending (spend_orb g) := by
      simp [capture_attempt, not_le.mpr horbs, hroll, hr]
    simp only [battle_loop]
    rw [battle_body_capture sel kd g ks hA hsel, e]
  · intro hlt
    have hlt2 : (spend_orb g).companion_count < MAX_COMPANIONS := hlt
    unfold add_companion
    rw [if_pos hlt2]
    refine ⟨rfl, ?_, ?_⟩
    · simp [set_at, hc]
      exact ⟨rfl, rfl, rfl, rfl, rfl, rfl, rfl⟩
    · intro i hi
      simp [set_at, hc, hi]; rfl
  · intro hge
    have hge2 : ¬ (spend_orb g).companion_count < MAX_COMPANIONS := hge
    unfold add_companion
    rw [if_neg hge2]
    exact ⟨rfl, rfl⟩
  · intro hle
    unfold add_companion
    split_ifs with h
    · show (spend_orb g).companion_count + 1 ≤ MAX_COMPANIONS
      omega
    · exact hle

/-- C10 on a battle against an untouched Flarepup with an empty roster: Down, Down, A opens
the capture, the roll 0 is below the chance 10, and the next A ends the battle with 3 and
the Flarepup as the first companion. -/
theorem capture_success_witness :
    (∃ rest, wait_A [no_key, press_A] = some rest ∧
      battle_loop (press_A :: [no_key, press_A]) 2 fresh_battle =
        Run.done 3 (add_companion (spend_orb fresh_battle)) rest) ∧
    (do_battle fresh_battle [press_down, press_down, press_A, no_key, press_A]).returned
      = true ∧
    (do_battle fresh_battle
      [press_down, press_down, press_A, no_key, press_A]).game.companion_count = 1 ∧
    (do_battle fresh_battle
      [press_down, press_down, press_A, no_key, press_A]).game.companions 0 =
        { flarepup_at 24 with caught := 1 } ∧
    (do_battle fresh_battle
      [press_down, press_down, press_A, no_key, press_A]).game.player.orbs = 0 :=
  ⟨(capture_success 2 press_A fresh_battle [no_key, press_A] (by decide) (by decide)
      (by decide) (by decide)).1 ⟨press_A, by decide, by decide⟩,
   by decide, by decide, by decide, by decide⟩

/-- C11: QuickAttack sets the hit points of the wild creature to
`max 0 (h - (4 * type_multiplier Neutral type + n))`, with `n = 1` when `steps mod 40 >= 30`
(night) and `n = 0` otherwise, for `steps >= 0`; the multiplier from Neutral is 1, so the
damage is 4 by day and 5 by night. No other field of the creature and no other global changes,
and this is what a pass of the battle loop with A on "Attacco rapido" does. -/
theorem quick_attack_spec (g : Game) (hsteps : 0 ≤ g.player.steps) :
    type_multiplier TYPE_NEUTRAL g.wild.type = 1 ∧
    (is_night g = true ↔ g.player.steps % 40 ≥ 30) ∧
    quick_attack g =
      { g with wild := { g.wild with
          hp := max 0 (g.wild.hp - (4 * type_multiplier TYPE_NEUTRAL g.wild.type +
            (if g.player.steps % 40 ≥ 30 then 1 else 0))) } } ∧
    (g.player.steps % 40 < 30 → (quick_attack g).wild.hp = max 0 (g.wild.hp - 4)) ∧
    (g.player.steps % 40 ≥ 30 → (quick_attack g).wild.hp = max 0 (g.wild.hp - 5)) ∧
    ((quick_attack g).wild.max_hp = g.wild.max_hp ∧ (quick_attack g).wild.name = g.wild.name ∧
      (quick_attack g).wild.type = g.wild.type ∧ (quick_attack g).wild.atk = g.wild.atk ∧
      (quick_attack g).wild.speed = g.wild.speed ∧
      (quick_attack g).wild.ability = g.wild.ability ∧
      (quick_attack g).wild.caught = g.wild.caught) ∧
    (∀ sel kd keys, kd.a = true → move_sel sel kd = 0 →
      (battle_body sel kd g keys).game = quick_attack g) := by
  have hm : type_multiplier TYPE_NEUTRAL g.wild.type = 1 := by
    cases g.wild.type <;> decide
  have hn : is_night g = true ↔ g.player.steps % 40 ≥ 30 := by
    unfold is_night
    rw [tmod_eq_emod_of_nonneg _ hsteps]
    simp
  have hq : quick_attack g =
      { g with wild := { g.wild with
          hp := max 0 (g.wild.hp - (4 * type_multiplier TYPE_NEUTRAL g.wild.type +
            (if g.player.steps % 40 ≥ 30 then 1 else 0))) } } := by
    unfold quick_attack type_mul
    simp only [hm]
    by_cases h : g.player.steps % 40 ≥ 30
    · have h1 : is_night g = true := hn.mpr h
      rw [if_pos h, if_pos h1]
      congr 2
      rw [max_def]; split_ifs <;> omega
    · have h1 : ¬ is_night g = true := fun h1 => h (hn.mp h1)
      rw [if_neg h, if_neg h1]
      congr 2
      rw [max_def]; split_ifs <;> omega
  refine ⟨hm, hn, hq, ?_, ?_, ?_, ?_⟩
  · intro h
    rw [hq, hm]
    have h1 : ¬ g.player.steps % 40 ≥ 30 := by omega
    simp only [h1, if_false]; norm_num
  · intro h
    rw [hq, hm]
    simp only [h, if_true]; norm_num
  · rw [hq]; exact ⟨rfl, rfl, rfl, rfl, rfl, rfl, rfl⟩
  · intro sel kd keys hA hsel
    have h2 : move_sel sel kd ≠ 2 := by rw [hsel]; decide
    rw [battle_body_game_attack sel kd g keys hA h2, hsel]
    simp [attacks]

/-- C11, the scenario: by day a Grass creature with 10 of 30 hit points is left with 6. -/
theorem quick_attack_spec_witness :
    sproutle_battle.wild.hp = 10 ∧ sproutle_battle.wild.max_hp = 30 ∧
    sproutle_battle.wild.type = TYPE_GRASS ∧ sproutle_battle.player.steps % 40 < 30 ∧
    (quick_attack sproutle_battle).wild.hp = max 0 (10 - 4) ∧
    (quick_attack sproutle_battle).wild.hp = 6 ∧
    (battle_body 0 press_A sproutle_battle []).game = quick_attack sproutle_battle :=
  ⟨by decide, by decide, by decide, by decide,
   (quick_attack_spec sproutle_battle (by decide)).2.2.2.1 (by decide),
   by decide,
   (quick_attack_spec sproutle_battle (by decide)).2.2.2.2.2.2 0 press_A [] (by decide)
     (by decide)⟩

/-- C12: SpecialMove sets the hit points of the wild creature to
`max 0 (h - 6 * type_multiplier t type)`, where `t` is the type of `companions[0]` when
`companion_count > 0` and Grass otherwise; the damage is 6 or 12 and does not depend on the
step counter; the roster, the player and every other global are unchanged, and this is what a
pass of the battle loop with A on "Mossa speciale" does. -/
theorem special_move_spec (g : Game) :
    special_move g =
      { g with wild := { g.wild with
          hp := max 0 (g.wild.hp - 6 * type_multiplier
            (if g.companion_count > 0 then (g.companions 0).type else TYPE_GRASS)
            g.wild.type) } } ∧
    (6 * type_multiplier (if g.companion_count > 0 then (g.companions 0).type else TYPE_GRASS)
        g.wild.type = 6 ∨
      6 * type_multiplier (if g.companion_count > 0 then (g.companions 0).type else TYPE_GRASS)
        g.wild.type = 12) ∧
    (∀ steps, (special_move { g with player := { g.player with steps := steps } }).wild =
      (special_move g).wild) ∧
    ((special_move g).companions = g.companions ∧
      (special_move g).companion_count = g.companion_count ∧
      (special_move g).player = g.player ∧ (special_move g).map_data = g.map_data) ∧
    (∀ sel kd keys, kd.a = true → move_sel sel kd = 1 →
      (battle_body sel kd g keys).game = special_move g) := by
  have hq : special_move g =
      { g with wild := { g.wild with
          hp := max 0 (g.wild.hp - 6 * type_multiplier
            (if g.companion_count > 0 then (g.companions 0).type else TYPE_GRASS)
            g.wild.type) } } := by
    unfold special_move type_mul
    simp only
    congr 2
    rw [max_def]; split_ifs <;> omega
  refine ⟨hq, ?_, ?_, ?_, ?_⟩
  · generalize (if g.companion_count > 0 then (g.companions 0).type else TYPE_GRASS) = t
    cases t <;> cases g.wild.type <;> decide
  · intro steps; rfl
  · rw [hq]; exact ⟨rfl, rfl, rfl, rfl⟩
  · intro sel kd keys hA hsel
    have h2 : move_sel sel kd ≠ 2 := by rw [hsel]; decide
    rw [battle_body_game_attack sel kd g keys hA h2, hsel]
    simp [attacks]

/-- C12 against a Grass creature with 10 hit points: with an empty roster the move is Grass
against Grass and takes 6; with a Fire companion first it takes 12 and leaves 0. -/
theorem special_move_spec_witness :
    (special_move sproutle_battle).wild.hp = 4 ∧
    (special_move sproutle_battle_with_fire).wild.hp = 0 ∧
    (battle_body 1 press_A sproutle_battle_with_fire [press_A]).game =
      special_move sproutle_battle_with_fire :=
  ⟨by decide, by decide,
   (special_move_spec sproutle_battle_with_fire).2.2.2.2 1 press_A [press_A] (by decide)
     (by decide)⟩

/-- C14: `adjacent` returns 1 iff `|x1 - x2| + |y1 - y2| = 1` and 0 otherwise; so it is 0 on
equal positions and on diagonal neighbours, and it is symmetric in its two points. -/
theorem adjacent_spec (x1 y1 x2 y2 : Int) :
    (adjacent x1 y1 x2 y2 = 1 ↔ |x1 - x2| + |y1 - y2| = 1) ∧
    (adjacent x1 y1 x2 y2 = 0 ↔ |x1 - x2| + |y1 - y2| ≠ 1) ∧
    adjacent x1 y1 x1 y1 = 0 ∧
    (|x1 - x2| = 1 → |y1 - y2| = 1 → adjacent x1 y1 x2 y2 = 0) ∧
    adjacent x1 y1 x2 y2 = adjacent x2 y2 x1 y1 := by
  have habs : ∀ d : Int, (if d < 0 then -d else d) = |d| := by
    intro d
    split_ifs with h
    · rw [abs_of_neg h]
    · rw [abs_of_nonneg (by omega)]
  have hadj : ∀ a b c d : Int,
      adjacent a b c d = if |a - c| + |b - d| = 1 then 1 else 0 := by
    intro a b c d
    unfold adjacent
    simp only [habs]
  refine ⟨?_, ?_, ?_, ?_, ?_⟩
  · rw [hadj]; split_ifs with h <;> simp [h]
  · rw [hadj]; split_ifs with h <;> simp [h]
  · rw [hadj]; simp
  · intro hx hy; rw [hadj, hx, hy]; simp
  · rw [hadj, hadj, abs_sub_comm x1 x2, abs_sub_comm y1 y2]

/-- C14 around the NPC at (6,6): the cell above is adjacent, the cell itself and the
diagonal neighbour are not. -/
theorem adjacent_spec_witness :
    adjacent 6 5 6 6 = 1 ∧ adjacent 6 6 6 6 = 0 ∧ adjacent 5 5 6 6 = 0 ∧
    adjacent 6 6 6 5 = adjacent 6 5 6 6 :=
  ⟨(adjacent_spec 6 5 6 6).1.mpr (by decide), (adjacent_spec 6 6 6 6).2.2.1,
   (adjacent_spec 5 5 6 6).2.2.2.1 (by decide) (by decide),
   (adjacent_spec 6 6 6 5).2.2.2.2⟩

/-- C15: with `wood >= 5` and `stone >= 3` quick craft takes 5 wood and 3 stone, adds one orb
and changes nothing else but the message timer, whatever the amounts above that (so also with
`wood >= 10` and `stone >= 6`); with `wood < 5` or `stone < 3` it changes nothing but the
message timer. In both cases the map is unchanged. -/
theorem try_craft_quick_first_rule (g : Game) :
    (g.player.wood ≥ 5 ∧ g.player.stone ≥ 3 →
      try_craft_quick g =
        { g with
          player := { g.player with
            wood := g.player.wood - 5
            stone := g.player.stone - 3
            orbs := g.player.orbs + 1 }
          msg_timer := 30 }) ∧
    (g.player.wood < 5 ∨ g.player.stone < 3 → try_craft_quick g = { g with msg_timer := 30 }) ∧
    ((try_craft_quick g).map_data = g.map_data ∧
      (try_craft_quick g).player.x = g.player.x ∧ (try_craft_quick g).player.y = g.player.y ∧
      (try_craft_quick g).player.steps = g.player.steps) := by
  by_cases h : g.player.wood ≥ 5 ∧ g.player.stone ≥ 3
  · have e : try_craft_quick g =
        { g with
          player := { g.player with
            wood := g.player.wood - 5
            stone := g.player.stone - 3
            orbs := g.player.orbs + 1 }
          msg_timer := 30 } := by
      unfold try_craft_quick; rw [if_pos h]
    refine ⟨fun _ => e, fun h1 => ?_, ?_⟩
    · omega
    · rw [e]; exact ⟨rfl, rfl, rfl, rfl⟩
  · have h2 : ¬ (g.player.wood ≥ 10 ∧ g.player.stone ≥ 6 ∧
        can_build_here (g.map_data g.player.y g.player.x) ≠ 0) := by
      intro h2; apply h; omega
    have e : try_craft_quick g = { g with msg_timer := 30 } := by
      unfold try_craft_quick; rw [if_neg h, if_neg h2]
    refine ⟨fun h1 => absurd h1 h, fun _ => e, ?_⟩
    rw [e]; exact ⟨rfl, rfl, rfl, rfl⟩

/-- C15, the scenario: wood 12 and stone 8 become wood 7 and stone 5 with one orb more, and
the grass tile under the player stays. -/
theorem try_craft_quick_first_rule_witness :
    rich_crafter.player.wood = 12 ∧ rich_crafter.player.stone = 8 ∧
    (try_craft_quick rich_crafter).player.wood = 7 ∧
    (try_craft_quick rich_crafter).player.stone = 5 ∧
    (try_craft_quick rich_crafter).player.orbs = rich_crafter.player.orbs + 1 ∧
    (try_craft_quick rich_crafter).map_data 4 4 = TILE_GRASS ∧
    try_craft_quick rich_crafter =
      { rich_crafter with
        player := { rich_crafter.player with
          wood := rich_crafter.player.wood - 5
          stone := rich_crafter.player.stone - 3
          orbs := rich_crafter.player.orbs + 1 }
        msg_timer := 30 } :=
  ⟨by decide, by decide, by decide, by decide, by decide, by decide,
   (try_craft_quick_first_rule rich_crafter).1 (by decide)⟩

/-- C13: in a frame whose cooldown test finds 0 (the local `move_cd` is 0 or 1 on entry) and
with a direction held, the candidate is `(nx, ny) = (x + dx, y + dy)` for the first held
direction in the order Up, Down, Left, Right. The move is committed iff
`1 <= nx <= MAP_W - 2`, `1 <= ny <= MAP_H - 2` and the tile at `(nx, ny)` is neither Wall nor
Water; then the position becomes `(nx, ny)` and steps grows by 1. Otherwise nothing changes.
In both cases the map and wood, stone and orbs are unchanged. While the cooldown is running
(`move_cd >= 2`) nothing moves. -/
theorem move_block_spec (held : Keys) (cd : Int) (g : Game)
    (hdir : held.up = true ∨ held.down = true ∨ held.left = true ∨ held.right = true) :
    ((held_dx held = 0 ∧ held_dy held = -1) ∨ (held_dx held = 0 ∧ held_dy held = 1) ∨
      (held_dx held = -1 ∧ held_dy held = 0) ∨ (held_dx held = 1 ∧ held_dy held = 0)) ∧
    (cd = 0 ∨ cd = 1 →
      (move_block held cd g).1 = 3 ∧
      ((1 ≤ g.player.x + held_dx held ∧ g.player.x + held_dx held ≤ MAP_W - 2 ∧
        1 ≤ g.player.y + held_dy held ∧ g.player.y + held_dy held ≤ MAP_H - 2 ∧
        g.map_data (g.player.y + held_dy held) (g.player.x + held_dx held) ≠ TILE_WALL ∧
        g.map_data (g.player.y + held_dy held) (g.player.x + held_dx held) ≠ TILE_WATER) →
        (move_block held cd g).2 =
          { g with player := { g.player with
              x := g.player.x + held_dx held
              y := g.player.y + held_dy held
              steps := g.player.steps + 1 } }) ∧
      (¬ (1 ≤ g.player.x + held_dx held ∧ g.player.x + held_dx held ≤ MAP_W - 2 ∧
        1 ≤ g.player.y + held_dy held ∧ g.player.y + held_dy held ≤ MAP_H - 2 ∧
        g.map_data (g.player.y + held_dy held) (g.player.x + held_dx held) ≠ TILE_WALL ∧
        g.map_data (g.player.y + held_dy held) (g.player.x + held_dx held) ≠ TILE_WATER) →
        (move_block held cd g).2 = g) ∧
      (((move_block held cd g).2.player.x = g.player.x + held_dx held ∧
        (move_block held cd g).2.player.y = g.player.y + held_dy held) ↔
        (1 ≤ g.player.x + held_dx held ∧ g.player.x + held_dx held ≤ MAP_W - 2 ∧
        1 ≤ g.player.y + held_dy held ∧ g.player.y + held_dy held ≤ MAP_H - 2 ∧
        g.map_data (g.player.y + held_dy held) (g.player.x + held_dx held) ≠ TILE_WALL ∧
        g.map_data (g.player.y + held_dy held) (g.player.x + held_dx held) ≠ TILE_WATER))) ∧
    (2 ≤ cd → move_block held cd g = (cd - 1, g)) ∧
    ((move_block held cd g).2.map_data = g.map_data ∧
      (move_block held cd g).2.player.wood = g.player.wood ∧
      (move_block held cd g).2.player.stone = g.player.stone ∧
      (move_block held cd g).2.player.orbs = g.player.orbs) := by
  have hd : (held_dx held = 0 ∧ held_dy held = -1) ∨ (held_dx held = 0 ∧ held_dy held = 1) ∨
      (held_dx held = -1 ∧ held_dy held = 0) ∨ (held_dx held = 1 ∧ held_dy held = 0) := by
    unfold held_dx held_dy
    by_cases h1 : held.up = true
    · left; simp [h1]
    by_cases h2 : held.down = true
    · right; left; simp [h1, h2]
    by_cases h3 : held.left = true
    · right; right; left; simp [h1, h2, h3]
    · have h4 : held.right = true := by
        rcases hdir with h | h | h | h
        · exact absurd h h1
        · exact absurd h h2
        · exact absurd h h3
        · exact h
      right; right; right; simp [h1, h2, h3, h4]
  have hnz : held_dx held ≠ 0 ∨ held_dy held ≠ 0 := by
    rcases hd with h | h | h | h <;> omega
  have hany : (held.up || held.down || held.left || held.right) = true := by
    rcases hdir with h | h | h | h <;> simp [h]
  have hcond : (g.player.x + held_dx held ≥ 1 ∧ g.player.x + held_dx held < MAP_W - 1 ∧
      g.player.y + held_dy held ≥ 1 ∧ g.player.y + held_dy held < MAP_H - 1) ↔
      (1 ≤ g.player.x + held_dx held ∧ g.player.x + held_dx held ≤ MAP_W - 2 ∧
      1 ≤ g.player.y + held_dy held ∧ g.player.y + held_dy held ≤ MAP_H - 2) := by
    unfold MAP_W MAP_H; omega
  have hok : (1 ≤ g.player.x + held_dx held ∧ g.player.x + held_dx held ≤ MAP_W - 2 ∧
      1 ≤ g.player.y + held_dy held ∧ g.player.y + held_dy held ≤ MAP_H - 2 ∧
      g.map_data (g.player.y + held_dy held) (g.player.x + held_dx held) ≠ TILE_WALL ∧
      g.map_data (g.player.y + held_dy held) (g.player.x + held_dx held) ≠ TILE_WATER) →
      try_move (held_dx held) (held_dy held) g =
        { g with player := { g.player with
            x := g.player.x + held_dx held
            y := g.player.y + held_dy held
            steps := g.player.steps + 1 } } := by
    intro h
    unfold try_move
    rw [if_pos hnz]
    simp only
    rw [if_pos (hcond.mpr ⟨h.1, h.2.1, h.2.2.1, h.2.2.2.1⟩), if_pos h.2.2.2.2]
  have hno : ¬ (1 ≤ g.player.x + held_dx held ∧ g.player.x + held_dx held ≤ MAP_W - 2 ∧
      1 ≤ g.player.y + held_dy held ∧ g.player.y + held_dy held ≤ MAP_H - 2 ∧
      g.map_data (g.player.y + held_dy held) (g.player.x + held_dx held) ≠ TILE_WALL ∧
      g.map_data (g.player.y + held_dy held) (g.player.x + held_dx held) ≠ TILE_WATER) →
      try_move (held_dx held) (held_dy held) g = g := by
    intro h
    unfold try_move
    rw [if_pos hnz]
    simp only
    by_cases hb : g.player.x + held_dx held ≥ 1 ∧ g.player.x + held_dx held < MAP_W - 1 ∧
        g.player.y + held_dy held ≥ 1 ∧ g.player.y + held_dy held < MAP_H - 1
    · rw [if_pos hb]
      have ht : ¬ (g.map_data (g.player.y + held_dy held) (g.player.x + held_dx held)
            ≠ TILE_WALL ∧
          g.map_data (g.player.y + held_dy held) (g.player.x + held_dx held) ≠ TILE_WATER) := by
        intro ht
        have hb2 := hcond.mp hb
        exact h ⟨hb2.1, hb2.2.1, hb2.2.2.1, hb2.2.2.2, ht⟩
      rw [if_neg ht]
    · rw [if_neg hb]
  have hmove : cd = 0 ∨ cd = 1 →
      move_block held cd g = (3, try_move (held_dx held) (held_dy held) g) := by
    intro h
    unfold move_block
    rcases h with h | h <;> subst h <;> simp [hany]
  have hframe : ∀ g1, (g1 = g ∨ g1 = { g with player := { g.player with
      x := g.player.x + held_dx held
      y := g.player.y + held_dy held
      steps := g.player.steps + 1 } }) →
      g1.map_data = g.map_data ∧ g1.player.wood = g.player.wood ∧
      g1.player.stone = g.player.stone ∧ g1.player.orbs = g.player.orbs := by
    intro g1 h
    rcases h with h | h <;> subst h <;> exact ⟨rfl, rfl, rfl, rfl⟩
  have htm : try_move (held_dx held) (held_dy held) g = g ∨
      try_move (held_dx held) (held_dy held) g = { g with player := { g.player with
        x := g.player.x + held_dx held
        y := g.player.y + held_dy held
        steps := g.player.steps + 1 } } := by
    by_cases h : (1 ≤ g.player.x + held_dx held ∧ g.player.x + held_dx held ≤ MAP_W - 2 ∧
      1 ≤ g.player.y + held_dy held ∧ g.player.y + held_dy held ≤ MAP_H - 2 ∧
      g.map_data (g.player.y + held_dy held) (g.player.x + held_dx held) ≠ TILE_WALL ∧
      g.map_data (g.player.y + held_dy held) (g.player.x + held_dx held) ≠ TILE_WATER)
    · right; exact hok h
    · left; exact hno h
  refine ⟨hd, ?_, ?_, ?_⟩
  · intro h
    rw [hmove h]
    refine ⟨rfl, hok, hno, ?_⟩
    constructor
    · intro hpos
      by_contra hc
      have e := hno hc
      simp only at hpos
      rw [e] at hpos
      rcases hd with h1 | h1 | h1 | h1 <;> omega
    · intro hc
      simp only
      rw [hok hc]
      exact ⟨rfl, rfl⟩
  · intro h
    unfold move_block
    have h1 : cd > 0 := by omega
    have h2 : ¬ cd - 1 = 0 := by omega
    simp [h1, h2]
  · by_cases h : cd = 0 ∨ cd = 1
    · rw [hmove h]; exact hframe _ htm
    · have e : (move_block held cd g).2 = g := by
        unfold move_block
        by_cases h1 : cd > 0
        · have h2 : ¬ cd - 1 = 0 := by omega
          simp [h1, h2]
        · have h2 : ¬ cd = 0 := by omega
          simp [h1, h2]
      rw [e]; exact ⟨rfl, rfl, rfl, rfl⟩

/-- C13 on a map of grass: from (4,4) a held Right moves to (5,4) and counts a step; from
(78,4) the candidate column 79 is outside the interior and nothing changes. -/
theorem move_block_spec_witness :
    (move_block hold_right 0 poor_builder).2 =
      { poor_builder with player := { poor_builder.player with
          x := poor_builder.player.x + held_dx hold_right
          y := poor_builder.player.y + held_dy hold_right
          steps := poor_builder.player.steps + 1 } } ∧
    (move_block hold_right 0 poor_builder).2.player.x = 5 ∧
    (move_block hold_right 0 poor_builder).2.player.steps = 1 ∧
    (move_block hold_right 1 edge_walker).2 = edge_walker :=
  ⟨((move_block_spec hold_right 0 poor_builder (by decide)).2.1 (by decide)).2.1 (by decide),
   by decide, by decide,
   ((move_block_spec hold_right 1 edge_walker (by decide)).2.1 (by decide)).2.2.1 (by decide)⟩

/-- C19: a creature made by `random_wild` has `hp = max_hp`, `22 <= max_hp <= 34` and
`caught = 0`. The bounds `0 <= hp <= max_hp` of the wild creature are kept by QuickAttack, by
SpecialMove, by the capture block and by `ability_tick`; a capture puts into the roster the
wild creature with `caught = 1`, so companions within the bounds stay so; and the action on a
Fire tile sets the hit points of each of the `companion_count` companions to
`min max_hp (hp + 4)`, which keeps the bounds, and changes nothing else but the message
timer. -/
theorem creature_hp_invariant (g : Game) :
    (22 ≤ (random_wild g).1.max_hp ∧ (random_wild g).1.max_hp ≤ 34 ∧
      (random_wild g).1.hp = (random_wild g).1.max_hp ∧ (random_wild g).1.caught = 0 ∧
      hp_ok (random_wild g).1) ∧
    (hp_ok g.wild → hp_ok (quick_attack g).wild) ∧
    (hp_ok g.wild → hp_ok (special_move g).wild) ∧
    (∀ sel keys, hp_ok g.wild → hp_ok (capture_attempt sel g keys).game.wild) ∧
    (∀ c, hp_ok c → hp_ok (ability_tick c g).1 ∧ (ability_tick c g).1.max_hp = c.max_hp) ∧
    (hp_ok g.wild → (∀ i, 0 ≤ i → i < g.companion_count → hp_ok (g.companions i)) →
      ∀ i, 0 ≤ i → i < (add_companion g).companion_count →
        hp_ok ((add_companion g).companions i)) ∧
    (g.map_data g.player.y g.player.x = TILE_FIRE →
      ∀ keys, try_gather_or_action g keys =
        Run.done () { g with companions := fire_heal g, msg_timer := 30 } keys) ∧
    (∀ i, 0 ≤ i → i < g.companion_count →
      fire_heal g i = { g.companions i with
        hp := min (g.companions i).max_hp ((g.companions i).hp + 4) }) ∧
    (∀ i, ¬ (0 ≤ i ∧ i < g.companion_count) → fire_heal g i = g.companions i) ∧
    ((∀ i, 0 ≤ i → i < g.companion_count → hp_ok (g.companions i)) →
      ∀ i, 0 ≤ i → i < g.companion_count → hp_ok (fire_heal g i)) := by
  obtain ⟨h22, h34, hfull, hcaught⟩ := random_wild_max_hp g
  refine ⟨⟨h22, h34, hfull, hcaught, ?_⟩, quick_attack_hp_ok g, special_move_hp_ok g,
    ?_, ?_, ?_, ?_, ?_, ?_, ?_⟩
  · unfold hp_ok; omega
  · intro sel keys h; rw [capture_attempt_wild]; exact h
  · intro c h
    refine ⟨ability_tick_hp_ok c g h, ?_⟩
    rcases ability_tick_fst c g with e | e <;> rw [e]
  · intro hw hc i h0 hi
    rw [add_companion_roster]
    rw [add_companion_count] at hi
    by_cases hlt : g.companion_count < MAX_COMPANIONS
    · rw [if_pos hlt] at hi
      by_cases he : i = g.companion_count
      · rw [if_pos ⟨hlt, he⟩]; exact hw
      · have hn : ¬ (g.companion_count < MAX_COMPANIONS ∧ i = g.companion_count) :=
          fun h => he h.2
        rw [if_neg hn]; exact hc i h0 (by omega)
    · rw [if_neg hlt] at hi
      have hn : ¬ (g.companion_count < MAX_COMPANIONS ∧ i = g.companion_count) :=
        fun h => hlt h.1
      rw [if_neg hn]; exact hc i h0 hi
  · intro hfire keys
    exact gather_on_fire g keys hfire
  · intro i h0 hi
    rw [fire_heal_apply, if_pos ⟨h0, hi⟩, heal_companion_eq]
  · intro i h
    rw [fire_heal_apply, if_neg h]
  · intro hc i h0 hi
    rw [fire_heal_apply, if_pos ⟨h0, hi⟩]
    exact heal_companion_hp_ok _ (hc i h0 hi)

/-- C19 at a Fire tile with a Flarepup at 10 of 24 and an Aquadine at 28 of 30: the action
leaves them at 14 and at 30; `ability_tick` brings an Aquadine at 29 of 30 to 30 on a roll
below 30. -/
theorem creature_hp_invariant_witness :
    try_gather_or_action by_the_fire [] =
      Run.done () { by_the_fire with companions := fire_heal by_the_fire, msg_timer := 30 } [] ∧
    fire_heal by_the_fire 0 = { by_the_fire.companions 0 with
      hp := min (by_the_fire.companions 0).max_hp ((by_the_fire.companions 0).hp + 4) } ∧
    (fire_heal by_the_fire 0).hp = 14 ∧ (fire_heal by_the_fire 1).hp = 30 ∧
    hp_ok (ability_tick (aquadine_at 29) by_the_fire).1 ∧
    (ability_tick (aquadine_at 29) by_the_fire).1.hp = 30 :=
  ⟨(creature_hp_invariant by_the_fire).2.2.2.2.2.2.1 (by decide) [],
   (creature_hp_invariant by_the_fire).2.2.2.2.2.2.2.1 0 (by decide) (by decide),
   by decide, by decide,
   ((creature_hp_invariant by_the_fire).2.2.2.2.1 (aquadine_at 29) (by decide)).1,
   by decide⟩

/-- C16: after `build_map`, whatever `rand()` returned, every cell of the map with `x = 0`,
`x = MAP_W - 1`, `y = 0` or `y = MAP_H - 1` is Wall, and so it is in every state reached by
movement, `try_build`, `try_craft_quick`, `try_gather_or_action`, `try_throw_orb` and the
passes of the battle loop. -/
theorem border_invariant :
    (∀ (g0 : Game) (y x : Int), 0 ≤ y → y < MAP_H → 0 ≤ x → x < MAP_W →
      (y = 0 ∨ y = MAP_H - 1 ∨ x = 0 ∨ x = MAP_W - 1) →
      (build_map g0).map_data y x = TILE_WALL) ∧
    (∀ (g : Game), Reachable g → ∀ (y x : Int), 0 ≤ y → y < MAP_H → 0 ≤ x → x < MAP_W →
      (y = 0 ∨ y = MAP_H - 1 ∨ x = 0 ∨ x = MAP_W - 1) → g.map_data y x = TILE_WALL) := by
  constructor
  · intro g0 y x h1 h2 h3 h4 h5
    exact (game_inv_build_map g0).1 y x ⟨h1, h2, h3, h4, h5⟩
  · intro g hg y x h1 h2 h3 h4 h5
    exact (reachable_game_inv g hg).1 y x ⟨h1, h2, h3, h4, h5⟩

/-- C16 on a state of play: the cells (0,17) and (40,79) of the border are Wall. -/
theorem border_invariant_witness :
    after_some_play.map_data 0 17 = TILE_WALL ∧ after_some_play.map_data 40 79 = TILE_WALL :=
  ⟨border_invariant.2 after_some_play after_some_play_reachable 0 17
      (by decide) (by decide) (by decide) (by decide) (by decide),
   border_invariant.2 after_some_play after_some_play_reachable 40 79
      (by decide) (by decide) (by decide) (by decide) (by decide)⟩

/-- C17: in the state `build_map` produces, whatever `rand()` returned, and in every state
reached from it by movement, `try_build`, `try_craft_quick`, `try_gather_or_action`,
`try_throw_orb` and the passes of the battle loop, the player is at
`1 <= x <= MAP_W - 2`, `1 <= y <= MAP_H - 2` on a tile that is neither Wall nor Water; so the
access to the map at the position of the player is inside the array. A new game starts at
(4,4) on a Base tile. -/
theorem position_invariant :
    (∀ (g0 : Game), (build_map g0).player.x = 4 ∧ (build_map g0).player.y = 4 ∧
      (build_map g0).map_data 4 4 = TILE_BASE) ∧
    (∀ (g : Game), Reachable g →
      (1 ≤ g.player.x ∧ g.player.x ≤ MAP_W - 2 ∧ 1 ≤ g.player.y ∧ g.player.y ≤ MAP_H - 2) ∧
      (g.map_data g.player.y g.player.x ≠ TILE_WALL ∧
        g.map_data g.player.y g.player.x ≠ TILE_WATER) ∧
      (0 ≤ g.player.x ∧ g.player.x < MAP_W ∧ 0 ≤ g.player.y ∧ g.player.y < MAP_H)) := by
  constructor
  · intro g0
    refine ⟨rfl, rfl, ?_⟩
    rw [build_map_apply, if_pos (by decide)]
  · intro g hg
    obtain ⟨h1, h2, h3, h4, h5, h6⟩ := (reachable_game_inv g hg).2.1
    refine ⟨⟨h1, h2, h3, h4⟩, ⟨h5, h6⟩, ?_⟩
    unfold MAP_W at h2 ⊢
    unfold MAP_H at h4 ⊢
    omega

/-- C17 on a state of play. -/
theorem position_invariant_witness :
    (1 ≤ after_some_play.player.x ∧ after_some_play.player.x ≤ MAP_W - 2 ∧
      1 ≤ after_some_play.player.y ∧ after_some_play.player.y ≤ MAP_H - 2) ∧
    (after_some_play.map_data after_some_play.player.y after_some_play.player.x ≠ TILE_WALL ∧
      after_some_play.map_data after_some_play.player.y after_some_play.player.x ≠
        TILE_WATER) :=
  ⟨(position_invariant.2 after_some_play after_some_play_reachable).1,
   (position_invariant.2 after_some_play after_some_play_reachable).2.1⟩

/-- C18: a new game starts with wood 8, stone 5 and orbs 1, and in every state reached from
it by `try_build`, `try_craft_quick`, `try_gather_or_action` with the dialogues and gifts of
the NPCs, `try_throw_orb`, the passes of the battle loop with the capture attempts, the night
trigger of the boss area and movement, whatever `rand()` returns, wood, stone and orbs are
not negative. -/
theorem resources_invariant :
    (∀ (g0 : Game), (build_map g0).player.wood = 8 ∧ (build_map g0).player.stone = 5 ∧
      (build_map g0).player.orbs = 1) ∧
    (∀ (g : Game), Reachable g →
      0 ≤ g.player.wood ∧ 0 ≤ g.player.stone ∧ 0 ≤ g.player.orbs) := by
  constructor
  · intro g0; exact ⟨rfl, rfl, rfl⟩
  · intro g hg; exact (reachable_game_inv g hg).2.2.1

/-- C18 on a state of play. -/
theorem resources_invariant_witness :
    0 ≤ after_some_play.player.wood ∧ 0 ≤ after_some_play.player.stone ∧
    0 ≤ after_some_play.player.orbs :=
  resources_invariant.2 after_some_play after_some_play_reachable

/-- C20 fails as stated: a frame with L held and A newly pressed runs `try_build` and then,
A being newly pressed, `try_gather_or_action`. Building a Farm (cost 8 and 8) with wood 8
and stone 8 leaves wood 1, not 0, because the new Farm is harvested in the same frame. On a
Farm tile the build is rejected and the frame still adds 1 wood. And on grass, with too few
resources and a roll below 18, the frame of the rejected build starts a battle. -/
theorem build_frame_also_gathers :
    (farm_builder.gstate = GS_WORLD ∧ current_build_w farm_builder = 8 ∧
      current_build_s farm_builder = 8 ∧ farm_builder.player.wood = 8 ∧
      farm_builder.player.stone = 8 ∧
      can_build_here (farm_builder.map_data farm_builder.player.y farm_builder.player.x) = 1 ∧
      (frame (world_of farm_builder) [press_A, hold_L_A]).world.g.map_data 4 4 = TILE_FARM ∧
      (frame (world_of farm_builder) [press_A, hold_L_A]).world.g.player.wood = 1 ∧
      (frame (world_of farm_builder) [press_A, hold_L_A]).world.g.player.wood ≠
        farm_builder.player.wood - current_build_w farm_builder) ∧
    (can_build_here (on_a_farm.map_data on_a_farm.player.y on_a_farm.player.x) = 0 ∧
      on_a_farm.player.wood = 8 ∧
      (frame (world_of on_a_farm) [press_A, hold_L_A]).world.g.player.wood = 9) ∧
    (poor_builder.player.wood < current_build_w poor_builder ∧
      poor_builder.gstate = GS_WORLD ∧
      (frame (world_of poor_builder) [press_A, hold_L_A]).world.g.gstate = GS_BATTLE) := by
  decide

/-- C20 as amended: in world mode a frame with L held and not newly pressed, A newly pressed
and nothing else pressed or held does what a frame with A alone does from the state that
`try_build` leaves: it goes on to `try_gather_or_action`, the night trigger and the timer.
After a successful build the tile under the player is the tile of the selected entry, and
wood and stone are `w - cw` and `s - cs` for the Falo and, when every placed NPC has
`gave_gift` set as `build_map` sets it, for the Torretta; for the Farm wood is `w - cw + 1`;
for the PostoLavoro one of wood and stone is raised by `1 + bonus`. After a rejected build
`try_build` has changed nothing but the message timer and the frame leaves the map as it
was. -/
theorem build_frame (w : World) (held : Keys) (ks : List Keys)
    (hworld : w.g.gstate = GS_WORLD) (hl : held.l = true) (hr : held.r = false)
    (hup : held.up = false) (hdown : held.down = false) (hleft : held.left = false)
    (hright : held.right = false) :
    frame w (press_A :: held :: ks) =
      frame { w with g := try_build w.g } (press_A :: { held with l := false } :: ks) ∧
    ((w.g.player.wood ≥ current_build_w w.g ∧ w.g.player.stone ≥ current_build_s w.g ∧
        can_build_here (w.g.map_data w.g.player.y w.g.player.x) = 1) →
      (frame w (press_A :: held :: ks)).world.g.map_data w.g.player.y w.g.player.x =
        current_build_tile w.g ∧
      (w.g.sel_build_idx = 3 →
        (frame w (press_A :: held :: ks)).world.g.player.wood =
          w.g.player.wood - current_build_w w.g ∧
        (frame w (press_A :: held :: ks)).world.g.player.stone =
          w.g.player.stone - current_build_s w.g) ∧
      (w.g.sel_build_idx = 2 →
        (frame w (press_A :: held :: ks)).world.g.player.wood =
          w.g.player.wood - current_build_w w.g + 1 ∧
        (frame w (press_A :: held :: ks)).world.g.player.stone =
          w.g.player.stone - current_build_s w.g) ∧
      (w.g.sel_build_idx = 0 →
        ((frame w (press_A :: held :: ks)).world.g.player.wood =
            w.g.player.wood - current_build_w w.g +
              (1 + (if w.g.companion_count > 0 then 1 else 0)) ∧
          (frame w (press_A :: held :: ks)).world.g.player.stone =
            w.g.player.stone - current_build_s w.g) ∨
        ((frame w (press_A :: held :: ks)).world.g.player.wood =
            w.g.player.wood - current_build_w w.g ∧
          (frame w (press_A :: held :: ks)).world.g.player.stone =
            w.g.player.stone - current_build_s w.g +
              (1 + (if w.g.companion_count > 0 then 1 else 0)))) ∧
      (w.g.sel_build_idx = 1 →
        (∀ i, 0 ≤ i → i < w.g.npc_count → (w.g.npcs i).gave_gift ≠ 0) →
        (frame w (press_A :: held :: ks)).world.g.player.wood =
          w.g.player.wood - current_build_w w.g ∧
        (frame w (press_A :: held :: ks)).world.g.player.stone =
          w.g.player.stone - current_build_s w.g)) ∧
    (¬ (w.g.player.wood ≥ current_build_w w.g ∧ w.g.player.stone ≥ current_build_s w.g ∧
        can_build_here (w.g.map_data w.g.player.y w.g.player.x) = 1) →
      try_build w.g = { w.g with msg_timer := 40 } ∧
      (frame w (press_A :: held :: ks)).world.g.map_data = w.g.map_data) := by
  have hf := frame_build_eq w held ks hworld hl hr
  obtain ⟨kmap, kwood, kstone, _, _, _⟩ :=
    world_update_A_keeps held w (try_build w.g) ks hup hdown hleft hright
  have hgmap := (mild_try_gather (try_build w.g) ks).1
  refine ⟨?_, ?_, ?_⟩
  · rw [hf, frame_plain_eq { w with g := try_build w.g } { held with l := false } ks
      (by rw [try_build_gstate]; exact hworld) rfl hr]
    rfl
  · intro hok
    rcases try_build_cases w.g with ⟨_, _, _, e⟩ | ⟨hno, _⟩
    swap
    · exact absurd hok hno
    have htile : (try_build w.g).map_data (try_build w.g).player.y (try_build w.g).player.x =
        current_build_tile w.g := by
      rw [e]; simp [set_cell]
    have hbw : (try_build w.g).player.wood = w.g.player.wood - current_build_w w.g := by
      rw [e]
    have hbs : (try_build w.g).player.stone = w.g.player.stone - current_build_s w.g := by
      rw [e]
    have hbc : (try_build w.g).companion_count = w.g.companion_count := by rw [e]
    rw [hf, kmap, kwood, kstone, hgmap]
    refine ⟨?_, ?_, ?_, ?_, ?_⟩
    · rw [e]; simp [set_cell]
    · intro h3
      have ht : current_build_tile w.g = TILE_FIRE := by
        simp [current_build_tile, BUILDINGS_LOCAL, h3]
      rw [gather_on_fire _ ks (htile.trans ht)]
      exact ⟨hbw, hbs⟩
    · intro h2
      have ht : current_build_tile w.g = TILE_FARM := by
        simp [current_build_tile, BUILDINGS_LOCAL, h2]
      rw [gather_on_farm _ ks (htile.trans ht)]
      simp only [Run.game]
      exact ⟨by rw [hbw], hbs⟩
    · intro h0
      have ht : current_build_tile w.g = TILE_POST := by
        simp [current_build_tile, BUILDINGS_LOCAL, h0]
      rw [gather_on_post _ ks (htile.trans ht)]
      by_cases hroll : (rand_range 0 1 (try_build w.g)).1 = 0
      · rw [if_pos hroll]
        left
        simp only [Run.game]
        exact ⟨by rw [hbw, hbc], hbs⟩
      · rw [if_neg hroll]
        right
        simp only [Run.game]
        exact ⟨hbw, by rw [hbs, hbc]⟩
    · intro h1 hgave
      have ht : current_build_tile w.g = TILE_TOWER := by
        simp [current_build_tile, BUILDINGS_LOCAL, h1]
      rw [gather_on_tower _ ks (htile.trans ht)]
      have hnpc : ∀ i, 0 ≤ i → i < (try_build w.g).npc_count →
          ((try_build w.g).npcs i).gave_gift ≠ 0 := by
        rw [e]; exact hgave
      have hp := talk_scan_no_gift (try_build w.g) ks hnpc
        (try_build w.g).npc_count.toNat 0 (le_refl _)
      unfold talk_to_nearby_npc
      rw [hp]
      exact ⟨hbw, hbs⟩
  · intro hno
    rcases try_build_cases w.g with ⟨h1, h2, h3, _⟩ | ⟨_, e⟩
    · exact absurd ⟨h1, h2, h3⟩ hno
    refine ⟨e, ?_⟩
    rw [hf, kmap, hgmap, e]

/-- C20 as amended, at the Farm built with wood 8 and stone 8: after the frame the tile is
the Farm, wood is `8 - 8 + 1` and stone is `8 - 8`. -/
theorem build_frame_witness :
    (frame (world_of farm_builder) (press_A :: hold_L_A :: [])).world.g.map_data
        (world_of farm_builder).g.player.y (world_of farm_builder).g.player.x =
      current_build_tile (world_of farm_builder).g ∧
    (frame (world_of farm_builder) (press_A :: hold_L_A :: [])).world.g.player.wood =
      (world_of farm_builder).g.player.wood - current_build_w (world_of farm_builder).g + 1 ∧
    (frame (world_of farm_builder) (press_A :: hold_L_A :: [])).world.g.player.stone =
      (world_of farm_builder).g.player.stone - current_build_s (world_of farm_builder).g :=
  have h := (build_frame (world_of farm_builder) hold_L_A [] (by decide) (by decide)
    (by decide) (by decide) (by decide) (by decide) (by decide)).2.1
    ⟨by decide, by decide, by decide⟩
  ⟨h.1, (h.2.2.1 (by decide)).1, (h.2.2.1 (by decide)).2⟩

/-- C21: quick craft leaves every cell of the map as it was, in every state. Its second rule,
which would put a WorkPost under the player, is never reached: it asks for `wood >= 10` and
`stone >= 6` after the first rule has returned on `wood >= 5` and `stone >= 3`. So quick
craft either converts 5 wood and 3 stone into an orb or rejects, and in both cases changes
nothing else but the message timer; a WorkPost found under the player afterwards was there
before. -/
theorem try_craft_quick_keeps_map (g : Game) :
    (∀ y x, (try_craft_quick g).map_data y x = g.map_data y x) ∧
    ¬ (¬ (g.player.wood ≥ 5 ∧ g.player.stone ≥ 3) ∧
      (g.player.wood ≥ 10 ∧ g.player.stone ≥ 6)) ∧
    (g.player.wood ≥ 5 ∧ g.player.stone ≥ 3 →
      try_craft_quick g =
        { g with
          player := { g.player with
            wood := g.player.wood - 5
            stone := g.player.stone - 3
            orbs := g.player.orbs + 1 }
          msg_timer := 30 }) ∧
    (¬ (g.player.wood ≥ 5 ∧ g.player.stone ≥ 3) →
      try_craft_quick g = { g with msg_timer := 30 }) ∧
    ((try_craft_quick g).map_data g.player.y g.player.x = TILE_POST →
      g.map_data g.player.y g.player.x = TILE_POST) := by
  have e := try_craft_quick_eq g
  by_cases h : g.player.wood ≥ 5 ∧ g.player.stone ≥ 3
  · rw [if_pos h] at e
    refine ⟨?_, by omega, fun _ => e, fun hn => absurd h hn, ?_⟩
    · intro y x; rw [e]
    · rw [e]; exact fun hp => hp
  · rw [if_neg h] at e
    refine ⟨?_, by omega, fun hy => absurd hy h, fun _ => e, ?_⟩
    · intro y x; rw [e]
    · rw [e]; exact fun hp => hp

/-- C21 on a grass tile with wood 12 and stone 8, enough for the second rule: the tile stays
grass, no WorkPost is placed, and the first rule has fired. -/
theorem try_craft_quick_keeps_map_witness :
    can_build_here (rich_crafter.map_data rich_crafter.player.y rich_crafter.player.x) = 1 ∧
    rich_crafter.player.wood ≥ 10 ∧ rich_crafter.player.stone ≥ 6 ∧
    (try_craft_quick rich_crafter).map_data 4 4 = rich_crafter.map_data 4 4 ∧
    (try_craft_quick rich_crafter).map_data 4 4 = TILE_GRASS ∧
    (try_craft_quick rich_crafter).player.orbs = 2 :=
  ⟨by decide, by decide, by decide, (try_craft_quick_keeps_map rich_crafter).1 4 4,
   by decide, by decide⟩

/-- C22: in a new game, whatever `rand()` returned, the NPC "Guardiano" is the third of the
table and stands at (60,12), and every cell at Manhattan distance 1 from (60,12) is Water. In
every state reached by movement, `try_build`, `try_craft_quick`, `try_gather_or_action`,
`try_throw_orb` and the passes of the battle loop these cells are still Water and the NPC is
still at (60,12); the player never stands on Water, so `adjacent` of the position of the
player and (60,12) is 0, and the test of `talk_to_nearby_npc` for this NPC never succeeds. -/
theorem guardian_never_adjacent :
    (∀ (g0 : Game), ((build_map g0).npcs 2).name = some "Guardiano" ∧
      ((build_map g0).npcs 2).x = 60 ∧ ((build_map g0).npcs 2).y = 12 ∧
      (build_map g0).npc_count = 3 ∧
      ∀ (y x : Int), |x - 60| + |y - 12| = 1 → (build_map g0).map_data y x = TILE_WATER) ∧
    (∀ (g : Game), Reachable g →
      (∀ (y x : Int), |x - 60| + |y - 12| = 1 → g.map_data y x = TILE_WATER) ∧
      ((g.npcs 2).x = 60 ∧ (g.npcs 2).y = 12) ∧
      adjacent g.player.x g.player.y 60 12 = 0 ∧
      adjacent g.player.x g.player.y (g.npcs 2).x (g.npcs 2).y = 0) := by
  constructor
  · intro g0
    exact ⟨rfl, rfl, rfl, rfl, guardian_cells _ (guardian_build_map g0)⟩
  · intro g hg
    have hw := reachable_guardian g hg
    have hp := (reachable_game_inv g hg).2.1
    have ha := not_adjacent_guardian g hw hp
    refine ⟨guardian_cells g hw, ⟨hw.2.2.2.2.1, hw.2.2.2.2.2⟩, ha, ?_⟩
    rw [hw.2.2.2.2.1, hw.2.2.2.2.2]
    exact ha

/-- C22 on a state of play: the cell (59,12) is Water and the player is not adjacent to
(60,12). -/
theorem guardian_never_adjacent_witness :
    after_some_play.map_data 12 59 = TILE_WATER ∧
    adjacent after_some_play.player.x after_some_play.player.y 60 12 = 0 :=
  ⟨(guardian_never_adjacent.2 after_some_play after_some_play_reachable).1 12 59 (by decide),
   (guardian_never_adjacent.2 after_some_play after_some_play_reachable).2.2.1⟩

end FaunaFrontier
